import Mathlib

/-!
ULightCpp: the test lifecycle engine and its task runner.

A shallow embedding of `ULightCpp.cpp`, `ULightCpp.h`,
`ULightCppThreadStarter.cpp` and `ULightTestTimer.cpp`.

Modelling conventions.

* `std::wstring` is `String`; `std::less<std::wstring>` compares the code
  units lexicographically, which is the order of `String.data`.
* `std::function<void()>` is `StdFunction`: an empty function is `none`, a
  bound one is `some o` where `o` is what invoking it does as far as the
  engine can observe: it returns, or it raises.  Every registered action is
  invoked at most once in a pass, so one outcome per action loses nothing.
  What an action does to the harness through the reporting and timing macros
  is not part of its outcome; what a timer does to the harness when it goes
  out of scope is the function `ULightTestTimer.destructor`.
* `size_t` counters are `Nat`: a counter is incremented once per element of an
  in-memory `std::vector`, so it stays far below `2^64`.
* `int64_t` and `long` arithmetic of the timer is `Int` arithmetic wrapped to
  64 bits (`wrap64`).  A call of the platform clock is a value of `Clock`: what
  the call returns and what it leaves in the structure it fills.
  The `int` counters of the report wrap to 32 bits (`wrap32`).  The one
  floating-point expression, in the destructor of the timer, is a parameter of
  the model; `sample_rate` is its value under IEEE 754 double arithmetic.
* A mutated object is passed in and returned; the actions invoked by a
  function are returned next to the new state, in invocation order.
-/

namespace ULightCpp

/-! ## Raised conditions and actions -/

/-- Fields of a `UnitTestException` object (`ULightCpp.h`). -/
structure UnitTestException where
  error : String
  filename : String
  lineNumber : Int
  deriving DecidableEq

/-- Conditions a call can raise, split the way the handler chains of
`RunTestFn` and `thread_proc` split them; `other` is whatever reaches
`catch(...)`. -/
inductive Raised where
  | UnitTestException (ex : ULightCpp.UnitTestException)
  | UnitTestSkipException
  | UnitTestIncompleteException
  | other
  deriving DecidableEq

/-- Observable result of invoking an action once. -/
inductive Outcome where
  | returns
  | throws (e : Raised)
  deriving DecidableEq

/-- Model of `std::function<void()>`; `none` is the empty function. -/
abbrev StdFunction := Option Outcome

/-- Contextual conversion to bool of a `std::function`. -/
def StdFunction.toBool (f : StdFunction) : Bool := f.isSome

/-- Invocation `f()`; invoking an empty function raises
`std::bad_function_call`, which only `catch(...)` handles. -/
def StdFunction.call : StdFunction → Outcome
  | none => Outcome.throws Raised.other
  | some o => o

/-- Holds when invoking `f`, if it is bound at all, raises nothing. -/
def StdFunction.quiet : StdFunction → Bool
  | some (Outcome.throws _) => false
  | _ => true

/-! ## `std::map<std::wstring, size_t>` -/

/-- A `std::map<std::wstring, size_t>`, given by its entries in iteration
order, that is by ascending key. -/
abbrev StdMap := List (String × Nat)

/-- Lookup `m.find(k)`: the mapped value, `none` for `m.end()`. -/
def StdMap.find : StdMap → String → Option Nat
  | [], _ => none
  | (k', c) :: rest, k => if k' = k then some c else StdMap.find rest k

/-- Insertion `m.emplace(k, v)`: puts the entry at its place in key order,
and does nothing when the key is already present. -/
def StdMap.emplace : StdMap → String → Nat → StdMap
  | [], k, v => [(k, v)]
  | (k', c) :: rest, k, v =>
    if k.data < k'.data then (k, v) :: (k', c) :: rest
    else if k = k' then (k', c) :: rest
    else (k', c) :: StdMap.emplace rest k v

/-- Statement `m[k] += d`: `operator[]` first inserts `(k, 0)` when the key
is absent. -/
def StdMap.addAt (m : StdMap) (k : String) (d : Nat) : StdMap :=
  (StdMap.emplace m k 0).map (fun e => if e.1 = k then (e.1, e.2 + d) else e)

/-! ## The task runner (`ULightCppThreadStarter`) -/

/-- Snapshot returned by `ULightTestThreadStarter::run`. -/
structure ULightRunResults where
  passed : Nat
  failed : Nat
  skipped : Nat
  incomplete : Nat
  errors : List (String × Nat)
  deriving DecidableEq

/-- Counters shared by the workers of one run; the mutex makes every member
function atomic, so each is a function on the whole state. -/
structure ULightTestThreadInfo where
  m_passed : Nat
  m_failed : Nat
  m_skipped : Nat
  m_incomplete : Nat
  m_errors : StdMap
  deriving DecidableEq

/-- Constructor `ULightTestThreadInfo::ULightTestThreadInfo`. -/
def ULightTestThreadInfo.new : ULightTestThreadInfo :=
  { m_passed := 0, m_failed := 0, m_skipped := 0, m_incomplete := 0, m_errors := [] }

def ULightTestThreadInfo.get_passed (info : ULightTestThreadInfo) : Nat := info.m_passed

def ULightTestThreadInfo.get_failed (info : ULightTestThreadInfo) : Nat := info.m_failed

def ULightTestThreadInfo.get_skipped (info : ULightTestThreadInfo) : Nat := info.m_skipped

def ULightTestThreadInfo.get_incomplete (info : ULightTestThreadInfo) : Nat :=
  info.m_incomplete

/-- Copies the entries of `m_errors` from `begin()` to `end()`. -/
def ULightTestThreadInfo.get_errors (info : ULightTestThreadInfo) : List (String × Nat) :=
  info.m_errors.foldl (fun ret it => ret ++ [it]) []

def ULightTestThreadInfo.set_passed (info : ULightTestThreadInfo) : ULightTestThreadInfo :=
  { info with m_passed := info.m_passed + 1 }

def ULightTestThreadInfo.set_skipped (info : ULightTestThreadInfo) : ULightTestThreadInfo :=
  { info with m_skipped := info.m_skipped + 1 }

def ULightTestThreadInfo.set_incomplete (info : ULightTestThreadInfo) :
    ULightTestThreadInfo :=
  { info with m_incomplete := info.m_incomplete + 1 }

def ULightTestThreadInfo.set_failed (info : ULightTestThreadInfo) (error : String) :
    ULightTestThreadInfo :=
  { info with
    m_failed := info.m_failed + 1
    m_errors :=
      match StdMap.find info.m_errors error with
      | none => StdMap.emplace info.m_errors error 1
      | some _ => StdMap.addAt info.m_errors error 1 }

/-- Body of one worker thread: runs `func` and records what it raised.  A
normal return records nothing. -/
def thread_proc (func : StdFunction) (info : ULightTestThreadInfo) : ULightTestThreadInfo :=
  match func.call with
  | Outcome.returns => info
  | Outcome.throws (Raised.UnitTestException ex) => info.set_failed ex.error
  | Outcome.throws Raised.UnitTestSkipException => info.set_skipped
  | Outcome.throws Raised.UnitTestIncompleteException => info.set_incomplete
  | Outcome.throws Raised.other => info.set_failed "Unexpected exception"

/-- Text that `thread_proc` hands to `set_failed` for this worker, `none`
when the worker does not reach `set_failed`. -/
def StdFunction.failure (f : StdFunction) : Option String :=
  match f.call with
  | Outcome.throws (Raised.UnitTestException ex) => some ex.error
  | Outcome.throws Raised.other => some "Unexpected exception"
  | _ => none

/-- The worker reaches `set_failed`. -/
def StdFunction.fails (f : StdFunction) : Bool := f.failure.isSome

/-- The worker reaches `set_skipped`. -/
def StdFunction.skips (f : StdFunction) : Bool :=
  decide (f.call = Outcome.throws Raised.UnitTestSkipException)

/-- The worker reaches `set_incomplete`. -/
def StdFunction.incompletes (f : StdFunction) : Bool :=
  decide (f.call = Outcome.throws Raised.UnitTestIncompleteException)

/-- State of a `ULightTestThreadStarter`.  A `std::thread` in `m_threads` is
represented by the function it runs. -/
structure ULightTestThreadStarter where
  m_tasks : List StdFunction
  m_threads : List StdFunction
  deriving DecidableEq

/-- A default-constructed starter: both vectors are empty. -/
def ULightTestThreadStarter.new : ULightTestThreadStarter :=
  { m_tasks := [], m_threads := [] }

/-- Member `ULightTestThreadStarter::add`: `count` times `push_back(func)`. -/
def ULightTestThreadStarter.add (s : ULightTestThreadStarter) (func : StdFunction) :
    Nat → ULightTestThreadStarter
  | 0 => s
  | count + 1 =>
    let s1 := ULightTestThreadStarter.add s func count
    { s1 with m_tasks := s1.m_tasks ++ [func] }

/-- State of the shared counters once the workers whose positions in `tasks`
are listed in `order` have finished, in that order.  The mutex serialises the
updates, so an execution of the started threads is such an order, with
`order` a permutation of the positions. -/
def join_in_order (tasks : List StdFunction) (order : List Nat) : ULightTestThreadInfo :=
  order.foldl
    (fun info i =>
      match tasks.get? i with
      | some func => thread_proc func info
      | none => info)
    ULightTestThreadInfo.new

/-- Member `ULightTestThreadStarter::run`: one thread per task, all joined,
`m_threads` cleared, the counters copied out; `m_tasks` is not touched.
Starting a thread is taken to succeed.  The workers are taken in the order of
the bag; `join_in_order_perm` shows that every other completion order leaves
the same counters and the same error map. -/
def ULightTestThreadStarter.run (s : ULightTestThreadStarter) :
    ULightRunResults × ULightTestThreadStarter :=
  let info := s.m_tasks.foldl (fun info task => thread_proc task info) ULightTestThreadInfo.new
  ({ passed := info.get_passed
     failed := info.get_failed
     skipped := info.get_skipped
     incomplete := info.get_incomplete
     errors := info.get_errors },
   { s with m_threads := [] })

def ULightTestThreadStarter.has_tasks (s : ULightTestThreadStarter) : Bool :=
  decide (s.m_tasks.length > 0)

/-! ## Test descriptors and the lifecycle (`ULightCpp`) -/

inductive ULightTestStatus where
  | Inconclusive
  | Passed
  | Failed
  | Skipped
  | Incomplete
  deriving DecidableEq

inductive ULightTestStage where
  | Setup
  | Run
  | Teardown
  | Task
  deriving DecidableEq

structure ULightTestInfo where
  testName : String
  testSetup : StdFunction
  testTeardown : StdFunction
  testFn : StdFunction
  threadStarter : ULightTestThreadStarter
  status : ULightTestStatus
  error : String
  filename : String
  lineNumber : Int
  ignore : Bool
  stressTest : Bool
  benchmarked : Bool
  benchmarktime : Int
  itemsPerSecond : Int
  deriving DecidableEq

/-- Constructor `ULightTestInfo::ULightTestInfo`; the members it does not
name are default-constructed. -/
def ULightTestInfo.new (testName_ : String) (testFn_ : StdFunction) (stressTest_ : Bool) :
    ULightTestInfo :=
  { testName := testName_
    testSetup := none
    testTeardown := none
    testFn := testFn_
    threadStarter := ULightTestThreadStarter.new
    status := ULightTestStatus.Inconclusive
    error := ""
    filename := ""
    lineNumber := 0
    ignore := false
    stressTest := stressTest_
    benchmarked := false
    benchmarktime := 0
    itemsPerSecond := 0 }

/-- An action of a descriptor that the engine invoked; `task i` is the
worker started for position `i` of the task bag. -/
inductive Invocation where
  | testSetup
  | task (i : Nat)
  | testFn
  | testTeardown
  deriving DecidableEq

/-- Effect of the `try` block of `RunTestFn`: the descriptor as the block
left it, the actions invoked, and the condition that left the block, if any. -/
structure Attempt where
  testInfo : ULightTestInfo
  invoked : List Invocation
  raised : Option Raised

/-- The statements of the Task branch of `RunTestFn`: run the bag, derive the
status from the counters, and build the error text from `errors[0]` when
`errors.size() > 0`. -/
def RunTestFn_task (testInfo : ULightTestInfo) : ULightTestInfo :=
  let ran := testInfo.threadStarter.run
  let results := ran.1
  let t0 := { testInfo with threadStarter := ran.2 }
  let t1 :=
    if results.failed > 0 then { t0 with status := ULightTestStatus.Failed }
    else if results.incomplete > 0 then { t0 with status := ULightTestStatus.Incomplete }
    else if results.skipped > 0 then { t0 with status := ULightTestStatus.Skipped }
    else t0
  let errors := results.errors
  match errors with
  | first :: _ =>
    { t1 with error := "Error occurred in " ++ toString first.2 ++ " threads: " ++ first.1 }
  | [] => t1

/-- The `try` block of `RunTestFn`. -/
def RunTestFn_try (stage : ULightTestStage) (testInfo : ULightTestInfo)
    (runStressTests : Bool) : Attempt :=
  if (!runStressTests && testInfo.stressTest) = true then
    { testInfo := testInfo, invoked := [], raised := some Raised.UnitTestSkipException }
  else if stage = ULightTestStage.Setup ∧ testInfo.testSetup.toBool = true then
    match testInfo.testSetup.call with
    | Outcome.returns =>
      { testInfo := testInfo, invoked := [Invocation.testSetup], raised := none }
    | Outcome.throws e =>
      { testInfo := testInfo, invoked := [Invocation.testSetup], raised := some e }
  else if stage = ULightTestStage.Task ∧ testInfo.threadStarter.has_tasks = true then
    { testInfo := RunTestFn_task testInfo
      invoked := (List.range testInfo.threadStarter.m_tasks.length).map Invocation.task
      raised := none }
  else if stage = ULightTestStage.Run ∧ testInfo.status = ULightTestStatus.Inconclusive then
    if testInfo.testFn.toBool = true then
      match testInfo.testFn.call with
      | Outcome.returns =>
        { testInfo := { testInfo with status := ULightTestStatus.Passed }
          invoked := [Invocation.testFn], raised := none }
      | Outcome.throws e =>
        { testInfo := testInfo, invoked := [Invocation.testFn], raised := some e }
    else if testInfo.threadStarter.has_tasks = true then
      { testInfo := { testInfo with status := ULightTestStatus.Passed }
        invoked := [], raised := none }
    else { testInfo := testInfo, invoked := [], raised := none }
  else if stage = ULightTestStage.Teardown ∧ testInfo.testTeardown.toBool = true then
    match testInfo.testTeardown.call with
    | Outcome.returns =>
      { testInfo := testInfo, invoked := [Invocation.testTeardown], raised := none }
    | Outcome.throws e =>
      { testInfo := testInfo, invoked := [Invocation.testTeardown], raised := some e }
  else { testInfo := testInfo, invoked := [], raised := none }

/-- The four `catch` clauses of `RunTestFn`. -/
def RunTestFn_catch (e : Raised) (testInfo : ULightTestInfo) : ULightTestInfo :=
  match e with
  | Raised.UnitTestException ex =>
    { testInfo with
      status := ULightTestStatus.Failed
      error := ex.error
      filename := ex.filename
      lineNumber := ex.lineNumber }
  | Raised.UnitTestSkipException => { testInfo with status := ULightTestStatus.Skipped }
  | Raised.UnitTestIncompleteException =>
    { testInfo with status := ULightTestStatus.Incomplete }
  | Raised.other =>
    { testInfo with
      status := ULightTestStatus.Failed
      error := "Unexpected exception"
      filename := ""
      lineNumber := 0 }

/-- Function `RunTestFn`: the descriptor after the stage, and the actions
the stage invoked. -/
def RunTestFn (stage : ULightTestStage) (testInfo : ULightTestInfo) (runStressTests : Bool) :
    ULightTestInfo × List Invocation :=
  let a := RunTestFn_try stage testInfo runStressTests
  match a.raised with
  | none => (a.testInfo, a.invoked)
  | some e => (RunTestFn_catch e a.testInfo, a.invoked)

/-- Function `RunTest`: the four stages in the order Setup, Task, Run,
Teardown. -/
def RunTest (testInfo : ULightTestInfo) (runStressTests : Bool) :
    ULightTestInfo × List Invocation :=
  let s1 := RunTestFn ULightTestStage.Setup testInfo runStressTests
  let s2 := RunTestFn ULightTestStage.Task s1.1 runStressTests
  let s3 := RunTestFn ULightTestStage.Run s2.1 runStressTests
  let s4 := RunTestFn ULightTestStage.Teardown s3.1 runStressTests
  (s4.1, s1.2 ++ s2.2 ++ s3.2 ++ s4.2)

/-- Data members of `ULightTests` (the output stream apart).  The pointer
`m_currentTest` is the position of the descriptor in `m_tests`. -/
structure ULightTests where
  m_tests : List ULightTestInfo
  m_namedTests : List String
  m_reportsBack : List String
  m_elapsedTime : Int
  m_benchmarks : Bool
  m_reports : Bool
  m_verbose : Bool
  m_runStressTests : Bool
  m_currentTest : Option Nat

/-- Body of the loop of `ULightTests::Execute` for one descriptor. -/
def Execute_body (m_namedTests : List String) (m_runStressTests : Bool) (namedOnly : Bool)
    (testInfo : ULightTestInfo) : ULightTestInfo × List Invocation :=
  if namedOnly = true then
    if testInfo.testName ∈ m_namedTests then RunTest testInfo m_runStressTests
    else ({ testInfo with ignore := true }, [])
  else RunTest testInfo m_runStressTests

/-- The loop of `ULightTests::Execute` over the descriptors from position `i`
on: the descriptors after the pass, and every invoked action tagged with the
position of its descriptor. -/
def Execute_loop (m_namedTests : List String) (m_runStressTests : Bool) (namedOnly : Bool) :
    Nat → List ULightTestInfo → List ULightTestInfo × List (Nat × Invocation)
  | _, [] => ([], [])
  | i, testInfo :: rest =>
    let r := Execute_body m_namedTests m_runStressTests namedOnly testInfo
    let rs := Execute_loop m_namedTests m_runStressTests namedOnly (i + 1) rest
    (r.1 :: rs.1, r.2.map (fun c => (i, c)) ++ rs.2)

/-- Member `ULightTests::Execute`; `elapsed` is what `timer.Poll()` returns
at the end of the pass. -/
def ULightTests.Execute (h : ULightTests) (elapsed : Int) :
    ULightTests × List (Nat × Invocation) :=
  let namedOnly := decide (h.m_namedTests.length > 0)
  let r := Execute_loop h.m_namedTests h.m_runStressTests namedOnly 0 h.m_tests
  ({ h with
     m_tests := r.1
     m_currentTest := if h.m_tests.isEmpty = true then h.m_currentTest else none
     m_elapsedTime := elapsed },
   r.2)

/-- The function object that `RunTestFn` itself calls at a stage.  At the Task
stage it calls none: it calls `threadStarter.run()`, and the tasks are invoked
by `thread_proc` on the worker threads. -/
def ULightTestInfo.stageFn (t : ULightTestInfo) : ULightTestStage → StdFunction
  | ULightTestStage.Setup => t.testSetup
  | ULightTestStage.Run => t.testFn
  | ULightTestStage.Teardown => t.testTeardown
  | ULightTestStage.Task => none

/-- Class invariant of `std::map`: the keys are strictly ascending. -/
def StdMap.Ordered (m : StdMap) : Prop :=
  List.Pairwise (fun a b => a.1.data < b.1.data) m

/-- Number of workers of a bag that hand the text `k` to `set_failed`. -/
def tally (l : List StdFunction) (k : String) : Nat :=
  l.countP (fun f => decide (f.failure = some k))

/-! ## Registration -/

/-- Constructor `ULightTests::ULightTests`. -/
def ULightTests.new : ULightTests :=
  { m_tests := []
    m_namedTests := []
    m_reportsBack := []
    m_elapsedTime := 0
    m_benchmarks := false
    m_reports := false
    m_verbose := false
    m_runStressTests := false
    m_currentTest := none }

/-- Function `FindOrCreateTestInfo`: the registry after the call, and the
position in it of the descriptor whose address is returned. -/
def FindOrCreateTestInfo (m_tests : List ULightTestInfo) (testName_ : String) :
    List ULightTestInfo × Nat :=
  match m_tests.findIdx? (fun i => decide (i.testName = testName_)) with
  | some pos => (m_tests, pos)
  | none => (m_tests ++ [ULightTestInfo.new testName_ none false], m_tests.length)

/-- Assignment through the pointer to the descriptor at position `pos`. -/
def assign_at (f : ULightTestInfo → ULightTestInfo) :
    List ULightTestInfo → Nat → List ULightTestInfo
  | [], _ => []
  | t :: rest, 0 => f t :: rest
  | t :: rest, pos + 1 => t :: assign_at f rest pos

def ULightTests.AddTestSetup (h : ULightTests) (testName_ : String) (testFn_ : StdFunction) :
    ULightTests :=
  let r := FindOrCreateTestInfo h.m_tests testName_
  { h with m_tests := assign_at (fun testInfo => { testInfo with testSetup := testFn_ }) r.1 r.2 }

def ULightTests.AddTestTeardown (h : ULightTests) (testName_ : String)
    (testFn_ : StdFunction) : ULightTests :=
  let r := FindOrCreateTestInfo h.m_tests testName_
  { h with
    m_tests := assign_at (fun testInfo => { testInfo with testTeardown := testFn_ }) r.1 r.2 }

def ULightTests.AddTask (h : ULightTests) (testName_ : String) (testFn_ : StdFunction)
    (count : Nat) : ULightTests :=
  let r := FindOrCreateTestInfo h.m_tests testName_
  { h with
    m_tests :=
      assign_at
        (fun testInfo =>
          { testInfo with threadStarter := testInfo.threadStarter.add testFn_ count })
        r.1 r.2 }

def ULightTests.AddTest (h : ULightTests) (testName_ : String) (testFn_ : StdFunction)
    (stressTest_ : Bool) : ULightTests :=
  let r := FindOrCreateTestInfo h.m_tests testName_
  { h with
    m_tests :=
      assign_at (fun testInfo => { testInfo with testFn := testFn_, stressTest := stressTest_ })
        r.1 r.2 }

/-- Arguments of one `UnitTest` object, as the registration macros pass
them. -/
structure Registration where
  test : StdFunction
  testName : String
  stressTest : Bool
  stage : ULightTestStage
  count : Nat

/-- Constructor `UnitTest::UnitTest`. -/
def UnitTest (unitTests : ULightTests) (r : Registration) : ULightTests :=
  if r.stage = ULightTestStage.Setup then unitTests.AddTestSetup r.testName r.test
  else if r.stage = ULightTestStage.Task then unitTests.AddTask r.testName r.test r.count
  else if r.stage = ULightTestStage.Run then unitTests.AddTest r.testName r.test r.stressTest
  else if r.stage = ULightTestStage.Teardown then unitTests.AddTestTeardown r.testName r.test
  else unitTests

/-- The harness after a sequence of registrations, starting from the freshly
constructed one. -/
def registered (calls : List Registration) : ULightTests :=
  calls.foldl UnitTest ULightTests.new

/-! ## Sample actions, descriptors and registries -/

def sample_exception : UnitTestException :=
  { error := "expected 1", filename := "tests.cpp", lineNumber := 42 }

def failing : StdFunction := some (Outcome.throws (Raised.UnitTestException sample_exception))

def passing : StdFunction := some Outcome.returns

def skipping : StdFunction := some (Outcome.throws Raised.UnitTestSkipException)

def incompleting : StdFunction := some (Outcome.throws Raised.UnitTestIncompleteException)

def crashing : StdFunction := some (Outcome.throws Raised.other)

/-- A freshly constructed descriptor on which the given actions and tasks
have been registered. -/
def sample_descriptor (setup teardown body : StdFunction) (tasks : List StdFunction)
    (stress : Bool) : ULightTestInfo :=
  { ULightTestInfo.new "sample" body stress with
    testSetup := setup
    testTeardown := teardown
    threadStarter := { m_tasks := tasks, m_threads := [] } }

/-- The bag after `add(failingFn, N)` and `add(passingFn, M)` on a new
starter. -/
def bag_of_copies (failingFn passingFn : StdFunction) (N M : Nat) : ULightTestThreadStarter :=
  (ULightTestThreadStarter.new.add failingFn N).add passingFn M

/-- Setup, body and two workers pass, no teardown; the bag also holds a worker
that skips and one that reports incomplete. -/
def mixed_bag_descriptor : ULightTestInfo :=
  sample_descriptor passing none passing [skipping, incompleting, passing] false

/-- Only a failing setup and a passing body. -/
def failing_setup_descriptor : ULightTestInfo :=
  sample_descriptor failing none passing [] false

/-- Only a single task, which fails an assertion. -/
def failing_task_descriptor : ULightTestInfo :=
  sample_descriptor none none none [failing] false

/-- Everything passes, the body fails an assertion. -/
def failing_body_descriptor : ULightTestInfo :=
  sample_descriptor passing passing failing [passing, passing] false

/-- Everything passes. -/
def passing_descriptor : ULightTestInfo :=
  sample_descriptor passing passing passing [passing, passing] false

/-- A stress test with setup, teardown, body and a task. -/
def stress_descriptor : ULightTestInfo :=
  sample_descriptor passing passing passing [passing] true

/-- Setup fails, a worker fails, and there is a teardown. -/
def troubled_descriptor : ULightTestInfo :=
  sample_descriptor failing passing passing [failing] false

/-- The body fails an assertion and the teardown raises the skip signal. -/
def skipping_teardown_descriptor : ULightTestInfo :=
  sample_descriptor none skipping failing [] false

/-- No body; the only worker raises the skip signal. -/
def skipping_task_descriptor : ULightTestInfo :=
  sample_descriptor none none none [skipping] false

/-- No body; both workers return normally. -/
def tasks_only_descriptor : ULightTestInfo :=
  sample_descriptor passing none none [passing, passing] false

/-- The descriptor that registering the failing body `a` creates. -/
def test_a : ULightTestInfo := ULightTestInfo.new "a" failing false

/-- Two registered tests, `a` with a failing body and `b` with a passing one. -/
def two_tests : ULightTests :=
  registered
    [ { test := failing, testName := "a", stressTest := false,
        stage := ULightTestStage.Run, count := 0 },
      { test := passing, testName := "b", stressTest := false,
        stage := ULightTestStage.Run, count := 0 } ]

/-- The harness `two_tests` after `Init` was given the argument `b`. -/
def two_tests_b_selected : ULightTests :=
  { two_tests with m_namedTests := ["b"] }

/-- A worker that fails an assertion with the given message. -/
def failing_with (message : String) : StdFunction :=
  some (Outcome.throws
    (Raised.UnitTestException { error := message, filename := "tests.cpp", lineNumber := 7 }))

/-- A starter holding a single task that returns normally. -/
def one_task_starter : ULightTestThreadStarter :=
  ULightTestThreadStarter.new.add passing 1

/-- A bag whose first worker fails with `zebra` and whose second worker fails
with `apple`. -/
def zebra_apple_bag : List StdFunction := [failing_with "zebra", failing_with "apple"]

/-- The bag `zebra_apple_bag` in the other order, with a passing worker
added. -/
def apple_zebra_bag : List StdFunction := [failing_with "apple", passing, failing_with "zebra"]

/-- A descriptor with no body whose bag is `zebra_apple_bag`. -/
def zebra_apple_descriptor : ULightTestInfo :=
  sample_descriptor none none none zebra_apple_bag false

/-- Three workers fail with the same message, one passes and one skips. -/
def same_message_descriptor : ULightTestInfo :=
  sample_descriptor none none none [failing, passing, failing, skipping, failing] false

/-- The registry after `FindOrCreateTestInfo` and an assignment `f` through the
returned pointer, written as one recursion over the registry: the first
descriptor with the name is assigned to, and when there is none a new
descriptor is appended and assigned to. -/
def find_or_create_assign (f : ULightTestInfo → ULightTestInfo) (testName_ : String) :
    List ULightTestInfo → List ULightTestInfo
  | [] => [f (ULightTestInfo.new testName_ none false)]
  | t :: rest =>
    if t.testName = testName_ then f t :: rest
    else t :: find_or_create_assign f testName_ rest

/-- The names of a sequence of registrations, each once, in the order of their
first use. -/
def first_names (names : List String) : List String :=
  names.foldl (fun seen n => if n ∈ seen then seen else seen ++ [n]) []

/-- The task bag of the descriptor registered under a name; empty when no
descriptor has the name. -/
def bag_named (m_tests : List ULightTestInfo) (testName_ : String) : List StdFunction :=
  match m_tests.find? (fun i => decide (i.testName = testName_)) with
  | some testInfo => testInfo.threadStarter.m_tasks
  | none => []

/-- The descriptor that registering the passing body `b` creates. -/
def test_b : ULightTestInfo := ULightTestInfo.new "b" passing false

/-- The registry `two_tests` with the actions of `a` replaced: a setup that
skips, a worker that fails and a body that raises an unexpected condition. -/
def two_tests_a_crashing : ULightTests :=
  registered
    [ { test := crashing, testName := "a", stressTest := false,
        stage := ULightTestStage.Run, count := 0 },
      { test := passing, testName := "b", stressTest := false,
        stage := ULightTestStage.Run, count := 0 },
      { test := skipping, testName := "a", stressTest := false,
        stage := ULightTestStage.Setup, count := 0 },
      { test := failing, testName := "a", stressTest := false,
        stage := ULightTestStage.Task, count := 1 } ]

/-! ## The timer (ULightTestTimer) -/

/-- The fields of `struct timespec`. -/
structure timespec where
  tv_sec : Int
  tv_nsec : Int
  deriving DecidableEq

/-- The fields of `struct timeval`. -/
structure timeval where
  tv_sec : Int
  tv_usec : Int
  deriving DecidableEq

/-- What the clock calls of the platform do at one moment: for each call its
return value and the content of the structure it was given, as the call leaves
it.  A build uses one of the two. -/
structure Clock where
  gettimeofday : Int × timeval
  clock_gettime : Int × timespec
  deriving DecidableEq

/-- Signed 64-bit wrap-around of `int64_t` and `long` arithmetic. -/
def wrap64 (x : Int) : Int := (x + 2 ^ 63) % 2 ^ 64 - 2 ^ 63

/-- Source `ToMicroSeconds`: `(tm.tv_nsec / 1000) + (tm.tv_sec * 1000000)`; the
division of C++ truncates. -/
def ToMicroSeconds (tm : timespec) : Int :=
  wrap64 (Int.tdiv tm.tv_nsec 1000 + wrap64 (tm.tv_sec * 1000000))

/-- Source `portable_gettime(tm)`; `mach` says whether the build defines
`__MACH__`, and `tm` comes in with the content the caller's local has, which no
caller initialises.  On the `__MACH__` branch `return rv` converts the non-zero
`int` to `bool`. -/
def portable_gettime (mach : Bool) (clock : Clock) (tm : timespec) : Bool × timespec :=
  if mach then
    let rv := clock.gettimeofday.1
    let now := clock.gettimeofday.2
    if rv ≠ 0 then (decide (rv ≠ 0), tm)
    else (true, { tv_sec := now.tv_sec, tv_nsec := wrap64 (now.tv_usec * 1000) })
  else
    (decide (clock.clock_gettime.1 ≥ 0), clock.clock_gettime.2)

/-- The members of `ULightTestTimer` that `ULightTestTimer.cpp` uses;
`m_unitTests` is whether the pointer to the harness is non-null. -/
structure ULightTestTimer where
  m_bad : Bool
  m_pit : Int
  m_loopCount : Int
  m_unitTests : Bool
  deriving DecidableEq

/-- The constructor `ULightTestTimer()`; `tm` and `m_pit` are the contents the
local and the member have before anything is assigned to them. -/
def ULightTestTimer.new (mach : Bool) (clock : Clock) (tm : timespec) (m_pit : Int) :
    ULightTestTimer :=
  let r := portable_gettime mach clock tm
  if r.1 then
    { m_bad := false, m_pit := ToMicroSeconds r.2, m_loopCount := 0, m_unitTests := false }
  else
    { m_bad := true, m_pit := m_pit, m_loopCount := 0, m_unitTests := false }

/-- The constructor `ULightTestTimer(unitTests, loopCount)`, which delegates to
`ULightTestTimer()`. -/
def ULightTestTimer.bind (mach : Bool) (clock : Clock) (tm : timespec) (m_pit : Int)
    (unitTests : Bool) (loopCount : Int) : ULightTestTimer :=
  { ULightTestTimer.new mach clock tm m_pit with
    m_loopCount := loopCount
    m_unitTests := unitTests }

/-- The member function `Poll()`: the value returned and the timer after the
call. -/
def ULightTestTimer.Poll (t : ULightTestTimer) (mach : Bool) (clock : Clock) (tm : timespec) :
    Int × ULightTestTimer :=
  if t.m_bad then (0, t)
  else
    let r := portable_gettime mach clock tm
    if !r.1 then (0, t)
    else (wrap64 (ToMicroSeconds r.2 - t.m_pit), t)

/-- Source `GetCurrentTestInfo()`. -/
def ULightTests.GetCurrentTestInfo (h : ULightTests) : Option Nat := h.m_currentTest

/-- The destructor of a timer, acting on the harness `h`.  `rate poll n` is the
value the platform gives to `(1000000.0 / ((double)poll)) * n` converted to
`int64_t`.  Without a current test the null pointer is dereferenced: no result. -/
def ULightTestTimer.destructor (t : ULightTestTimer) (h : ULightTests) (mach : Bool)
    (clock : Clock) (tm : timespec) (rate : Int → Int → Int) : Option ULightTests :=
  if t.m_unitTests then
    match h.GetCurrentTestInfo with
    | none => none
    | some i =>
      match h.m_tests[i]? with
      | none => none
      | some testInfo =>
        let testInfo := { testInfo with benchmarked := true }
        let poll := (t.Poll mach clock tm).1
        let testInfo := { testInfo with benchmarktime := poll }
        let testInfo :=
          if t.m_loopCount > 0 then { testInfo with itemsPerSecond := rate poll t.m_loopCount }
          else testInfo
        some { h with m_tests := h.m_tests.set i testInfo }
  else some h

/-- Clock values for which `ToMicroSeconds` does not overflow: a count of
seconds from 0 to 9223372036853 and of nanoseconds below one second. -/
def timespec.valid (tm : timespec) : Bool :=
  decide (0 ≤ tm.tv_sec ∧ tm.tv_sec ≤ 9223372036853 ∧ 0 ≤ tm.tv_nsec ∧ tm.tv_nsec < 1000000000)

/-- Order of clock values. -/
def timespec.not_after (a b : timespec) : Bool :=
  decide (a.tv_sec < b.tv_sec ∨ (a.tv_sec = b.tv_sec ∧ a.tv_nsec ≤ b.tv_nsec))

/-- A clock whose call succeeds with the given reading, on either build. -/
def clock_at (sec nsec : Int) : Clock :=
  { gettimeofday := (0, { tv_sec := sec, tv_usec := nsec / 1000 }),
    clock_gettime := (0, { tv_sec := sec, tv_nsec := nsec }) }

/-- A clock whose call fails with `-1`, leaving `now` as in the argument; the
`tm` of `clock_gettime` is left with zeros. -/
def failed_clock (now : timeval) : Clock :=
  { gettimeofday := (-1, now), clock_gettime := (-1, { tv_sec := 0, tv_nsec := 0 }) }

/-- The harness `two_tests` while its second test is running. -/
def two_tests_b_running : ULightTests :=
  { two_tests with m_currentTest := some 1 }

/-- The statuses that a raised condition or a worker that did not return
leaves: Failed, Skipped, Incomplete. -/
def ULightTestStatus.adverse : ULightTestStatus → Bool
  | ULightTestStatus.Failed => true
  | ULightTestStatus.Skipped => true
  | ULightTestStatus.Incomplete => true
  | _ => false

/-! ## The report (ReportToStream) -/

/-- Signed 32-bit wrap-around of `int` arithmetic. -/
def wrap32 (x : Int) : Int := (x + 2 ^ 31) % 2 ^ 32 - 2 ^ 31

/-- The five `int` counters of `ReportToStream`. -/
structure ReportCounts where
  total : Int
  passed : Int
  skipped : Int
  incomplete : Int
  failed : Int
  deriving DecidableEq

/-- Body of the first loop of `ReportToStream` for one descriptor. -/
def ReportToStream_count (c : ReportCounts) (testInfo : ULightTestInfo) : ReportCounts :=
  if !testInfo.ignore then
    let c := { c with total := wrap32 (c.total + 1) }
    if testInfo.status = ULightTestStatus.Passed then
      { c with passed := wrap32 (c.passed + 1) }
    else if testInfo.status = ULightTestStatus.Skipped then
      { c with skipped := wrap32 (c.skipped + 1) }
    else if testInfo.status = ULightTestStatus.Incomplete then
      { c with incomplete := wrap32 (c.incomplete + 1) }
    else
      { c with failed := wrap32 (c.failed + 1) }
  else c

/-- The first loop of `ReportToStream`: the counters after the pass over
`m_tests`. -/
def ReportToStream_counts (h : ULightTests) : ReportCounts :=
  h.m_tests.foldl ReportToStream_count
    { total := 0, passed := 0, skipped := 0, incomplete := 0, failed := 0 }

/-- The five lines of the final block of `ReportToStream` that show the
counters, as written to the stream when there is one. -/
def ReportToStream_results (h : ULightTests) : List String :=
  let c := ReportToStream_counts h
  [ " Passed       " ++ toString c.passed,
    " Failed       " ++ toString c.failed,
    " Skipped      " ++ toString c.skipped,
    " Incomplete   " ++ toString c.incomplete,
    " Total        " ++ toString c.total ]

/-- Six registered tests of which the first five are selected: `a` fails, `b`
passes, `c` skips, `d` reports incomplete, `e` has a setup only. -/
def six_tests : ULightTests :=
  { registered
      [ { test := failing, testName := "a", stressTest := false,
          stage := ULightTestStage.Run, count := 0 },
        { test := passing, testName := "b", stressTest := false,
          stage := ULightTestStage.Run, count := 0 },
        { test := skipping, testName := "c", stressTest := false,
          stage := ULightTestStage.Run, count := 0 },
        { test := incompleting, testName := "d", stressTest := false,
          stage := ULightTestStage.Run, count := 0 },
        { test := passing, testName := "e", stressTest := false,
          stage := ULightTestStage.Setup, count := 0 },
        { test := passing, testName := "f", stressTest := false,
          stage := ULightTestStage.Run, count := 0 } ] with
    m_namedTests := ["a", "b", "c", "d", "e"] }

/-! ## The file name of an assertion failure -/

/-- Member `find_last_of(c)` of `std::wstring`, on the characters of the
string: the position of the last occurrence of `c`; `none` is `npos`. -/
def find_last_of : List Char → Char → Option Nat
  | [], _ => none
  | x :: xs, c =>
    match find_last_of xs c with
    | some pos => some (pos + 1)
    | none => if x = c then some 0 else none

/-- Source `UnitTestException::FixFileName`. -/
def FixFileName (filename : String) : String :=
  if filename.length = 0 then filename
  else
    match find_last_of filename.data '/' with
    | none => filename
    | some pos =>
      if pos = filename.length - 1 then filename
      else String.mk (filename.data.drop (pos + 1))

/-- The constructor of `UnitTestException`. -/
def UnitTestException.new (error_ filename_ : String) (lineNumber_ : Int) : UnitTestException :=
  { error := error_, filename := FixFileName filename_, lineNumber := lineNumber_ }

/-! ## The divisions of the timer -/

/-- The destructor of a timer once more, together with the floating-point
divisions it performs: the second component lists, for each evaluation of
`1000000.0 / ((double)poll)`, the divisor `poll`. -/
def ULightTestTimer.destructor_traced (t : ULightTestTimer) (h : ULightTests) (mach : Bool)
    (clock : Clock) (tm : timespec) (rate : Int → Int → Int) : Option ULightTests × List Int :=
  if t.m_unitTests then
    match h.GetCurrentTestInfo with
    | none => (none, [])
    | some i =>
      match h.m_tests[i]? with
      | none => (none, [])
      | some testInfo =>
        let testInfo := { testInfo with benchmarked := true }
        let poll := (t.Poll mach clock tm).1
        let testInfo := { testInfo with benchmarktime := poll }
        if t.m_loopCount > 0 then
          (some { h with
              m_tests := h.m_tests.set i
                { testInfo with itemsPerSecond := rate poll t.m_loopCount } },
            [poll])
        else (some { h with m_tests := h.m_tests.set i testInfo }, [])
  else (some h, [])

/-- Floor of the binary logarithm of `n`, 0 for `n < 2`; `fuel` bounds the
number of halvings. -/
def log2_floor : Nat → Nat → Nat
  | 0, _ => 0
  | fuel + 1, n => if n < 2 then 0 else log2_floor fuel (n / 2) + 1

/-- Rounding of the positive quotient `a / b` to a `double` (IEEE 754
binary64, to nearest, ties to even, in the range of the normal numbers): the
result is `(m, e)`, standing for `m * 2 ^ e`, with `m` of 53 bits. -/
def round_binary64 (a b : Nat) : Nat × Int :=
  let d : Int := (log2_floor a a : Int) - (log2_floor b b : Int)
  let above : Bool :=
    if d ≥ 0 then decide (a ≥ b * 2 ^ d.toNat) else decide (a * 2 ^ (-d).toNat ≥ b)
  let e : Int := if above then d else d - 1
  let k : Int := 52 - e
  let N : Nat := if k ≥ 0 then a * 2 ^ k.toNat else a
  let D : Nat := if k ≥ 0 then b else b * 2 ^ (-k).toNat
  let q := N / D
  let r := N % D
  let q1 := if 2 * r > D ∨ (2 * r = D ∧ q % 2 = 1) then q + 1 else q
  (q1, -k)

/-- A sample of the parameter `rate`: the value of
`(1000000.0 / ((double)poll)) * n` converted to `int64_t`, for an `int64_t`
`poll` and an `int` `n`, as x86-64 computes it.  The conversion of `poll`, the
division and the multiplication each round to a `double`; the conversion to
`int64_t` truncates.  With `poll = 0` the quotient is infinite (or the product
is not a number): C++ leaves the conversion of such a value undefined, and
the conversion instruction of x86-64 gives `-2^63`, as it does for a value out
of range. -/
def sample_rate (poll n : Int) : Int :=
  if poll = 0 then -9223372036854775808
  else if n = 0 then 0
  else
    let p := round_binary64 poll.natAbs 1
    let q :=
      if p.2 ≥ 0 then round_binary64 1000000 (p.1 * 2 ^ p.2.toNat)
      else round_binary64 (1000000 * 2 ^ (-p.2).toNat) p.1
    let r :=
      if q.2 ≥ 0 then round_binary64 (q.1 * n.natAbs * 2 ^ q.2.toNat) 1
      else round_binary64 (q.1 * n.natAbs) (2 ^ (-q.2).toNat)
    let magnitude : Nat := if r.2 ≥ 0 then r.1 * 2 ^ r.2.toNat else r.1 / 2 ^ (-r.2).toNat
    let value : Int := if decide (poll < 0) != decide (n < 0) then -magnitude else magnitude
    if value < -9223372036854775808 ∨ 9223372036854775807 < value then -9223372036854775808
    else value

/-- A task registration with count 0 under the new name `b`, then the test
`a` with a passing body. -/
def zero_tasks_then_test : ULightTests :=
  registered
    [ { test := passing, testName := "b", stressTest := false,
        stage := ULightTestStage.Task, count := 0 },
      { test := passing, testName := "a", stressTest := false,
        stage := ULightTestStage.Run, count := 0 } ]

/-- The test `a` with a passing body, alone. -/
def test_alone : ULightTests :=
  registered
    [ { test := passing, testName := "a", stressTest := false,
        stage := ULightTestStage.Run, count := 0 } ]

/-! ## The task runner -/

theorem get_errors_eq (info : ULightTestThreadInfo) : info.get_errors = info.m_errors := by
  unfold ULightTestThreadInfo.get_errors
  have h : ∀ (l acc : List (String × Nat)),
      List.foldl (fun ret it => ret ++ [it]) acc l = acc ++ l := by
    intro l
    induction l with
    | nil => intro acc; simp
    | cons x xs ih => intro acc; simp [ih]
  simpa using h info.m_errors []

theorem add_m_tasks (s : ULightTestThreadStarter) (func : StdFunction) (count : Nat) :
    (s.add func count).m_tasks = s.m_tasks ++ List.replicate count func := by
  induction count with
  | zero => simp [ULightTestThreadStarter.add]
  | succ n ih => simp [ULightTestThreadStarter.add, ih, List.replicate_succ']

theorem thread_proc_counters (f : StdFunction) (info : ULightTestThreadInfo) :
    (thread_proc f info).m_passed = info.m_passed ∧
    (thread_proc f info).m_failed = info.m_failed + (if f.fails = true then 1 else 0) ∧
    (thread_proc f info).m_skipped = info.m_skipped + (if f.skips = true then 1 else 0) ∧
    (thread_proc f info).m_incomplete =
      info.m_incomplete + (if f.incompletes = true then 1 else 0) := by
  rcases f with _ | _ | e
  · simp [thread_proc, StdFunction.call, StdFunction.fails, StdFunction.failure,
      StdFunction.skips, StdFunction.incompletes, ULightTestThreadInfo.set_failed]
  · simp [thread_proc, StdFunction.call, StdFunction.fails, StdFunction.failure,
      StdFunction.skips, StdFunction.incompletes]
  · cases e <;>
    simp [thread_proc, StdFunction.call, StdFunction.fails, StdFunction.failure,
      StdFunction.skips, StdFunction.incompletes, ULightTestThreadInfo.set_failed,
      ULightTestThreadInfo.set_skipped, ULightTestThreadInfo.set_incomplete]

theorem foldl_thread_proc_counters (l : List StdFunction) (info : ULightTestThreadInfo) :
    (l.foldl (fun info task => thread_proc task info) info).m_passed = info.m_passed ∧
    (l.foldl (fun info task => thread_proc task info) info).m_failed =
      info.m_failed + l.countP StdFunction.fails ∧
    (l.foldl (fun info task => thread_proc task info) info).m_skipped =
      info.m_skipped + l.countP StdFunction.skips ∧
    (l.foldl (fun info task => thread_proc task info) info).m_incomplete =
      info.m_incomplete + l.countP StdFunction.incompletes := by
  induction l generalizing info with
  | nil => simp
  | cons f fs ih =>
    obtain ⟨h1, h2, h3, h4⟩ := thread_proc_counters f info
    obtain ⟨i1, i2, i3, i4⟩ := ih (thread_proc f info)
    simp only [List.foldl_cons, List.countP_cons]
    refine ⟨by rw [i1, h1], by rw [i2, h2]; omega, by rw [i3, h3]; omega, by rw [i4, h4]; omega⟩

theorem run_counters (s : ULightTestThreadStarter) :
    s.run.1.passed = 0 ∧
    s.run.1.failed = s.m_tasks.countP StdFunction.fails ∧
    s.run.1.skipped = s.m_tasks.countP StdFunction.skips ∧
    s.run.1.incomplete = s.m_tasks.countP StdFunction.incompletes := by
  obtain ⟨h1, h2, h3, h4⟩ := foldl_thread_proc_counters s.m_tasks ULightTestThreadInfo.new
  simp only [ULightTestThreadStarter.run, ULightTestThreadInfo.get_passed,
    ULightTestThreadInfo.get_failed, ULightTestThreadInfo.get_skipped,
    ULightTestThreadInfo.get_incomplete]
  rw [h1, h2, h3, h4]
  simp [ULightTestThreadInfo.new]

theorem thread_proc_returns (f : StdFunction) (info : ULightTestThreadInfo)
    (h : f.call = Outcome.returns) : thread_proc f info = info := by
  simp [thread_proc, h]

theorem foldl_thread_proc_returns (l : List StdFunction) (info : ULightTestThreadInfo)
    (h : ∀ f ∈ l, f.call = Outcome.returns) :
    l.foldl (fun info task => thread_proc task info) info = info := by
  induction l generalizing info with
  | nil => rfl
  | cons f fs ih =>
    rw [List.foldl_cons, thread_proc_returns f info (h f (List.mem_cons_self f fs))]
    exact ih info (fun g hg => h g (List.mem_cons_of_mem f hg))

/-- When every worker returns normally the summary is all zero, with no
error entry. -/
theorem run_all_return (s : ULightTestThreadStarter)
    (h : ∀ f ∈ s.m_tasks, f.call = Outcome.returns) :
    s.run.1 = { passed := 0, failed := 0, skipped := 0, incomplete := 0, errors := [] } := by
  simp only [ULightTestThreadStarter.run]
  rw [foldl_thread_proc_returns s.m_tasks _ h]
  rfl

/-! ## The error map -/

theorem data_lt_ne {a b : String} (h : a.data < b.data) : a ≠ b := by
  intro hab
  subst hab
  exact lt_irrefl _ h

theorem data_trichotomy (a b : String) : a.data < b.data ∨ a = b ∨ b.data < a.data := by
  rcases lt_trichotomy a.data b.data with h | h | h
  · exact Or.inl h
  · exact Or.inr (Or.inl (String.ext h))
  · exact Or.inr (Or.inr h)

/-- A key below the first key of an ordered map, or equal to it, is not found
in the rest of the map. -/
theorem StdMap.find_tail_none (k : String) (c : Nat) (rest : StdMap) (q : String)
    (ho : StdMap.Ordered ((k, c) :: rest)) (hq : ¬ k.data < q.data) :
    StdMap.find rest q = none := by
  induction rest with
  | nil => rfl
  | cons e es ih =>
    obtain ⟨k2, c2⟩ := e
    have hpw := List.pairwise_cons.mp ho
    have hk : k.data < k2.data := hpw.1 (k2, c2) (List.mem_cons_self _ _)
    have hne : k2 ≠ q := by
      intro h
      subst h
      exact hq hk
    simp only [StdMap.find, hne, if_false]
    apply ih
    unfold StdMap.Ordered at ho ⊢
    exact List.Pairwise.sublist (List.Sublist.cons₂ _ (List.sublist_cons_self _ _)) ho

/-- Two ordered maps with the same lookups are the same map. -/
theorem StdMap.ext (m1 m2 : StdMap) (h1 : StdMap.Ordered m1) (h2 : StdMap.Ordered m2)
    (h : ∀ q, StdMap.find m1 q = StdMap.find m2 q) : m1 = m2 := by
  induction m1 generalizing m2 with
  | nil =>
    cases m2 with
    | nil => rfl
    | cons e es =>
      obtain ⟨k2, c2⟩ := e
      have := h k2
      simp [StdMap.find] at this
  | cons e1 r1 ih =>
    obtain ⟨k1, c1⟩ := e1
    cases m2 with
    | nil =>
      have := h k1
      simp [StdMap.find] at this
    | cons e2 r2 =>
      obtain ⟨k2, c2⟩ := e2
      have hk : k1 = k2 := by
        rcases data_trichotomy k1 k2 with hlt | heq | hgt
        · have a := h k1
          have b := StdMap.find_tail_none k2 c2 r2 k1 h2 (fun hc => lt_asymm hlt hc)
          simp [StdMap.find, (data_lt_ne hlt).symm, b] at a
        · exact heq
        · have a := h k2
          have b := StdMap.find_tail_none k1 c1 r1 k2 h1 (fun hc => lt_asymm hgt hc)
          simp [StdMap.find, (data_lt_ne hgt).symm, b] at a
      subst hk
      have hc : c1 = c2 := by
        have a := h k1
        simpa [StdMap.find] using a
      subst hc
      have hr : r1 = r2 := by
        apply ih r2 (List.Pairwise.of_cons h1) (List.Pairwise.of_cons h2)
        intro q
        by_cases hq : k1 = q
        · subst hq
          rw [StdMap.find_tail_none k1 c1 r1 k1 h1 (lt_irrefl _),
            StdMap.find_tail_none k1 c1 r2 k1 h2 (lt_irrefl _)]
        · have a := h q
          simpa [StdMap.find, hq] using a
      rw [hr]

theorem StdMap.find_some_mem (m : StdMap) (k : String) (c : Nat)
    (h : StdMap.find m k = some c) : (k, c) ∈ m := by
  induction m with
  | nil => simp [StdMap.find] at h
  | cons e es ih =>
    obtain ⟨k2, c2⟩ := e
    by_cases hk : k2 = k
    · subst hk
      simp only [StdMap.find, if_true, Option.some.injEq] at h
      subst h
      exact List.mem_cons_self _ _
    · simp only [StdMap.find, hk, if_false] at h
      exact List.mem_cons_of_mem _ (ih h)

theorem StdMap.mem_emplace (m : StdMap) (k : String) (v : Nat) (e : String × Nat)
    (h : e ∈ StdMap.emplace m k v) : e.1 = k ∨ e ∈ m := by
  induction m with
  | nil =>
    simp only [StdMap.emplace, List.mem_singleton] at h
    subst h
    exact Or.inl rfl
  | cons e2 es ih =>
    obtain ⟨k2, c2⟩ := e2
    simp only [StdMap.emplace] at h
    split_ifs at h with h1 h2
    · rcases List.mem_cons.mp h with h | h
      · subst h
        exact Or.inl rfl
      · exact Or.inr h
    · exact Or.inr h
    · rcases List.mem_cons.mp h with h | h
      · subst h
        exact Or.inr (List.mem_cons_self _ _)
      · rcases ih h with h | h
        · exact Or.inl h
        · exact Or.inr (List.mem_cons_of_mem _ h)

theorem StdMap.emplace_ordered (m : StdMap) (k : String) (v : Nat) (ho : StdMap.Ordered m) :
    StdMap.Ordered (StdMap.emplace m k v) := by
  induction m with
  | nil => simp [StdMap.emplace, StdMap.Ordered]
  | cons e2 es ih =>
    obtain ⟨k2, c2⟩ := e2
    have hpw := List.pairwise_cons.mp ho
    simp only [StdMap.emplace]
    split_ifs with h1 h2
    · apply List.Pairwise.cons _ ho
      intro e he
      rcases List.mem_cons.mp he with he | he
      · subst he
        exact h1
      · exact lt_trans h1 (hpw.1 e he)
    · exact ho
    · have hlt : k2.data < k.data := by
        rcases data_trichotomy k k2 with h | h | h
        · exact absurd h h1
        · exact absurd h h2
        · exact h
      apply List.Pairwise.cons _ (ih hpw.2)
      intro e he
      rcases StdMap.mem_emplace es k v e he with h | h
      · rw [h]
        exact hlt
      · exact hpw.1 e h

theorem StdMap.find_emplace (m : StdMap) (k : String) (v : Nat) (q : String)
    (h : StdMap.find m k = none) :
    StdMap.find (StdMap.emplace m k v) q = if q = k then some v else StdMap.find m q := by
  induction m with
  | nil =>
    by_cases hq : q = k
    · simp [StdMap.emplace, StdMap.find, hq]
    · simp [StdMap.emplace, StdMap.find, hq, Ne.symm hq]
  | cons e2 es ih =>
    obtain ⟨k2, c2⟩ := e2
    have hk : k2 ≠ k := by
      intro hk
      simp [StdMap.find, hk] at h
    have hrest : StdMap.find es k = none := by
      simpa [StdMap.find, hk] using h
    by_cases h1 : k.data < k2.data
    · simp only [StdMap.emplace, if_pos h1]
      by_cases hq : q = k
      · simp [StdMap.find, hq]
      · simp [StdMap.find, hq, Ne.symm hq]
    · simp only [StdMap.emplace, if_neg h1, if_neg (Ne.symm hk)]
      by_cases hq : q = k
      · rw [if_pos hq]
        have h5 : k2 ≠ q := by rw [hq]; exact hk
        simp only [StdMap.find, if_neg h5]
        rw [ih hrest, if_pos hq]
      · rw [if_neg hq]
        by_cases h5 : k2 = q
        · simp only [StdMap.find, if_pos h5]
        · simp only [StdMap.find, if_neg h5]
          rw [ih hrest, if_neg hq]

theorem StdMap.emplace_present (m : StdMap) (k : String) (v c : Nat)
    (ho : StdMap.Ordered m) (h : StdMap.find m k = some c) : StdMap.emplace m k v = m := by
  induction m with
  | nil => simp [StdMap.find] at h
  | cons e2 es ih =>
    obtain ⟨k2, c2⟩ := e2
    have hpw := List.pairwise_cons.mp ho
    by_cases hk : k2 = k
    · subst hk
      simp [StdMap.emplace]
    · have hrest : StdMap.find es k = some c := by
        simpa [StdMap.find, hk] using h
      have hlt : k2.data < k.data := hpw.1 (k, c) (StdMap.find_some_mem es k c hrest)
      simp only [StdMap.emplace, if_neg (lt_asymm hlt), if_neg (Ne.symm hk)]
      rw [ih hpw.2 hrest]

theorem StdMap.find_map_add (m : StdMap) (k : String) (d : Nat) (q : String) :
    StdMap.find (m.map (fun e => if e.1 = k then (e.1, e.2 + d) else e)) q =
      if q = k then (StdMap.find m k).map (fun c => c + d) else StdMap.find m q := by
  induction m with
  | nil => simp [StdMap.find]
  | cons e2 es ih =>
    obtain ⟨k2, c2⟩ := e2
    simp only [List.map_cons]
    by_cases hk : k2 = k
    · rw [if_pos hk]
      by_cases hq : q = k
      · have h5 : k2 = q := by rw [hq]; exact hk
        simp only [StdMap.find, if_pos h5, if_pos hq, if_pos hk, Option.map_some']
      · have h5 : k2 ≠ q := by rw [hk]; exact Ne.symm hq
        simp only [StdMap.find, if_neg h5, if_neg hq]
        rw [ih, if_neg hq]
    · rw [if_neg hk]
      by_cases hq : q = k
      · have h5 : k2 ≠ q := by rw [hq]; exact hk
        simp only [StdMap.find, if_neg h5, if_pos hq, if_neg hk]
        rw [ih, if_pos hq]
      · by_cases h5 : k2 = q
        · simp only [StdMap.find, if_pos h5, if_neg hq]
        · simp only [StdMap.find, if_neg h5, if_neg hq]
          rw [ih, if_neg hq]

theorem StdMap.map_add_ordered (m : StdMap) (k : String) (d : Nat) (ho : StdMap.Ordered m) :
    StdMap.Ordered (m.map (fun e => if e.1 = k then (e.1, e.2 + d) else e)) := by
  unfold StdMap.Ordered at ho ⊢
  rw [List.pairwise_map]
  refine List.Pairwise.imp ?_ ho
  intro a b hab
  have ha : (if a.1 = k then (a.1, a.2 + d) else a).1 = a.1 := by split_ifs <;> rfl
  have hb : (if b.1 = k then (b.1, b.2 + d) else b).1 = b.1 := by split_ifs <;> rfl
  rw [ha, hb]
  exact hab

/-- Member `set_failed` keeps the error map ordered. -/
theorem set_failed_ordered (info : ULightTestThreadInfo) (k : String)
    (ho : StdMap.Ordered info.m_errors) : StdMap.Ordered (info.set_failed k).m_errors := by
  simp only [ULightTestThreadInfo.set_failed]
  split
  · exact StdMap.emplace_ordered _ _ _ ho
  · exact StdMap.map_add_ordered _ _ _ (StdMap.emplace_ordered _ _ _ ho)

/-- Member `set_failed` adds one to the count kept for its text and leaves
the other entries alone. -/
theorem set_failed_find (info : ULightTestThreadInfo) (k q : String)
    (ho : StdMap.Ordered info.m_errors) :
    StdMap.find (info.set_failed k).m_errors q =
      if q = k then some ((StdMap.find info.m_errors k).getD 0 + 1)
      else StdMap.find info.m_errors q := by
  simp only [ULightTestThreadInfo.set_failed]
  split
  · next hnone =>
    rw [StdMap.find_emplace _ _ _ _ hnone, hnone]
    simp
  · next c hsome =>
    unfold StdMap.addAt
    rw [StdMap.emplace_present _ _ _ c ho hsome, StdMap.find_map_add, hsome]
    simp

/-- The error map after one worker, in terms of the text the worker hands to
`set_failed`. -/
theorem thread_proc_errors (f : StdFunction) (info : ULightTestThreadInfo) :
    (thread_proc f info).m_errors =
      match f.failure with
      | some k => (info.set_failed k).m_errors
      | none => info.m_errors := by
  rcases f with _ | _ | e
  · rfl
  · rfl
  · cases e <;> rfl

theorem thread_proc_ordered (f : StdFunction) (info : ULightTestThreadInfo)
    (ho : StdMap.Ordered info.m_errors) : StdMap.Ordered (thread_proc f info).m_errors := by
  rw [thread_proc_errors]
  split
  · exact set_failed_ordered info _ ho
  · exact ho

theorem thread_proc_find (f : StdFunction) (info : ULightTestThreadInfo) (q : String)
    (ho : StdMap.Ordered info.m_errors) :
    StdMap.find (thread_proc f info).m_errors q =
      if f.failure = some q then some ((StdMap.find info.m_errors q).getD 0 + 1)
      else StdMap.find info.m_errors q := by
  rw [thread_proc_errors]
  split
  · next k hk =>
    rw [set_failed_find info k q ho, hk]
    by_cases hq : q = k
    · subst hq
      simp
    · have : ¬ (some k = some q) := by
        intro h
        exact hq (Option.some.inj h).symm
      rw [if_neg hq, if_neg this]
  · next hnone =>
    rw [hnone]
    simp

/-- The error map once all workers of a bag have finished: it is ordered, and
it holds for each text the number of workers that failed with it. -/
theorem foldl_thread_proc_errors (l : List StdFunction) (info : ULightTestThreadInfo)
    (ho : StdMap.Ordered info.m_errors) :
    StdMap.Ordered (l.foldl (fun info task => thread_proc task info) info).m_errors ∧
    ∀ q, StdMap.find (l.foldl (fun info task => thread_proc task info) info).m_errors q =
      if tally l q = 0 then StdMap.find info.m_errors q
      else some ((StdMap.find info.m_errors q).getD 0 + tally l q) := by
  induction l generalizing info with
  | nil =>
    refine ⟨ho, ?_⟩
    intro q
    simp [tally]
  | cons f fs ih =>
    obtain ⟨h1, h2⟩ := ih (thread_proc f info) (thread_proc_ordered f info ho)
    refine ⟨h1, ?_⟩
    intro q
    simp only [List.foldl_cons]
    rw [h2 q, thread_proc_find f info q ho]
    by_cases hf : f.failure = some q
    · have ht : tally (f :: fs) q = tally fs q + 1 := by
        simp [tally, List.countP_cons, hf]
      rw [ht, if_pos hf]
      by_cases h0 : tally fs q = 0
      · simp [h0]
      · simp only [if_neg h0, Option.getD_some, Nat.add_eq_zero, one_ne_zero, and_false,
          if_false, Option.some.injEq]
        omega
    · have ht : tally (f :: fs) q = tally fs q := by
        simp [tally, List.countP_cons, hf]
      rw [ht, if_neg hf]

/-- The shared counters and the error map depend only on the multiset of
workers, not on the order in which they finish. -/
theorem foldl_thread_proc_perm (l1 l2 : List StdFunction) (hp : l1.Perm l2) :
    l1.foldl (fun info task => thread_proc task info) ULightTestThreadInfo.new =
      l2.foldl (fun info task => thread_proc task info) ULightTestThreadInfo.new := by
  have hnew : StdMap.Ordered ULightTestThreadInfo.new.m_errors := List.Pairwise.nil
  obtain ⟨a1, a2, a3, a4⟩ := foldl_thread_proc_counters l1 ULightTestThreadInfo.new
  obtain ⟨b1, b2, b3, b4⟩ := foldl_thread_proc_counters l2 ULightTestThreadInfo.new
  obtain ⟨c1, c2⟩ := foldl_thread_proc_errors l1 ULightTestThreadInfo.new hnew
  obtain ⟨d1, d2⟩ := foldl_thread_proc_errors l2 ULightTestThreadInfo.new hnew
  have herr : (l1.foldl (fun info task => thread_proc task info)
        ULightTestThreadInfo.new).m_errors =
      (l2.foldl (fun info task => thread_proc task info) ULightTestThreadInfo.new).m_errors := by
    apply StdMap.ext _ _ c1 d1
    intro q
    rw [c2 q, d2 q]
    have : tally l1 q = tally l2 q := hp.countP_eq _
    rw [this]
  rw [hp.countP_eq] at a2 a3 a4
  cases hx : l1.foldl (fun info task => thread_proc task info) ULightTestThreadInfo.new
  cases hy : l2.foldl (fun info task => thread_proc task info) ULightTestThreadInfo.new
  rw [hx] at a1 a2 a3 a4 herr
  rw [hy] at b1 b2 b3 b4 herr
  simp only at a1 a2 a3 a4 b1 b2 b3 b4 herr
  rw [a1, a2, a3, a4, b1, b2, b3, b4, herr]

theorem join_in_order_eq (tasks : List StdFunction) (order : List Nat) :
    join_in_order tasks order =
      (order.filterMap (fun i => tasks.get? i)).foldl (fun info task => thread_proc task info)
        ULightTestThreadInfo.new := by
  unfold join_in_order
  generalize ULightTestThreadInfo.new = init
  induction order generalizing init with
  | nil => rfl
  | cons i is ih =>
    simp only [List.foldl_cons, List.filterMap_cons]
    cases h : tasks.get? i with
    | none => simp only [h]; exact ih init
    | some f => simp only [h, List.foldl_cons]; exact ih _

theorem filterMap_get_range (tasks : List StdFunction) :
    (List.range tasks.length).filterMap (fun i => tasks.get? i) = tasks := by
  induction tasks using List.reverseRecOn with
  | nil => rfl
  | append_singleton xs x ih =>
    rw [List.length_append, List.length_singleton, List.range_succ, List.filterMap_append]
    have h1 : List.filterMap (fun i => (xs ++ [x]).get? i) (List.range xs.length) =
        List.filterMap (fun i => xs.get? i) (List.range xs.length) := by
      apply List.filterMap_congr
      intro i hi
      have : i < xs.length := List.mem_range.mp hi
      simp [List.getElem?_append_left this]
    rw [h1, ih]
    simp

/-- Whatever the order in which the workers of a bag finish, the shared
counters and the error map end as `run` computes them. -/
theorem join_in_order_perm (tasks : List StdFunction) (order : List Nat)
    (h : order.Perm (List.range tasks.length)) :
    join_in_order tasks order =
      tasks.foldl (fun info task => thread_proc task info) ULightTestThreadInfo.new := by
  rw [join_in_order_eq]
  have := foldl_thread_proc_perm _ _ (h.filterMap (fun i => tasks.get? i))
  rw [this, filterMap_get_range]

/-! ## The stages of `RunTestFn` -/

/-- When the descriptor is a stress test and stress mode is off, every stage
raises the skip signal before anything else. -/
theorem RunTestFn_stress (stage : ULightTestStage) (t : ULightTestInfo) (rs : Bool)
    (h : (!rs && t.stressTest) = true) :
    RunTestFn stage t rs = ({ t with status := ULightTestStatus.Skipped }, []) := by
  simp [RunTestFn, RunTestFn_try, h, RunTestFn_catch]

theorem RunTestFn_Setup (t : ULightTestInfo) (rs : Bool)
    (h : (!rs && t.stressTest) = false) :
    RunTestFn ULightTestStage.Setup t rs =
      match t.testSetup with
      | none => (t, [])
      | some Outcome.returns => (t, [Invocation.testSetup])
      | some (Outcome.throws e) => (RunTestFn_catch e t, [Invocation.testSetup]) := by
  rcases hf : t.testSetup with _ | _ | e <;>
    simp [RunTestFn, RunTestFn_try, h, hf, StdFunction.toBool, StdFunction.call]

theorem RunTestFn_Task (t : ULightTestInfo) (rs : Bool)
    (h : (!rs && t.stressTest) = false) :
    RunTestFn ULightTestStage.Task t rs =
      if t.threadStarter.has_tasks = true then
        (RunTestFn_task t, (List.range t.threadStarter.m_tasks.length).map Invocation.task)
      else (t, []) := by
  by_cases ht : t.threadStarter.has_tasks = true <;>
    simp [RunTestFn, RunTestFn_try, h, ht]

theorem RunTestFn_Run (t : ULightTestInfo) (rs : Bool)
    (h : (!rs && t.stressTest) = false) :
    RunTestFn ULightTestStage.Run t rs =
      if t.status = ULightTestStatus.Inconclusive then
        match t.testFn with
        | some Outcome.returns =>
          ({ t with status := ULightTestStatus.Passed }, [Invocation.testFn])
        | some (Outcome.throws e) => (RunTestFn_catch e t, [Invocation.testFn])
        | none =>
          if t.threadStarter.has_tasks = true then
            ({ t with status := ULightTestStatus.Passed }, [])
          else (t, [])
      else (t, []) := by
  by_cases hst : t.status = ULightTestStatus.Inconclusive
  · rcases hf : t.testFn with _ | _ | e
    · by_cases ht : t.threadStarter.has_tasks = true <;>
        simp [RunTestFn, RunTestFn_try, h, hf, hst, ht, StdFunction.toBool, StdFunction.call]
    · simp [RunTestFn, RunTestFn_try, h, hf, hst, StdFunction.toBool, StdFunction.call]
    · simp [RunTestFn, RunTestFn_try, h, hf, hst, StdFunction.toBool, StdFunction.call]
  · simp [RunTestFn, RunTestFn_try, h, hst]

theorem RunTestFn_Teardown (t : ULightTestInfo) (rs : Bool)
    (h : (!rs && t.stressTest) = false) :
    RunTestFn ULightTestStage.Teardown t rs =
      match t.testTeardown with
      | none => (t, [])
      | some Outcome.returns => (t, [Invocation.testTeardown])
      | some (Outcome.throws e) => (RunTestFn_catch e t, [Invocation.testTeardown]) := by
  rcases hf : t.testTeardown with _ | _ | e <;>
    simp [RunTestFn, RunTestFn_try, h, hf, StdFunction.toBool, StdFunction.call]

theorem RunTestFn_catch_status (e : Raised) (t : ULightTestInfo) :
    (RunTestFn_catch e t).status =
      match e with
      | Raised.UnitTestException _ => ULightTestStatus.Failed
      | Raised.UnitTestSkipException => ULightTestStatus.Skipped
      | Raised.UnitTestIncompleteException => ULightTestStatus.Incomplete
      | Raised.other => ULightTestStatus.Failed := by
  cases e <;> rfl

theorem RunTestFn_task_status (t : ULightTestInfo) :
    (RunTestFn_task t).status =
      if t.threadStarter.run.1.failed > 0 then ULightTestStatus.Failed
      else if t.threadStarter.run.1.incomplete > 0 then ULightTestStatus.Incomplete
      else if t.threadStarter.run.1.skipped > 0 then ULightTestStatus.Skipped
      else t.status := by
  unfold RunTestFn_task
  simp only []
  split <;> split_ifs <;> rfl

theorem RunTestFn_task_frame (t : ULightTestInfo) :
    (RunTestFn_task t).testName = t.testName ∧
    (RunTestFn_task t).testSetup = t.testSetup ∧
    (RunTestFn_task t).testTeardown = t.testTeardown ∧
    (RunTestFn_task t).testFn = t.testFn ∧
    (RunTestFn_task t).threadStarter.m_tasks = t.threadStarter.m_tasks ∧
    (RunTestFn_task t).filename = t.filename ∧
    (RunTestFn_task t).lineNumber = t.lineNumber ∧
    (RunTestFn_task t).ignore = t.ignore ∧
    (RunTestFn_task t).stressTest = t.stressTest := by
  unfold RunTestFn_task
  simp only []
  split <;> split_ifs <;> simp [ULightTestThreadStarter.run]

theorem RunTestFn_catch_frame (e : Raised) (t : ULightTestInfo) :
    (RunTestFn_catch e t).testName = t.testName ∧
    (RunTestFn_catch e t).testSetup = t.testSetup ∧
    (RunTestFn_catch e t).testTeardown = t.testTeardown ∧
    (RunTestFn_catch e t).testFn = t.testFn ∧
    (RunTestFn_catch e t).threadStarter = t.threadStarter ∧
    (RunTestFn_catch e t).ignore = t.ignore ∧
    (RunTestFn_catch e t).stressTest = t.stressTest := by
  cases e <;> simp [RunTestFn_catch]

/-- No stage changes the registered actions, the task bag, the name, the
stress flag or the ignore flag of the descriptor. -/
theorem RunTestFn_frame (stage : ULightTestStage) (t : ULightTestInfo) (rs : Bool) :
    (RunTestFn stage t rs).1.testName = t.testName ∧
    (RunTestFn stage t rs).1.testSetup = t.testSetup ∧
    (RunTestFn stage t rs).1.testTeardown = t.testTeardown ∧
    (RunTestFn stage t rs).1.testFn = t.testFn ∧
    (RunTestFn stage t rs).1.threadStarter.m_tasks = t.threadStarter.m_tasks ∧
    (RunTestFn stage t rs).1.ignore = t.ignore ∧
    (RunTestFn stage t rs).1.stressTest = t.stressTest := by
  have hc : ∀ e : Raised,
      (RunTestFn_catch e t).testName = t.testName ∧
      (RunTestFn_catch e t).testSetup = t.testSetup ∧
      (RunTestFn_catch e t).testTeardown = t.testTeardown ∧
      (RunTestFn_catch e t).testFn = t.testFn ∧
      (RunTestFn_catch e t).threadStarter.m_tasks = t.threadStarter.m_tasks ∧
      (RunTestFn_catch e t).ignore = t.ignore ∧
      (RunTestFn_catch e t).stressTest = t.stressTest := by
    intro e
    obtain ⟨h1, h2, h3, h4, h5, h6, h7⟩ := RunTestFn_catch_frame e t
    exact ⟨h1, h2, h3, h4, by rw [h5], h6, h7⟩
  rcases Bool.eq_false_or_eq_true (!rs && t.stressTest) with h | h
  · rw [RunTestFn_stress stage t rs h]
    exact ⟨rfl, rfl, rfl, rfl, rfl, rfl, rfl⟩
  · cases stage
    · rw [RunTestFn_Setup t rs h]
      split
      · exact ⟨rfl, rfl, rfl, rfl, rfl, rfl, rfl⟩
      · exact ⟨rfl, rfl, rfl, rfl, rfl, rfl, rfl⟩
      · exact hc _
    · rw [RunTestFn_Run t rs h]
      split_ifs <;> (try split) <;>
        first
        | exact ⟨rfl, rfl, rfl, rfl, rfl, rfl, rfl⟩
        | exact hc _
    · rw [RunTestFn_Teardown t rs h]
      split
      · exact ⟨rfl, rfl, rfl, rfl, rfl, rfl, rfl⟩
      · exact ⟨rfl, rfl, rfl, rfl, rfl, rfl, rfl⟩
      · exact hc _
    · rw [RunTestFn_Task t rs h]
      split_ifs
      · obtain ⟨h1, h2, h3, h4, h5, -, -, h6, h7⟩ := RunTestFn_task_frame t
        exact ⟨h1, h2, h3, h4, h5, h6, h7⟩
      · exact ⟨rfl, rfl, rfl, rfl, rfl, rfl, rfl⟩

theorem RunTestFn_has_tasks (stage : ULightTestStage) (t : ULightTestInfo) (rs : Bool) :
    (RunTestFn stage t rs).1.threadStarter.has_tasks = t.threadStarter.has_tasks := by
  unfold ULightTestThreadStarter.has_tasks
  rw [(RunTestFn_frame stage t rs).2.2.2.2.1]

/-- The actions a stage invokes when the descriptor is not stress-skipped. -/
theorem RunTestFn_invoked (stage : ULightTestStage) (t : ULightTestInfo) (rs : Bool)
    (h : (!rs && t.stressTest) = false) :
    (RunTestFn stage t rs).2 =
      match stage with
      | ULightTestStage.Setup => if t.testSetup.toBool = true then [Invocation.testSetup] else []
      | ULightTestStage.Task => (List.range t.threadStarter.m_tasks.length).map Invocation.task
      | ULightTestStage.Run =>
        if t.status = ULightTestStatus.Inconclusive ∧ t.testFn.toBool = true then
          [Invocation.testFn]
        else []
      | ULightTestStage.Teardown =>
        if t.testTeardown.toBool = true then [Invocation.testTeardown] else [] := by
  cases stage
  · rw [RunTestFn_Setup t rs h]
    rcases t.testSetup with _ | _ | e <;> simp [StdFunction.toBool]
  · rw [RunTestFn_Run t rs h]
    by_cases hst : t.status = ULightTestStatus.Inconclusive
    · rcases t.testFn with _ | _ | e
      · by_cases ht : t.threadStarter.has_tasks = true <;> simp [StdFunction.toBool, hst, ht]
      · simp [StdFunction.toBool, hst]
      · simp [StdFunction.toBool, hst]
    · simp [hst]
  · rw [RunTestFn_Teardown t rs h]
    rcases t.testTeardown with _ | _ | e <;> simp [StdFunction.toBool]
  · rw [RunTestFn_Task t rs h]
    by_cases ht : t.threadStarter.has_tasks = true
    · simp [ht]
    · have : t.threadStarter.m_tasks = [] := by
        simpa [ULightTestThreadStarter.has_tasks] using ht
      simp [ht, this]

/-- When Setup is not stress-skipped and its action, if any, raises nothing,
the stage leaves the descriptor as it was. -/
theorem RunTestFn_Setup_quiet (t : ULightTestInfo) (rs : Bool)
    (h : (!rs && t.stressTest) = false) (hq : t.testSetup.quiet = true) :
    (RunTestFn ULightTestStage.Setup t rs).1 = t := by
  rw [RunTestFn_Setup t rs h]
  rcases hf : t.testSetup with _ | _ | e
  · rfl
  · rfl
  · rw [hf] at hq
    simp [StdFunction.quiet] at hq

theorem RunTestFn_Teardown_quiet (t : ULightTestInfo) (rs : Bool)
    (h : (!rs && t.stressTest) = false) (hq : t.testTeardown.quiet = true) :
    (RunTestFn ULightTestStage.Teardown t rs).1 = t := by
  rw [RunTestFn_Teardown t rs h]
  rcases hf : t.testTeardown with _ | _ | e
  · rfl
  · rfl
  · rw [hf] at hq
    simp [StdFunction.quiet] at hq

/-- Status after the Task stage of a descriptor that is not stress-skipped:
with an empty bag nothing happens, otherwise the counters decide. -/
theorem RunTestFn_Task_status_eq (t : ULightTestInfo) (rs : Bool)
    (h : (!rs && t.stressTest) = false) :
    (RunTestFn ULightTestStage.Task t rs).1.status =
      if t.threadStarter.has_tasks = true then
        if t.threadStarter.run.1.failed > 0 then ULightTestStatus.Failed
        else if t.threadStarter.run.1.incomplete > 0 then ULightTestStatus.Incomplete
        else if t.threadStarter.run.1.skipped > 0 then ULightTestStatus.Skipped
        else t.status
      else t.status := by
  rw [RunTestFn_Task t rs h]
  by_cases ht : t.threadStarter.has_tasks = true
  · simp only [ht, if_true]
    exact RunTestFn_task_status t
  · simp [ht]

/-- When every worker returns normally the Task stage changes neither the
status nor the error text, the location or the registered actions. -/
theorem RunTestFn_Task_all_return (t : ULightTestInfo) (rs : Bool)
    (h : (!rs && t.stressTest) = false)
    (hall : ∀ f ∈ t.threadStarter.m_tasks, f.call = Outcome.returns) :
    (RunTestFn ULightTestStage.Task t rs).1.status = t.status ∧
    (RunTestFn ULightTestStage.Task t rs).1.error = t.error ∧
    (RunTestFn ULightTestStage.Task t rs).1.filename = t.filename ∧
    (RunTestFn ULightTestStage.Task t rs).1.lineNumber = t.lineNumber := by
  rw [RunTestFn_Task t rs h]
  split_ifs
  · have hr := run_all_return t.threadStarter hall
    unfold RunTestFn_task
    simp only [hr]
    exact ⟨rfl, rfl, rfl, rfl⟩
  · exact ⟨rfl, rfl, rfl, rfl⟩

theorem RunTest_stress (t : ULightTestInfo) (rs : Bool) (h : (!rs && t.stressTest) = true) :
    RunTest t rs = ({ t with status := ULightTestStatus.Skipped }, []) := by
  have e1 := RunTestFn_stress ULightTestStage.Setup t rs h
  have e2 := RunTestFn_stress ULightTestStage.Task
    { t with status := ULightTestStatus.Skipped } rs h
  have e3 := RunTestFn_stress ULightTestStage.Run
    { t with status := ULightTestStatus.Skipped } rs h
  have e4 := RunTestFn_stress ULightTestStage.Teardown
    { t with status := ULightTestStatus.Skipped } rs h
  unfold RunTest
  simp only [e1, e2, e3, e4]
  rfl

/-- The descriptor handed to the Teardown stage still has the registered
teardown action and the stress flag of the descriptor `RunTest` was given. -/
theorem before_Teardown_frame (t : ULightTestInfo) (rs : Bool) :
    (RunTestFn ULightTestStage.Run
        (RunTestFn ULightTestStage.Task
          (RunTestFn ULightTestStage.Setup t rs).1 rs).1 rs).1.testTeardown = t.testTeardown ∧
    (RunTestFn ULightTestStage.Run
        (RunTestFn ULightTestStage.Task
          (RunTestFn ULightTestStage.Setup t rs).1 rs).1 rs).1.stressTest = t.stressTest := by
  obtain ⟨-, -, a3, -, -, -, a7⟩ := RunTestFn_frame ULightTestStage.Setup t rs
  obtain ⟨-, -, b3, -, -, -, b7⟩ :=
    RunTestFn_frame ULightTestStage.Task (RunTestFn ULightTestStage.Setup t rs).1 rs
  obtain ⟨-, -, c3, -, -, -, c7⟩ :=
    RunTestFn_frame ULightTestStage.Run
      (RunTestFn ULightTestStage.Task (RunTestFn ULightTestStage.Setup t rs).1 rs).1 rs
  exact ⟨by rw [c3, b3, a3], by rw [c7, b7, a7]⟩

/-- The invocations of `RunTest` on a descriptor that is not stress-skipped,
stage by stage. -/
theorem RunTest_invoked (t : ULightTestInfo) (rs : Bool)
    (h : (!rs && t.stressTest) = false) :
    (RunTest t rs).2 =
      (if t.testSetup.toBool = true then [Invocation.testSetup] else []) ++
      (List.range t.threadStarter.m_tasks.length).map Invocation.task ++
      (if (RunTestFn ULightTestStage.Task
              (RunTestFn ULightTestStage.Setup t rs).1 rs).1.status =
            ULightTestStatus.Inconclusive ∧ t.testFn.toBool = true then
          [Invocation.testFn]
        else []) ++
      (if t.testTeardown.toBool = true then [Invocation.testTeardown] else []) := by
  obtain ⟨-, -, -, a4, a5, -, a7⟩ := RunTestFn_frame ULightTestStage.Setup t rs
  obtain ⟨-, -, -, b4, -, -, b7⟩ :=
    RunTestFn_frame ULightTestStage.Task (RunTestFn ULightTestStage.Setup t rs).1 rs
  obtain ⟨c3, c7⟩ := before_Teardown_frame t rs
  have h1 : (!rs && (RunTestFn ULightTestStage.Setup t rs).1.stressTest) = false := by
    rw [a7]; exact h
  have h2 : (!rs && (RunTestFn ULightTestStage.Task
      (RunTestFn ULightTestStage.Setup t rs).1 rs).1.stressTest) = false := by
    rw [b7, a7]; exact h
  have h3 : (!rs && (RunTestFn ULightTestStage.Run
        (RunTestFn ULightTestStage.Task
          (RunTestFn ULightTestStage.Setup t rs).1 rs).1 rs).1.stressTest) = false := by
    rw [c7]; exact h
  show (RunTestFn ULightTestStage.Setup t rs).2 ++ _ ++ _ ++ _ = _
  rw [RunTestFn_invoked _ _ rs h, RunTestFn_invoked _ _ rs h1, RunTestFn_invoked _ _ rs h2,
    RunTestFn_invoked _ _ rs h3]
  simp only [a5, b4, a4, c3]

/-- The descriptor on entry to the Run stage, when it started Inconclusive,
its setup raised nothing and every worker returned normally. -/
theorem entry_to_Run_quiet (t : ULightTestInfo) (rs : Bool)
    (h : (!rs && t.stressTest) = false)
    (hsetup : t.testSetup.quiet = true)
    (hall : ∀ f ∈ t.threadStarter.m_tasks, f.call = Outcome.returns) :
    (RunTestFn ULightTestStage.Task (RunTestFn ULightTestStage.Setup t rs).1 rs).1.status =
      t.status ∧
    (RunTestFn ULightTestStage.Task (RunTestFn ULightTestStage.Setup t rs).1 rs).1.testFn =
      t.testFn ∧
    (RunTestFn ULightTestStage.Task (RunTestFn ULightTestStage.Setup t rs).1 rs).1.testTeardown =
      t.testTeardown ∧
    (RunTestFn ULightTestStage.Task
      (RunTestFn ULightTestStage.Setup t rs).1 rs).1.threadStarter.has_tasks =
      t.threadStarter.has_tasks ∧
    (!rs && (RunTestFn ULightTestStage.Task
      (RunTestFn ULightTestStage.Setup t rs).1 rs).1.stressTest) = false := by
  rw [RunTestFn_Setup_quiet t rs h hsetup]
  obtain ⟨-, -, b3, b4, -, -, b7⟩ := RunTestFn_frame ULightTestStage.Task t rs
  refine ⟨(RunTestFn_Task_all_return t rs h hall).1, b4, b3, RunTestFn_has_tasks _ t rs, ?_⟩
  rw [b7]; exact h

theorem RunTest_ignore (t : ULightTestInfo) (rs : Bool) : (RunTest t rs).1.ignore = t.ignore := by
  show (RunTestFn ULightTestStage.Teardown _ rs).1.ignore = _
  rw [(RunTestFn_frame ULightTestStage.Teardown _ rs).2.2.2.2.2.1,
    (RunTestFn_frame ULightTestStage.Run _ rs).2.2.2.2.2.1,
    (RunTestFn_frame ULightTestStage.Task _ rs).2.2.2.2.2.1,
    (RunTestFn_frame ULightTestStage.Setup _ rs).2.2.2.2.2.1]

/-! ## Registration and the pass over the registry -/

/-- A property of descriptors that an assignment preserves still holds for
every descriptor after the assignment through the pointer. -/
theorem assign_at_forall (P : ULightTestInfo → Prop) (f : ULightTestInfo → ULightTestInfo)
    (l : List ULightTestInfo) (pos : Nat) (hf : ∀ t, P t → P (f t)) (hl : ∀ t ∈ l, P t) :
    ∀ t ∈ assign_at f l pos, P t := by
  induction l generalizing pos with
  | nil => intro t ht; simp [assign_at] at ht
  | cons u us ih =>
    cases pos with
    | zero =>
      intro t ht
      simp only [assign_at, List.mem_cons] at ht
      rcases ht with ht | ht
      · subst ht
        exact hf u (hl u (List.mem_cons_self _ _))
      · exact hl t (List.mem_cons_of_mem _ ht)
    | succ n =>
      intro t ht
      simp only [assign_at, List.mem_cons] at ht
      rcases ht with ht | ht
      · subst ht
        exact hl t (List.mem_cons_self _ _)
      · exact ih n (fun v hv => hl v (List.mem_cons_of_mem _ hv)) t ht

/-- A property that holds for a newly constructed descriptor and for every
descriptor of the registry holds for every descriptor after
`FindOrCreateTestInfo`. -/
theorem FindOrCreateTestInfo_forall (P : ULightTestInfo → Prop) (l : List ULightTestInfo)
    (testName_ : String) (hnew : P (ULightTestInfo.new testName_ none false))
    (hl : ∀ t ∈ l, P t) : ∀ t ∈ (FindOrCreateTestInfo l testName_).1, P t := by
  unfold FindOrCreateTestInfo
  split
  · exact hl
  · intro t ht
    simp only [List.mem_append, List.mem_singleton] at ht
    rcases ht with ht | ht
    · exact hl t ht
    · subst ht
      exact hnew

/-- A property of descriptors that holds after construction and that every
registration function preserves holds throughout the registry after any
sequence of registrations. -/
theorem registered_forall (P : ULightTestInfo → Prop) (calls : List Registration)
    (hnew : ∀ name, P (ULightTestInfo.new name none false))
    (hsetup : ∀ c ∈ calls, ∀ t, P t → P { t with testSetup := c.test })
    (hteardown : ∀ c ∈ calls, ∀ t, P t → P { t with testTeardown := c.test })
    (htask : ∀ c ∈ calls, ∀ t, P t →
      P { t with threadStarter := t.threadStarter.add c.test c.count })
    (hrun : ∀ c ∈ calls, ∀ t, P t → P { t with testFn := c.test, stressTest := c.stressTest }) :
    ∀ t ∈ (registered calls).m_tests, P t := by
  unfold registered
  have key : ∀ (cs : List Registration) (h : ULightTests),
      (∀ c ∈ cs, c ∈ calls) → (∀ t ∈ h.m_tests, P t) →
      ∀ t ∈ (cs.foldl UnitTest h).m_tests, P t := by
    intro cs
    induction cs with
    | nil => intro h _ hh; exact hh
    | cons c cs ih =>
      intro h hsub hh
      rw [List.foldl_cons]
      have hc : c ∈ calls := hsub c (List.mem_cons_self _ _)
      apply ih _ (fun d hd => hsub d (List.mem_cons_of_mem _ hd))
      unfold UnitTest
      split_ifs
      · exact assign_at_forall P _ _ _ (hsetup c hc)
          (FindOrCreateTestInfo_forall P _ _ (hnew _) hh)
      · exact assign_at_forall P _ _ _ (htask c hc)
          (FindOrCreateTestInfo_forall P _ _ (hnew _) hh)
      · exact assign_at_forall P _ _ _ (hrun c hc)
          (FindOrCreateTestInfo_forall P _ _ (hnew _) hh)
      · exact assign_at_forall P _ _ _ (hteardown c hc)
          (FindOrCreateTestInfo_forall P _ _ (hnew _) hh)
      · exact hh
  exact key calls ULightTests.new (fun c hc => hc) (by intro t ht; simp [ULightTests.new] at ht)

/-- Registration leaves every descriptor with the outcome fields its
constructor gave it: Inconclusive, not ignored, no error text, no location. -/
theorem registered_fresh (calls : List Registration) :
    ∀ t ∈ (registered calls).m_tests,
      t.status = ULightTestStatus.Inconclusive ∧ t.ignore = false ∧ t.error = "" ∧
      t.filename = "" ∧ t.lineNumber = 0 := by
  apply registered_forall
    (fun t => t.status = ULightTestStatus.Inconclusive ∧ t.ignore = false ∧ t.error = "" ∧
      t.filename = "" ∧ t.lineNumber = 0)
  · intro name
    exact ⟨rfl, rfl, rfl, rfl, rfl⟩
  · intro c _ t ht
    exact ht
  · intro c _ t ht
    exact ht
  · intro c _ t ht
    exact ht
  · intro c _ t ht
    exact ht

/-- When every registration passes a bound function, as the registration
macros do, a descriptor carries the stress flag only together with a body. -/
theorem registered_stress_body (calls : List Registration)
    (hbound : ∀ c ∈ calls, c.test.toBool = true) :
    ∀ t ∈ (registered calls).m_tests, t.stressTest = true → t.testFn.toBool = true := by
  apply registered_forall (fun t => t.stressTest = true → t.testFn.toBool = true)
  · intro name h
    simp [ULightTestInfo.new] at h
  · intro c _ t ht
    exact ht
  · intro c _ t ht
    exact ht
  · intro c _ t ht
    exact ht
  · intro c hc t _ _
    exact hbound c hc

/-- The loop handles the descriptors one by one: the descriptor at a position
after the pass is the loop body applied to the descriptor at that position. -/
theorem Execute_loop_tests (named : List String) (rs namedOnly : Bool) (i : Nat)
    (l : List ULightTestInfo) :
    (Execute_loop named rs namedOnly i l).1 =
      l.map (fun t => (Execute_body named rs namedOnly t).1) := by
  induction l generalizing i with
  | nil => rfl
  | cons t ts ih => simp [Execute_loop, ih]

/-- Every invocation recorded by the loop carries a position the loop went
through. -/
theorem Execute_loop_positions (named : List String) (rs namedOnly : Bool) (i : Nat)
    (l : List ULightTestInfo) (p : Nat × Invocation)
    (hp : p ∈ (Execute_loop named rs namedOnly i l).2) : i ≤ p.1 ∧ p.1 < i + l.length := by
  induction l generalizing i with
  | nil => simp [Execute_loop] at hp
  | cons t ts ih =>
    simp only [Execute_loop, List.mem_append, List.mem_map] at hp
    rcases hp with ⟨c, -, hc⟩ | hp
    · subst hc
      simp
    · have := ih (i + 1) hp
      simp only [List.length_cons]
      omega

/-- The invocations the loop records for a position are those of the loop body
on the descriptor at that position, in order. -/
theorem Execute_loop_invoked (named : List String) (rs namedOnly : Bool) (i : Nat)
    (l : List ULightTestInfo) (j : Nat) (t : ULightTestInfo) (hj : l[j]? = some t) :
    ((Execute_loop named rs namedOnly i l).2.filter (fun p => p.1 = i + j)).map Prod.snd =
      (Execute_body named rs namedOnly t).2 := by
  induction l generalizing i j with
  | nil => simp at hj
  | cons u us ih =>
    simp only [Execute_loop, List.filter_append, List.map_append]
    cases j with
    | zero =>
      simp only [List.getElem?_cons_zero, Option.some.injEq] at hj
      subst hj
      have h1 : List.filter (fun p : Nat × Invocation => decide (p.1 = i + 0))
          (List.map (fun c => (i, c)) (Execute_body named rs namedOnly u).2) =
          List.map (fun c => (i, c)) (Execute_body named rs namedOnly u).2 := by
        rw [List.filter_eq_self]
        intro p hp
        simp only [List.mem_map] at hp
        obtain ⟨c, -, hc⟩ := hp
        subst hc
        simp
      have h2 : List.filter (fun p : Nat × Invocation => decide (p.1 = i + 0))
          (Execute_loop named rs namedOnly (i + 1) us).2 = [] := by
        rw [List.filter_eq_nil_iff]
        intro p hp
        have := Execute_loop_positions named rs namedOnly (i + 1) us p hp
        simp only [decide_eq_true_eq]
        omega
      rw [h1, h2]
      simp [Function.comp_def]
    | succ k =>
      simp only [List.getElem?_cons_succ] at hj
      have h1 : List.filter (fun p : Nat × Invocation => decide (p.1 = i + (k + 1)))
          (List.map (fun c => (i, c)) (Execute_body named rs namedOnly u).2) = [] := by
        rw [List.filter_eq_nil_iff]
        intro p hp
        simp only [List.mem_map] at hp
        obtain ⟨c, -, hc⟩ := hp
        subst hc
        simp
      have h2 := ih (i + 1) k hj
      have h3 : i + 1 + k = i + (k + 1) := by omega
      rw [h3] at h2
      rw [h1, h2]
      simp

/-- The descriptor at a position after `Execute`, and the invocations recorded
for that position. -/
theorem Execute_at (h : ULightTests) (elapsed : Int) (i : Nat) (t : ULightTestInfo)
    (hi : h.m_tests[i]? = some t) :
    (h.Execute elapsed).1.m_tests[i]? =
      some (Execute_body h.m_namedTests h.m_runStressTests
        (decide (h.m_namedTests.length > 0)) t).1 ∧
    ((h.Execute elapsed).2.filter (fun p => p.1 = i)).map Prod.snd =
      (Execute_body h.m_namedTests h.m_runStressTests
        (decide (h.m_namedTests.length > 0)) t).2 := by
  constructor
  · simp [ULightTests.Execute, Execute_loop_tests, hi]
  · have := Execute_loop_invoked h.m_namedTests h.m_runStressTests
      (decide (h.m_namedTests.length > 0)) 0 h.m_tests i t hi
    simpa [ULightTests.Execute] using this

/-! ## The summary of a run -/

theorem StdMap.mem_find (m : StdMap) (k : String) (c : Nat) (ho : StdMap.Ordered m)
    (h : (k, c) ∈ m) : StdMap.find m k = some c := by
  induction m with
  | nil => simp at h
  | cons e es ih =>
    obtain ⟨k2, c2⟩ := e
    have hpw := List.pairwise_cons.mp ho
    rcases List.mem_cons.mp h with h | h
    · have h1 : k = k2 := congrArg Prod.fst h
      have h2 : c = c2 := congrArg Prod.snd h
      subst h1
      subst h2
      simp [StdMap.find]
    · have hlt : k2.data < k.data := hpw.1 (k, c) h
      simp only [StdMap.find, if_neg (data_lt_ne hlt)]
      exact ih hpw.2 h

theorem StdMap.ordered_nodup (m : StdMap) (ho : StdMap.Ordered m) :
    (m.map Prod.fst).Nodup := by
  unfold StdMap.Ordered at ho
  rw [List.Nodup, List.pairwise_map]
  exact List.Pairwise.imp (fun hab => data_lt_ne hab) ho

/-- The error list of the summary is the error map of the shared counters. -/
theorem run_errors (s : ULightTestThreadStarter) :
    s.run.1.errors =
      (s.m_tasks.foldl (fun info task => thread_proc task info)
        ULightTestThreadInfo.new).m_errors := by
  simp only [ULightTestThreadStarter.run]
  exact get_errors_eq _

theorem run_errors_ordered (s : ULightTestThreadStarter) : StdMap.Ordered s.run.1.errors := by
  rw [run_errors]
  exact (foldl_thread_proc_errors s.m_tasks ULightTestThreadInfo.new List.Pairwise.nil).1

/-- Looking a text up in the error list of the summary gives the number of
workers that failed with it, and nothing when there is none. -/
theorem run_errors_find (s : ULightTestThreadStarter) (k : String) :
    StdMap.find s.run.1.errors k =
      if tally s.m_tasks k = 0 then none else some (tally s.m_tasks k) := by
  rw [run_errors]
  have := (foldl_thread_proc_errors s.m_tasks ULightTestThreadInfo.new List.Pairwise.nil).2 k
  rw [this]
  simp [ULightTestThreadInfo.new, StdMap.find]

theorem StdMap.sum_emplace (m : StdMap) (k : String) (v : Nat)
    (h : StdMap.find m k = none) :
    ((StdMap.emplace m k v).map Prod.snd).sum = (m.map Prod.snd).sum + v := by
  induction m with
  | nil => simp [StdMap.emplace]
  | cons e es ih =>
    obtain ⟨k2, c2⟩ := e
    have hk : k2 ≠ k := by
      intro hk
      simp [StdMap.find, hk] at h
    have hrest : StdMap.find es k = none := by
      simpa [StdMap.find, hk] using h
    by_cases h1 : k.data < k2.data
    · simp only [StdMap.emplace, if_pos h1, List.map_cons, List.sum_cons]
      omega
    · simp only [StdMap.emplace, if_neg h1, if_neg (Ne.symm hk), List.map_cons, List.sum_cons,
        ih hrest]
      omega

theorem StdMap.map_add_absent (m : StdMap) (k : String) (d : Nat)
    (h : StdMap.find m k = none) :
    m.map (fun e => if e.1 = k then (e.1, e.2 + d) else e) = m := by
  induction m with
  | nil => rfl
  | cons e es ih =>
    obtain ⟨k2, c2⟩ := e
    have hk : k2 ≠ k := by
      intro hk
      simp [StdMap.find, hk] at h
    have hrest : StdMap.find es k = none := by
      simpa [StdMap.find, hk] using h
    simp only [List.map_cons, if_neg hk, ih hrest]

theorem StdMap.sum_map_add (m : StdMap) (k : String) (d c : Nat) (ho : StdMap.Ordered m)
    (h : StdMap.find m k = some c) :
    ((m.map (fun e => if e.1 = k then (e.1, e.2 + d) else e)).map Prod.snd).sum =
      (m.map Prod.snd).sum + d := by
  induction m with
  | nil => simp [StdMap.find] at h
  | cons e es ih =>
    obtain ⟨k2, c2⟩ := e
    have hpw := List.pairwise_cons.mp ho
    by_cases hk : k2 = k
    · subst hk
      have hnone := StdMap.find_tail_none k2 c2 es k2 ho (lt_irrefl _)
      rw [List.map_cons, StdMap.map_add_absent es k2 d hnone]
      simp only [if_true, List.map_cons, List.sum_cons]
      omega
    · have hrest : StdMap.find es k = some c := by
        simpa [StdMap.find, hk] using h
      simp only [List.map_cons, if_neg hk, List.sum_cons, ih hpw.2 hrest]
      omega

/-- Member `set_failed` adds one to the sum of the counts of the error map. -/
theorem set_failed_sum (info : ULightTestThreadInfo) (k : String)
    (ho : StdMap.Ordered info.m_errors) :
    ((info.set_failed k).m_errors.map Prod.snd).sum = (info.m_errors.map Prod.snd).sum + 1 := by
  simp only [ULightTestThreadInfo.set_failed]
  split
  · next hnone => exact StdMap.sum_emplace _ _ _ hnone
  · next c hsome =>
    unfold StdMap.addAt
    rw [StdMap.emplace_present _ _ _ c ho hsome]
    exact StdMap.sum_map_add _ _ _ c ho hsome

/-- The counts of the error map grow with the failed counter. -/
theorem foldl_thread_proc_sum (l : List StdFunction) (info : ULightTestThreadInfo)
    (ho : StdMap.Ordered info.m_errors) :
    ((l.foldl (fun info task => thread_proc task info) info).m_errors.map Prod.snd).sum =
      (info.m_errors.map Prod.snd).sum + l.countP StdFunction.fails := by
  induction l generalizing info with
  | nil => simp
  | cons f fs ih =>
    rw [List.foldl_cons, ih _ (thread_proc_ordered f info ho), thread_proc_errors,
      List.countP_cons]
    cases hf : f.failure with
    | none => simp [StdFunction.fails, hf]
    | some k =>
      simp only [StdFunction.fails, hf, Option.isSome_some, if_true]
      rw [set_failed_sum info k ho]
      omega

theorem run_errors_sum (s : ULightTestThreadStarter) :
    (s.run.1.errors.map Prod.snd).sum = s.run.1.failed := by
  have hnew : StdMap.Ordered ULightTestThreadInfo.new.m_errors := List.Pairwise.nil
  rw [run_errors, foldl_thread_proc_sum s.m_tasks ULightTestThreadInfo.new hnew,
    (run_counters s).2.1]
  simp [ULightTestThreadInfo.new]

/-- The error text after the statements of the Task branch: built from the
first entry of the error list when there is one, untouched otherwise. -/
theorem RunTestFn_task_error (t : ULightTestInfo) :
    (RunTestFn_task t).error =
      match t.threadStarter.run.1.errors with
      | first :: _ => "Error occurred in " ++ toString first.2 ++ " threads: " ++ first.1
      | [] => t.error := by
  unfold RunTestFn_task
  simp only []
  split <;> split_ifs <;> rfl

/-- A bag in which some worker fails has a positive failed counter and a
non-empty error list. -/
theorem run_failed_pos (s : ULightTestThreadStarter)
    (h : ∃ f ∈ s.m_tasks, f.fails = true) :
    0 < s.run.1.failed ∧ s.run.1.errors ≠ [] := by
  have hpos : 0 < s.run.1.failed := by
    rw [(run_counters s).2.1]
    exact List.countP_pos_iff.mpr h
  refine ⟨hpos, ?_⟩
  intro hnil
  have := run_errors_sum s
  rw [hnil] at this
  simp at this
  omega

/-- When all the workers that fail do so with one text, the error list is the
single pair of that text and the number of workers that failed. -/
theorem run_errors_single (s : ULightTestThreadStarter) (m : String)
    (hfail : ∃ f ∈ s.m_tasks, f.fails = true)
    (hsame : ∀ f ∈ s.m_tasks, f.fails = true → f.failure = some m) :
    s.run.1.errors = [(m, s.m_tasks.countP StdFunction.fails)] := by
  have hm : tally s.m_tasks m = s.m_tasks.countP StdFunction.fails := by
    unfold tally
    apply List.countP_congr
    intro f hf
    constructor
    · intro h
      have : f.failure = some m := by simpa using h
      simp [StdFunction.fails, this]
    · intro h
      simpa using hsame f hf h
  have hpos : 0 < s.m_tasks.countP StdFunction.fails := List.countP_pos_iff.mpr hfail
  apply StdMap.ext _ _ (run_errors_ordered s) (List.pairwise_singleton _ _)
  intro q
  rw [run_errors_find]
  by_cases hq : m = q
  · subst hq
    rw [hm]
    have : s.m_tasks.countP StdFunction.fails ≠ 0 := by omega
    simp [StdMap.find, this]
  · have h0 : tally s.m_tasks q = 0 := by
      unfold tally
      rw [List.countP_eq_zero]
      intro f hf hfq
      have hfq2 : f.failure = some q := by simpa using hfq
      have hfm := hsame f hf (by simp [StdFunction.fails, hfq2])
      rw [hfq2] at hfm
      exact hq (Option.some.inj hfm).symm
    simp [StdMap.find, h0, hq]

/-! ## Find-or-create -/

theorem FindOrCreateTestInfo_cons (t : ULightTestInfo) (rest : List ULightTestInfo)
    (name : String) :
    FindOrCreateTestInfo (t :: rest) name =
      if t.testName = name then (t :: rest, 0)
      else (t :: (FindOrCreateTestInfo rest name).1, (FindOrCreateTestInfo rest name).2 + 1) := by
  unfold FindOrCreateTestInfo
  rw [List.findIdx?_cons]
  by_cases hp : t.testName = name
  · simp [hp]
  · simp only [hp, decide_False, Bool.false_eq_true, if_false, zero_add]
    rw [List.findIdx?_succ]
    cases List.findIdx? (fun i => decide (i.testName = name)) rest 0 with
    | none => simp
    | some pos => simp

/-- Finding or creating the descriptor and assigning through the returned
pointer is the recursion `find_or_create_assign`. -/
theorem assign_FindOrCreateTestInfo (f : ULightTestInfo → ULightTestInfo)
    (l : List ULightTestInfo) (name : String) :
    assign_at f (FindOrCreateTestInfo l name).1 (FindOrCreateTestInfo l name).2 =
      find_or_create_assign f name l := by
  induction l with
  | nil => simp [FindOrCreateTestInfo, assign_at, find_or_create_assign]
  | cons t rest ih =>
    rw [FindOrCreateTestInfo_cons]
    by_cases hp : t.testName = name
    · simp [hp, assign_at, find_or_create_assign]
    · simp only [hp, if_false, assign_at, find_or_create_assign, ih]

/-- The names in the registry after a find-or-create with an assignment that
keeps the name: unchanged when the name is there, the new name added at the end
otherwise. -/
theorem find_or_create_assign_names (f : ULightTestInfo → ULightTestInfo) (name : String)
    (hf : ∀ t, (f t).testName = t.testName) (l : List ULightTestInfo) :
    (find_or_create_assign f name l).map (fun t => t.testName) =
      if name ∈ l.map (fun t => t.testName) then l.map (fun t => t.testName)
      else l.map (fun t => t.testName) ++ [name] := by
  induction l with
  | nil => simp [find_or_create_assign, hf, ULightTestInfo.new]
  | cons t rest ih =>
    by_cases hp : t.testName = name
    · simp [find_or_create_assign, hp, hf]
    · have hp2 : ¬ name = t.testName := fun h => hp h.symm
      simp only [find_or_create_assign, hp, if_false, List.map_cons, ih, List.mem_cons, hp2,
        false_or]
      split_ifs <;> simp

/-- One registration, as a find-or-create with an assignment. -/
theorem UnitTest_tests (h : ULightTests) (c : Registration) :
    ∃ f : ULightTestInfo → ULightTestInfo, (∀ t, (f t).testName = t.testName) ∧
      (UnitTest h c).m_tests = find_or_create_assign f c.testName h.m_tests := by
  unfold UnitTest
  split_ifs with h1 h2 h3 h4
  · exact ⟨fun testInfo => { testInfo with testSetup := c.test }, fun _ => rfl,
      assign_FindOrCreateTestInfo _ _ _⟩
  · exact ⟨fun testInfo =>
        { testInfo with threadStarter := testInfo.threadStarter.add c.test c.count },
      fun _ => rfl, assign_FindOrCreateTestInfo _ _ _⟩
  · exact ⟨fun testInfo => { testInfo with testFn := c.test, stressTest := c.stressTest },
      fun _ => rfl, assign_FindOrCreateTestInfo _ _ _⟩
  · exact ⟨fun testInfo => { testInfo with testTeardown := c.test }, fun _ => rfl,
      assign_FindOrCreateTestInfo _ _ _⟩
  · exfalso
    cases hs : c.stage <;> simp_all

/-- The names in the registry after one more registration. -/
theorem UnitTest_names (h : ULightTests) (c : Registration) :
    (UnitTest h c).m_tests.map (fun t => t.testName) =
      if c.testName ∈ h.m_tests.map (fun t => t.testName) then
        h.m_tests.map (fun t => t.testName)
      else h.m_tests.map (fun t => t.testName) ++ [c.testName] := by
  obtain ⟨f, hf, heq⟩ := UnitTest_tests h c
  rw [heq]
  exact find_or_create_assign_names f c.testName hf h.m_tests

theorem foldl_UnitTest_names (calls : List Registration) (h : ULightTests) :
    (calls.foldl UnitTest h).m_tests.map (fun t => t.testName) =
      (calls.map (fun c => c.testName)).foldl
        (fun seen n => if n ∈ seen then seen else seen ++ [n])
        (h.m_tests.map (fun t => t.testName)) := by
  induction calls generalizing h with
  | nil => rfl
  | cons c cs ih =>
    simp only [List.foldl_cons, List.map_cons]
    rw [ih (UnitTest h c), UnitTest_names]

theorem foldl_first_nodup (names seen : List String) (h : seen.Nodup) :
    (names.foldl (fun seen n => if n ∈ seen then seen else seen ++ [n]) seen).Nodup ∧
    ∀ n, n ∈ names.foldl (fun seen n => if n ∈ seen then seen else seen ++ [n]) seen ↔
      n ∈ seen ∨ n ∈ names := by
  induction names generalizing seen with
  | nil => simp [h]
  | cons a as ih =>
    simp only [List.foldl_cons]
    by_cases ha : a ∈ seen
    · simp only [ha, if_true]
      obtain ⟨h1, h2⟩ := ih seen h
      refine ⟨h1, ?_⟩
      intro n
      rw [h2 n, List.mem_cons]
      constructor
      · rintro (h | h)
        · exact Or.inl h
        · exact Or.inr (Or.inr h)
      · rintro (h | h | h)
        · exact Or.inl h
        · subst h
          exact Or.inl ha
        · exact Or.inr h
    · simp only [ha, if_false]
      have hnd : (seen ++ [a]).Nodup := by
        rw [List.nodup_append]
        refine ⟨h, List.nodup_singleton a, ?_⟩
        intro x hx hx2
        rw [List.mem_singleton] at hx2
        subst hx2
        exact ha hx
      obtain ⟨h1, h2⟩ := ih (seen ++ [a]) hnd
      refine ⟨h1, ?_⟩
      intro n
      rw [h2 n, List.mem_append, List.mem_singleton, List.mem_cons]
      tauto

theorem bag_named_cons (t : ULightTestInfo) (rest : List ULightTestInfo) (q : String) :
    bag_named (t :: rest) q =
      if t.testName = q then t.threadStarter.m_tasks else bag_named rest q := by
  unfold bag_named
  rw [List.find?_cons]
  by_cases hp : t.testName = q <;> simp [hp]

/-- The task bags by name after a find-or-create with an assignment that
appends `extra` to the bag and keeps the name. -/
theorem bag_named_find_or_create_assign (g : ULightTestInfo → ULightTestInfo) (name : String)
    (extra : List StdFunction) (hname : ∀ t, (g t).testName = t.testName)
    (hbag : ∀ t, (g t).threadStarter.m_tasks = t.threadStarter.m_tasks ++ extra)
    (l : List ULightTestInfo) :
    bag_named (find_or_create_assign g name l) name = bag_named l name ++ extra ∧
    ∀ other, other ≠ name →
      bag_named (find_or_create_assign g name l) other = bag_named l other := by
  induction l with
  | nil =>
    constructor
    · rw [find_or_create_assign, bag_named_cons, hname, hbag]
      simp [ULightTestInfo.new, ULightTestThreadStarter.new, bag_named]
    · intro other ho
      rw [find_or_create_assign, bag_named_cons, hname]
      simp [ULightTestInfo.new, Ne.symm ho]
  | cons t rest ih =>
    by_cases hp : t.testName = name
    · constructor
      · rw [find_or_create_assign, if_pos hp, bag_named_cons, bag_named_cons, hname, if_pos hp,
          if_pos hp, hbag]
      · intro other ho
        have hne : ¬ t.testName = other := by rw [hp]; exact Ne.symm ho
        rw [find_or_create_assign, if_pos hp, bag_named_cons, bag_named_cons, hname, if_neg hne,
          if_neg hne]
    · constructor
      · rw [find_or_create_assign, if_neg hp, bag_named_cons, bag_named_cons, if_neg hp,
          if_neg hp]
        exact ih.1
      · intro other ho
        rw [find_or_create_assign, if_neg hp, bag_named_cons, bag_named_cons]
        by_cases hq : t.testName = other
        · rw [if_pos hq, if_pos hq]
        · rw [if_neg hq, if_neg hq]
          exact ih.2 other ho

/-- A find-or-create with an assignment leaves every descriptor with another
name where and as it was. -/
theorem find_or_create_assign_others (g : ULightTestInfo → ULightTestInfo) (name : String)
    (l : List ULightTestInfo) (i : Nat) (t : ULightTestInfo) (hi : l[i]? = some t)
    (hne : t.testName ≠ name) : (find_or_create_assign g name l)[i]? = some t := by
  induction l generalizing i with
  | nil => simp at hi
  | cons u us ih =>
    cases i with
    | zero =>
      simp only [List.getElem?_cons_zero, Option.some.injEq] at hi
      subst hi
      simp [find_or_create_assign, hne]
    | succ n =>
      simp only [List.getElem?_cons_succ] at hi
      by_cases hp : u.testName = name
      · simp [find_or_create_assign, hp, hi]
      · simp [find_or_create_assign, hp, ih n hi]

/-- A find-or-create with an assignment that changes nothing: the registry is
as it was when the name is registered, and has one new descriptor at the end
otherwise. -/
theorem find_or_create_assign_id (g : ULightTestInfo → ULightTestInfo) (name : String)
    (hg : ∀ t, g t = t) (l : List ULightTestInfo) :
    find_or_create_assign g name l =
      if name ∈ l.map (fun t => t.testName) then l
      else l ++ [ULightTestInfo.new name none false] := by
  induction l with
  | nil => simp [find_or_create_assign, hg]
  | cons t rest ih =>
    by_cases hp : t.testName = name
    · simp [find_or_create_assign, hp, hg]
    · have hp2 : ¬ name = t.testName := fun h => hp h.symm
      simp only [find_or_create_assign, hp, if_false, ih, List.map_cons, List.mem_cons, hp2,
        false_or]
      split_ifs <;> simp

theorem AddTask_tests (h : ULightTests) (name : String) (action : StdFunction) (k : Nat) :
    (h.AddTask name action k).m_tests =
      find_or_create_assign
        (fun testInfo => { testInfo with threadStarter := testInfo.threadStarter.add action k })
        name h.m_tests :=
  assign_FindOrCreateTestInfo _ _ _

/-- The positions recorded by the loop of `Execute` never go down. -/
theorem Execute_loop_ascending (named : List String) (rs namedOnly : Bool) (i : Nat)
    (l : List ULightTestInfo) :
    List.Pairwise (fun p q : Nat × Invocation => p.1 ≤ q.1)
      (Execute_loop named rs namedOnly i l).2 := by
  induction l generalizing i with
  | nil => simp [Execute_loop]
  | cons t ts ih =>
    simp only [Execute_loop]
    rw [List.pairwise_append]
    refine ⟨?_, ih (i + 1), ?_⟩
    · rw [List.pairwise_map]
      exact List.pairwise_of_forall (fun _ _ => le_refl i)
    · intro p hp q hq
      simp only [List.mem_map] at hp
      obtain ⟨c, -, hc⟩ := hp
      subst hc
      have := Execute_loop_positions named rs namedOnly (i + 1) ts q hq
      simp only
      omega

/-! ## The timer -/

theorem wrap64_eq (x : Int) (h1 : -9223372036854775808 ≤ x) (h2 : x < 9223372036854775808) :
    wrap64 x = x := by
  unfold wrap64
  omega

/-- Without overflow `ToMicroSeconds` is the formula of the source. -/
theorem ToMicroSeconds_valid (tm : timespec) (h : tm.valid = true) :
    ToMicroSeconds tm = tm.tv_nsec / 1000 + tm.tv_sec * 1000000 := by
  simp only [timespec.valid, decide_eq_true_eq] at h
  obtain ⟨h0, h1, h2, h3⟩ := h
  unfold ToMicroSeconds
  rw [Int.tdiv_eq_ediv h2 (by decide), wrap64_eq (tm.tv_sec * 1000000) (by omega) (by omega),
    wrap64_eq _ (by omega) (by omega)]

theorem ToMicroSeconds_range (tm : timespec) (h : tm.valid = true) :
    0 ≤ ToMicroSeconds tm ∧ ToMicroSeconds tm < 9223372036854775808 := by
  rw [ToMicroSeconds_valid tm h]
  simp only [timespec.valid, decide_eq_true_eq] at h
  omega

theorem ToMicroSeconds_mono (a b : timespec) (ha : a.valid = true) (hb : b.valid = true)
    (hab : a.not_after b = true) : ToMicroSeconds a ≤ ToMicroSeconds b := by
  rw [ToMicroSeconds_valid a ha, ToMicroSeconds_valid b hb]
  simp only [timespec.valid, timespec.not_after, decide_eq_true_eq] at ha hb hab
  omega

/-- The build without `__MACH__` reports a failed call. -/
theorem portable_gettime_failed (clock : Clock) (tm : timespec) (h : clock.clock_gettime.1 < 0) :
    (portable_gettime false clock tm).1 = false := by
  simp [portable_gettime, h]

/-- A successful call, on either build: what is reported and what is read. -/
theorem portable_gettime_clock_at (mach : Bool) (sec nsec : Int) (tm : timespec)
    (h0 : 0 ≤ nsec) (h1 : nsec < 1000000000) :
    (portable_gettime mach (clock_at sec nsec) tm).1 = true ∧
    (portable_gettime mach (clock_at sec nsec) tm).2.tv_sec = sec ∧
    ToMicroSeconds (portable_gettime mach (clock_at sec nsec) tm).2 =
      ToMicroSeconds { tv_sec := sec, tv_nsec := nsec } := by
  cases mach
  · simp [portable_gettime, clock_at]
  · have hw : wrap64 (nsec / 1000 * 1000) = nsec / 1000 * 1000 :=
      wrap64_eq _ (by omega) (by omega)
    have hd : Int.tdiv (nsec / 1000 * 1000) 1000 = Int.tdiv nsec 1000 := by
      rw [Int.tdiv_eq_ediv (by omega) (by decide), Int.tdiv_eq_ediv h0 (by decide)]
      omega
    simp [portable_gettime, clock_at, ToMicroSeconds, hw, hd]

/-- A call of `Poll` does not change the timer. -/
theorem Poll_timer (t : ULightTestTimer) (mach : Bool) (clock : Clock) (tm : timespec) :
    (t.Poll mach clock tm).2 = t := by
  unfold ULightTestTimer.Poll
  split
  · rfl
  · simp only
    split <;> rfl

/-- A timer marked bad polls 0. -/
theorem Poll_bad (t : ULightTestTimer) (mach : Bool) (clock : Clock) (tm : timespec)
    (h : t.m_bad = true) : (t.Poll mach clock tm).1 = 0 := by
  simp [ULightTestTimer.Poll, h]

/-- A failed reading that is reported as failed makes `Poll` return 0. -/
theorem Poll_reported_failure (t : ULightTestTimer) (mach : Bool) (clock : Clock)
    (tm : timespec) (h : (portable_gettime mach clock tm).1 = false) :
    (t.Poll mach clock tm).1 = 0 := by
  unfold ULightTestTimer.Poll
  split
  · rfl
  · simp [h]

/-- A start reading that is reported as failed marks the timer bad. -/
theorem new_reported_failure (mach : Bool) (clock : Clock) (tm : timespec) (m_pit : Int)
    (h : (portable_gettime mach clock tm).1 = false) :
    (ULightTestTimer.new mach clock tm m_pit).m_bad = true := by
  simp [ULightTestTimer.new, h]

/-- A timer started at a reading `s` reported as a success polls, at a reading
`t` reported as a success, the difference of the two in microseconds. -/
theorem Poll_elapsed (mach : Bool) (c0 c1 : Clock) (tm0 tm1 : timespec) (pit0 : Int)
    (s t : timespec) (h0 : portable_gettime mach c0 tm0 = (true, s))
    (h1 : portable_gettime mach c1 tm1 = (true, t))
    (hs : s.valid = true) (ht : t.valid = true) :
    ((ULightTestTimer.new mach c0 tm0 pit0).Poll mach c1 tm1).1 =
      ToMicroSeconds t - ToMicroSeconds s ∧
    ToMicroSeconds t = t.tv_nsec / 1000 + t.tv_sec * 1000000 ∧
    ToMicroSeconds s = s.tv_nsec / 1000 + s.tv_sec * 1000000 ∧
    (ULightTestTimer.new mach c0 tm0 pit0).m_pit = ToMicroSeconds s := by
  have rs := ToMicroSeconds_range s hs
  have rt := ToMicroSeconds_range t ht
  refine ⟨?_, ToMicroSeconds_valid t ht, ToMicroSeconds_valid s hs, ?_⟩
  · simp only [ULightTestTimer.Poll, ULightTestTimer.new, h0, h1, if_true, Bool.not_true,
      Bool.false_eq_true, if_false]
    exact wrap64_eq _ (by omega) (by omega)
  · simp [ULightTestTimer.new, h0]

/-- Polls of one timer at readings that do not go back give results that are
not negative and do not go down. -/
theorem Poll_monotone (mach : Bool) (c0 c1 c2 : Clock) (tm0 tm1 tm2 : timespec) (pit0 : Int)
    (s t1 t2 : timespec) (h0 : portable_gettime mach c0 tm0 = (true, s))
    (h1 : portable_gettime mach c1 tm1 = (true, t1))
    (h2 : portable_gettime mach c2 tm2 = (true, t2))
    (hs : s.valid = true) (ht1 : t1.valid = true) (ht2 : t2.valid = true)
    (hst : s.not_after t1 = true) (htt : t1.not_after t2 = true) :
    0 ≤ ((ULightTestTimer.new mach c0 tm0 pit0).Poll mach c1 tm1).1 ∧
    ((ULightTestTimer.new mach c0 tm0 pit0).Poll mach c1 tm1).1 ≤
      ((((ULightTestTimer.new mach c0 tm0 pit0).Poll mach c1 tm1).2).Poll mach c2 tm2).1 := by
  rw [Poll_timer, (Poll_elapsed mach c0 c1 tm0 tm1 pit0 s t1 h0 h1 hs ht1).1,
    (Poll_elapsed mach c0 c2 tm0 tm2 pit0 s t2 h0 h2 hs ht2).1]
  have a := ToMicroSeconds_mono s t1 hs ht1 hst
  have b := ToMicroSeconds_mono t1 t2 ht1 ht2 htt
  omega

/-- On the build without `__MACH__` the claimed zeros hold: a failed start
reading, or a failed reading in `Poll`, gives 0. -/
theorem Poll_failure_zero (c0 c1 : Clock) (tm0 tm1 : timespec) (pit0 : Int) :
    (c0.clock_gettime.1 < 0 → ((ULightTestTimer.new false c0 tm0 pit0).Poll false c1 tm1).1 = 0) ∧
    (c1.clock_gettime.1 < 0 →
      ((ULightTestTimer.new false c0 tm0 pit0).Poll false c1 tm1).1 = 0) := by
  constructor
  · intro h
    exact Poll_bad _ _ _ _ (new_reported_failure _ _ _ _ (portable_gettime_failed c0 tm0 h))
  · intro h
    exact Poll_reported_failure _ _ _ _ (portable_gettime_failed c1 tm1 h)

/-! ## Where the status Passed comes from -/

/-- A worker that neither fails, skips nor reports incomplete returns. -/
theorem call_returns_of_clean (f : StdFunction) (h1 : f.fails = false) (h2 : f.skips = false)
    (h3 : f.incompletes = false) : f.call = Outcome.returns := by
  cases f with
  | none => simp [StdFunction.fails, StdFunction.failure, StdFunction.call] at h1
  | some o =>
    cases o with
    | returns => rfl
    | throws e =>
      cases e with
      | UnitTestException ex =>
        simp [StdFunction.fails, StdFunction.failure, StdFunction.call] at h1
      | UnitTestSkipException => simp [StdFunction.skips, StdFunction.call] at h2
      | UnitTestIncompleteException => simp [StdFunction.incompletes, StdFunction.call] at h3
      | other => simp [StdFunction.fails, StdFunction.failure, StdFunction.call] at h1

theorem RunTestFn_catch_adverse (e : Raised) (t : ULightTestInfo) :
    (RunTestFn_catch e t).status.adverse = true := by
  rw [RunTestFn_catch_status]
  cases e <;> rfl

/-- A setup that raises leaves an adverse status. -/
theorem RunTestFn_Setup_adverse (t : ULightTestInfo) (rs : Bool)
    (h : (!rs && t.stressTest) = false) (hq : t.testSetup.quiet = false) :
    (RunTestFn ULightTestStage.Setup t rs).1.status.adverse = true := by
  rw [RunTestFn_Setup t rs h]
  split
  · rename_i hs
    simp [hs, StdFunction.quiet] at hq
  · rename_i hs
    simp [hs, StdFunction.quiet] at hq
  · exact RunTestFn_catch_adverse _ _

/-- A teardown that raises leaves an adverse status. -/
theorem RunTestFn_Teardown_adverse (t : ULightTestInfo) (rs : Bool)
    (h : (!rs && t.stressTest) = false) (hq : t.testTeardown.quiet = false) :
    (RunTestFn ULightTestStage.Teardown t rs).1.status.adverse = true := by
  rw [RunTestFn_Teardown t rs h]
  split
  · rename_i hs
    simp [hs, StdFunction.quiet] at hq
  · rename_i hs
    simp [hs, StdFunction.quiet] at hq
  · exact RunTestFn_catch_adverse _ _

/-- A Task stage in which some worker does not return leaves an adverse
status. -/
theorem RunTestFn_Task_adverse (t : ULightTestInfo) (rs : Bool)
    (h : (!rs && t.stressTest) = false)
    (hsome : ¬ ∀ f ∈ t.threadStarter.m_tasks, f.call = Outcome.returns) :
    (RunTestFn ULightTestStage.Task t rs).1.status.adverse = true := by
  rw [RunTestFn_Task_status_eq t rs h]
  obtain ⟨-, hf, hs, hi⟩ := run_counters t.threadStarter
  have hbag : t.threadStarter.has_tasks = true := by
    simp only [ULightTestThreadStarter.has_tasks, decide_eq_true_eq]
    rcases Nat.eq_zero_or_pos t.threadStarter.m_tasks.length with h0 | h0
    · exfalso
      apply hsome
      intro f hmem
      rw [List.length_eq_zero.mp h0] at hmem
      cases hmem
    · exact h0
  rw [if_pos hbag]
  by_cases c1 : t.threadStarter.run.1.failed > 0
  · rw [if_pos c1]
    rfl
  · rw [if_neg c1]
    by_cases c2 : t.threadStarter.run.1.incomplete > 0
    · rw [if_pos c2]
      rfl
    · rw [if_neg c2]
      by_cases c3 : t.threadStarter.run.1.skipped > 0
      · rw [if_pos c3]
        rfl
      · exfalso
        apply hsome
        intro f hmem
        rw [hf] at c1
        rw [hi] at c2
        rw [hs] at c3
        have z1 : t.threadStarter.m_tasks.countP StdFunction.fails = 0 := by omega
        have z2 : t.threadStarter.m_tasks.countP StdFunction.incompletes = 0 := by omega
        have z3 : t.threadStarter.m_tasks.countP StdFunction.skips = 0 := by omega
        rw [List.countP_eq_zero] at z1 z2 z3
        apply call_returns_of_clean
        · simpa using z1 f hmem
        · simpa using z3 f hmem
        · simpa using z2 f hmem

/-- The Run stage on a descriptor whose status is no longer Inconclusive does
nothing and invokes nothing. -/
theorem RunTestFn_Run_settled (t : ULightTestInfo) (rs : Bool)
    (h : (!rs && t.stressTest) = false) (hst : t.status ≠ ULightTestStatus.Inconclusive) :
    RunTestFn ULightTestStage.Run t rs = (t, []) := by
  rw [RunTestFn_Run t rs h, if_neg hst]

/-- When the Run stage ends with Passed on a descriptor that came in
Inconclusive, the body returned, or there is no body and the bag is not
empty. -/
theorem RunTestFn_Run_passed (t : ULightTestInfo) (rs : Bool)
    (h : (!rs && t.stressTest) = false) (hst : t.status = ULightTestStatus.Inconclusive)
    (hp : (RunTestFn ULightTestStage.Run t rs).1.status = ULightTestStatus.Passed) :
    t.testFn = some Outcome.returns ∨
      (t.testFn = none ∧ t.threadStarter.has_tasks = true) := by
  rw [RunTestFn_Run t rs h, if_pos hst] at hp
  split at hp
  · rename_i hb
    exact Or.inl hb
  · exfalso
    have := RunTestFn_catch_adverse ‹Raised› t
    rw [hp] at this
    cases this
  · rename_i hb
    by_cases hbag : t.threadStarter.has_tasks = true
    · exact Or.inr ⟨hb, hbag⟩
    · rw [if_neg hbag] at hp
      simp only at hp
      rw [hst] at hp
      cases hp

/-- After Setup and the Task stage of a descriptor that started Inconclusive:
either nothing was raised and no worker failed to return, and the status is
still Inconclusive, or the status is adverse. -/
theorem entry_to_Run_cases (t : ULightTestInfo) (rs : Bool)
    (h : (!rs && t.stressTest) = false) (hinit : t.status = ULightTestStatus.Inconclusive) :
    ((RunTestFn ULightTestStage.Task (RunTestFn ULightTestStage.Setup t rs).1 rs).1.status =
        ULightTestStatus.Inconclusive ∧
      t.testSetup.quiet = true ∧
      ∀ f ∈ t.threadStarter.m_tasks, f.call = Outcome.returns) ∨
    (RunTestFn ULightTestStage.Task
      (RunTestFn ULightTestStage.Setup t rs).1 rs).1.status.adverse = true := by
  obtain ⟨-, -, -, -, f5, -, f7⟩ := RunTestFn_frame ULightTestStage.Setup t rs
  have h1 : (!rs && (RunTestFn ULightTestStage.Setup t rs).1.stressTest) = false := by
    rw [f7]
    exact h
  by_cases hall : ∀ f ∈ t.threadStarter.m_tasks, f.call = Outcome.returns
  · have hall1 : ∀ f ∈ (RunTestFn ULightTestStage.Setup t rs).1.threadStarter.m_tasks,
        f.call = Outcome.returns := by
      rw [f5]
      exact hall
    have hst := (RunTestFn_Task_all_return _ rs h1 hall1).1
    by_cases hq : t.testSetup.quiet = true
    · left
      refine ⟨?_, hq, hall⟩
      rw [hst, RunTestFn_Setup_quiet t rs h hq]
      exact hinit
    · right
      rw [hst]
      exact RunTestFn_Setup_adverse t rs h (by simpa using hq)
  · right
    apply RunTestFn_Task_adverse _ rs h1
    rw [f5]
    exact hall

/-- An adverse status at the entry to the Run stage: the body is not invoked
and the final status is adverse. -/
theorem RunTest_adverse (t : ULightTestInfo) (rs : Bool)
    (h : (!rs && t.stressTest) = false)
    (hadv : (RunTestFn ULightTestStage.Task
      (RunTestFn ULightTestStage.Setup t rs).1 rs).1.status.adverse = true) :
    Invocation.testFn ∉ (RunTest t rs).2 ∧ (RunTest t rs).1.status.adverse = true := by
  have hne : (RunTestFn ULightTestStage.Task
      (RunTestFn ULightTestStage.Setup t rs).1 rs).1.status ≠ ULightTestStatus.Inconclusive := by
    intro he
    rw [he] at hadv
    cases hadv
  constructor
  · rw [RunTest_invoked t rs h]
    simp only [hne, false_and, if_false, List.append_nil, List.mem_append, List.mem_map, not_or]
    refine ⟨⟨?_, ?_⟩, ?_⟩
    · split_ifs <;> simp
    · rintro ⟨i, -, hi⟩
      cases hi
    · split_ifs <;> simp
  · have g1 := RunTestFn_frame ULightTestStage.Setup t rs
    have g2 := RunTestFn_frame ULightTestStage.Task (RunTestFn ULightTestStage.Setup t rs).1 rs
    have h2 : (!rs && (RunTestFn ULightTestStage.Task
        (RunTestFn ULightTestStage.Setup t rs).1 rs).1.stressTest) = false := by
      rw [g2.2.2.2.2.2.2, g1.2.2.2.2.2.2]
      exact h
    have hrun := RunTestFn_Run_settled _ rs h2 hne
    show (RunTestFn ULightTestStage.Teardown (RunTestFn ULightTestStage.Run
      (RunTestFn ULightTestStage.Task (RunTestFn ULightTestStage.Setup t rs).1 rs).1 rs).1
      rs).1.status.adverse = true
    rw [hrun]
    by_cases hq : (RunTestFn ULightTestStage.Task
        (RunTestFn ULightTestStage.Setup t rs).1 rs).1.testTeardown.quiet = true
    · rw [RunTestFn_Teardown_quiet _ rs h2 hq]
      exact hadv
    · exact RunTestFn_Teardown_adverse _ rs h2 (by simpa using hq)

/-! ## The counters of the report -/

theorem wrap32_eq (x : Int) (h1 : -2147483648 ≤ x) (h2 : x < 2147483648) : wrap32 x = x := by
  unfold wrap32
  omega

/-- The loop of the report from any counters that leave room for the
descriptors to come: each counter grows by the number of descriptors of its
kind. -/
theorem foldl_ReportToStream_count (l : List ULightTestInfo) :
    ∀ c : ReportCounts, 0 ≤ c.total → 0 ≤ c.passed → 0 ≤ c.skipped → 0 ≤ c.incomplete →
      0 ≤ c.failed → c.passed ≤ c.total → c.skipped ≤ c.total → c.incomplete ≤ c.total →
      c.failed ≤ c.total → c.total + l.length < 2147483648 →
      (l.foldl ReportToStream_count c).total =
        c.total + l.countP (fun t => !t.ignore) ∧
      (l.foldl ReportToStream_count c).passed =
        c.passed + l.countP (fun t => !t.ignore && t.status = ULightTestStatus.Passed) ∧
      (l.foldl ReportToStream_count c).skipped =
        c.skipped + l.countP (fun t => !t.ignore && t.status = ULightTestStatus.Skipped) ∧
      (l.foldl ReportToStream_count c).incomplete =
        c.incomplete +
          l.countP (fun t => !t.ignore && t.status = ULightTestStatus.Incomplete) ∧
      (l.foldl ReportToStream_count c).failed =
        c.failed + l.countP (fun t => !t.ignore &&
          (t.status = ULightTestStatus.Failed || t.status = ULightTestStatus.Inconclusive)) := by
  induction l with
  | nil =>
    intro c _ _ _ _ _ _ _ _ _ _
    simp
  | cons t ts ih =>
    intro c p1 p2 p3 p4 p5 q2 q3 q4 q5 hroom
    simp only [List.length_cons, Nat.cast_add, Nat.cast_one] at hroom
    have w1 : wrap32 (c.total + 1) = c.total + 1 := wrap32_eq _ (by omega) (by omega)
    have w2 : wrap32 (c.passed + 1) = c.passed + 1 := wrap32_eq _ (by omega) (by omega)
    have w3 : wrap32 (c.skipped + 1) = c.skipped + 1 := wrap32_eq _ (by omega) (by omega)
    have w4 : wrap32 (c.incomplete + 1) = c.incomplete + 1 := wrap32_eq _ (by omega) (by omega)
    have w5 : wrap32 (c.failed + 1) = c.failed + 1 := wrap32_eq _ (by omega) (by omega)
    rw [List.foldl_cons]
    cases hig : t.ignore
    · cases hst : t.status
      all_goals
        obtain ⟨r1, r2, r3, r4, r5⟩ := ih (ReportToStream_count c t)
          (by simp [ReportToStream_count, hig, hst, w1]; omega)
          (by simp [ReportToStream_count, hig, hst, w2]; omega)
          (by simp [ReportToStream_count, hig, hst, w3]; omega)
          (by simp [ReportToStream_count, hig, hst, w4]; omega)
          (by simp [ReportToStream_count, hig, hst, w5]; omega)
          (by simp [ReportToStream_count, hig, hst, w1, w2]; omega)
          (by simp [ReportToStream_count, hig, hst, w1, w3]; omega)
          (by simp [ReportToStream_count, hig, hst, w1, w4]; omega)
          (by simp [ReportToStream_count, hig, hst, w1, w5]; omega)
          (by simp [ReportToStream_count, hig, hst, w1]; omega)
        rw [r1, r2, r3, r4, r5]
        simp [ReportToStream_count, List.countP_cons, hig, hst, w1, w2, w3, w4, w5]
        omega
    · obtain ⟨r1, r2, r3, r4, r5⟩ := ih (ReportToStream_count c t)
        (by simp [ReportToStream_count, hig]; omega)
        (by simp [ReportToStream_count, hig]; omega)
        (by simp [ReportToStream_count, hig]; omega)
        (by simp [ReportToStream_count, hig]; omega)
        (by simp [ReportToStream_count, hig]; omega)
        (by simp [ReportToStream_count, hig]; omega)
        (by simp [ReportToStream_count, hig]; omega)
        (by simp [ReportToStream_count, hig]; omega)
        (by simp [ReportToStream_count, hig]; omega)
        (by simp [ReportToStream_count, hig]; omega)
      rw [r1, r2, r3, r4, r5]
      simp [ReportToStream_count, List.countP_cons, hig]

/-- Every descriptor that is not ignored is of exactly one of the four kinds
the report counts. -/
theorem countP_status_partition (l : List ULightTestInfo) :
    l.countP (fun t => !t.ignore && t.status = ULightTestStatus.Passed) +
      l.countP (fun t => !t.ignore &&
        (t.status = ULightTestStatus.Failed || t.status = ULightTestStatus.Inconclusive)) +
      l.countP (fun t => !t.ignore && t.status = ULightTestStatus.Skipped) +
      l.countP (fun t => !t.ignore && t.status = ULightTestStatus.Incomplete) =
    l.countP (fun t => !t.ignore) := by
  induction l with
  | nil => rfl
  | cons t ts ih =>
    simp only [List.countP_cons]
    cases hig : t.ignore
    · cases hst : t.status <;> simp <;> omega
    · simp
      omega

/-! ## The file name of an assertion failure -/

theorem find_last_of_none (s : List Char) (c : Char) : find_last_of s c = none ↔ c ∉ s := by
  induction s with
  | nil => simp [find_last_of]
  | cons x xs ih =>
    rw [find_last_of]
    cases hr : find_last_of xs c with
    | some pos =>
      have : ¬ c ∉ xs := fun hn => by
        rw [ih.mpr hn] at hr
        cases hr
      simp only [List.mem_cons, not_or]
      constructor
      · intro h
        cases h
      · intro h
        exact absurd h.2 this
    | none =>
      have hn := ih.mp hr
      by_cases hx : x = c
      · simp [hx]
      · have hx2 : ¬ c = x := fun e => hx e.symm
        simp [hx, hx2, hn]

/-- The position `find_last_of` finds splits the string at the last
occurrence of the character. -/
theorem find_last_of_some (s : List Char) (c : Char) (pos : Nat)
    (h : find_last_of s c = some pos) :
    pos < s.length ∧ s = s.take pos ++ c :: s.drop (pos + 1) ∧ c ∉ s.drop (pos + 1) := by
  induction s generalizing pos with
  | nil => simp [find_last_of] at h
  | cons x xs ih =>
    rw [find_last_of] at h
    cases hr : find_last_of xs c with
    | some p =>
      rw [hr] at h
      simp only [Option.some.injEq] at h
      subst h
      obtain ⟨a, b, d⟩ := ih p hr
      refine ⟨by simp only [List.length_cons]; omega, ?_, ?_⟩
      · simp only [List.take_succ_cons, List.drop_succ_cons, List.cons_append]
        rw [← b]
      · simpa using d
    | none =>
      rw [hr] at h
      by_cases hx : x = c
      · simp only [hx, if_true, Option.some.injEq] at h
        subst h
        subst hx
        refine ⟨by simp, by simp, ?_⟩
        simpa using (find_last_of_none xs x).mp hr
      · simp [hx] at h

/-- When the string is `dir`, the character, and a rest without the
character, `find_last_of` finds the position after `dir`. -/
theorem find_last_of_append (dir rest : List Char) (c : Char) (h : c ∉ rest) :
    find_last_of (dir ++ c :: rest) c = some dir.length := by
  induction dir with
  | nil =>
    simp only [List.nil_append, List.length_nil]
    rw [find_last_of, (find_last_of_none rest c).mpr h]
    simp
  | cons x xs ih =>
    simp only [List.cons_append, List.length_cons]
    rw [find_last_of, ih]

/-- A string that ends with the character and, split elsewhere, has the
character followed by a non-empty rest: the rest holds the character. -/
theorem mem_of_ends_with (pre base dir : List Char) (c : Char) (hb : base ≠ [])
    (h : pre ++ c :: base = dir ++ [c]) : c ∈ base := by
  have hr := congrArg List.reverse h
  simp only [List.reverse_append, List.reverse_cons, List.reverse_nil, List.nil_append,
    List.singleton_append, List.append_assoc] at hr
  cases hrev : base.reverse with
  | nil =>
    exact absurd (List.reverse_eq_nil_iff.mp hrev) hb
  | cons y ys =>
    rw [hrev] at hr
    simp only [List.cons_append, List.cons.injEq] at hr
    have : y ∈ base.reverse := by
      rw [hrev]
      exact List.mem_cons_self y ys
    rw [← hr.1]
    exact List.mem_reverse.mp this

/-- No `/` in the path: `FixFileName` returns the path. -/
theorem FixFileName_plain (filename : String) (h : '/' ∉ filename.data) :
    FixFileName filename = filename := by
  unfold FixFileName
  split
  · rfl
  · rw [(find_last_of_none _ _).mpr h]

/-- The path is `dir`, a `/`, and a non-empty `base` without `/`:
`FixFileName` returns `base`. -/
theorem FixFileName_split (filename : String) (dir base : List Char)
    (h : filename.data = dir ++ '/' :: base) (hb : '/' ∉ base) (hne : base ≠ []) :
    FixFileName filename = String.mk base := by
  obtain ⟨data⟩ := filename
  simp only at h
  subst h
  have hlen : base.length ≠ 0 := fun h0 => hne (List.length_eq_zero.mp h0)
  unfold FixFileName
  simp only [String.length, List.length_append, List.length_cons]
  rw [if_neg (by omega), find_last_of_append dir base '/' hb]
  simp only
  rw [if_neg (by omega)]
  simp

/-- The path ends with `/`: `FixFileName` returns the path. -/
theorem FixFileName_trailing (filename : String) (dir : List Char)
    (h : filename.data = dir ++ ['/']) : FixFileName filename = filename := by
  obtain ⟨data⟩ := filename
  simp only at h
  subst h
  unfold FixFileName
  simp only [String.length, List.length_append, List.length_cons, List.length_nil]
  rw [if_neg (by omega), find_last_of_append dir [] '/' (by simp)]
  simp

/-! ## The divisions of the timer -/

/-- The traced destructor does to the harness what the destructor does. -/
theorem destructor_traced_fst (t : ULightTestTimer) (h : ULightTests) (mach : Bool)
    (clock : Clock) (tm : timespec) (rate : Int → Int → Int) :
    (t.destructor_traced h mach clock tm rate).1 = t.destructor h mach clock tm rate := by
  unfold ULightTestTimer.destructor_traced ULightTestTimer.destructor
  split
  · split
    · rfl
    · split
      · rfl
      · simp only
        split <;> rfl
  · rfl

/-- The traced destructor divides exactly when it is bound, a test is current
and the items-count is positive, and then once, by the value of `Poll`. -/
theorem destructor_traced_snd (t : ULightTestTimer) (h : ULightTests) (mach : Bool)
    (clock : Clock) (tm : timespec) (rate : Int → Int → Int) (i : Nat)
    (testInfo : ULightTestInfo) (hbound : t.m_unitTests = true)
    (hcur : h.GetCurrentTestInfo = some i) (hi : h.m_tests[i]? = some testInfo) :
    (t.destructor_traced h mach clock tm rate).2 =
      if t.m_loopCount > 0 then [(t.Poll mach clock tm).1] else [] := by
  unfold ULightTestTimer.destructor_traced
  simp only [hbound, hcur, hi, if_true]
  split <;> rfl

/-- Values of `sample_rate`: each operation rounds, so 99 items in 3
microseconds give 32999999, not 33000000. -/
theorem sample_rate_values :
    sample_rate 3 99 = 32999999 ∧ sample_rate 1 1 = 1000000 ∧ sample_rate 2000500 5 = 2 ∧
    sample_rate 7 3 = 428571 ∧ sample_rate (-3) 99 = -32999999 ∧
    sample_rate 0 5 = -9223372036854775808 := by
  decide

/-! ## The claims -/

/-- C1 (the code departs from the claim).  A bag made of `N` copies of a worker
that always fails an assertion and `M` copies of a worker that always returns
normally: `run` reports `failed = N`, `skipped = 0` and `incomplete = 0`, but
`passed = 0` whatever `M` is, because `thread_proc` records nothing when the
worker returns normally (`set_passed` is never called).  So `passed = M` holds
only for `M = 0`. -/
theorem run_copies_counters (N M : Nat) (ex : UnitTestException) :
    (bag_of_copies (some (Outcome.throws (Raised.UnitTestException ex)))
      (some Outcome.returns) N M).run.1.failed = N ∧
    (bag_of_copies (some (Outcome.throws (Raised.UnitTestException ex)))
      (some Outcome.returns) N M).run.1.passed = 0 ∧
    (bag_of_copies (some (Outcome.throws (Raised.UnitTestException ex)))
      (some Outcome.returns) N M).run.1.skipped = 0 ∧
    (bag_of_copies (some (Outcome.throws (Raised.UnitTestException ex)))
      (some Outcome.returns) N M).run.1.incomplete = 0 ∧
    ((bag_of_copies (some (Outcome.throws (Raised.UnitTestException ex)))
      (some Outcome.returns) N M).run.1.passed = M ↔ M = 0) := by
  obtain ⟨h1, h2, h3, h4⟩ := run_counters
    (bag_of_copies (some (Outcome.throws (Raised.UnitTestException ex)))
      (some Outcome.returns) N M)
  rw [h1, h2, h3, h4]
  simp only [bag_of_copies, ULightTestThreadStarter.new, add_m_tasks, List.nil_append,
    List.countP_append, List.countP_replicate]
  simp [StdFunction.fails, StdFunction.failure, StdFunction.skips, StdFunction.incompletes,
    StdFunction.call, eq_comm]

/-- C2.  For a descriptor with a non-empty task bag that is not stress-skipped,
the Task stage of `RunTestFn` sets the status from the summary of `run` by
priority: `failed > 0` gives Failed, otherwise `incomplete > 0` gives
Incomplete, otherwise `skipped > 0` gives Skipped, otherwise the status stays
what it was on entry.  When the descriptor started Inconclusive and its setup
raised nothing, the status on entry is Inconclusive, so that is what stays. -/
theorem RunTestFn_Task_priority (t : ULightTestInfo) (rs : Bool)
    (hreach : (!rs && t.stressTest) = false)
    (htasks : t.threadStarter.has_tasks = true) :
    ((RunTestFn ULightTestStage.Task t rs).1.status =
      if t.threadStarter.run.1.failed > 0 then ULightTestStatus.Failed
      else if t.threadStarter.run.1.incomplete > 0 then ULightTestStatus.Incomplete
      else if t.threadStarter.run.1.skipped > 0 then ULightTestStatus.Skipped
      else t.status) ∧
    (t.status = ULightTestStatus.Inconclusive → t.testSetup.quiet = true →
      (RunTestFn ULightTestStage.Task (RunTestFn ULightTestStage.Setup t rs).1 rs).1.status =
        if t.threadStarter.run.1.failed > 0 then ULightTestStatus.Failed
        else if t.threadStarter.run.1.incomplete > 0 then ULightTestStatus.Incomplete
        else if t.threadStarter.run.1.skipped > 0 then ULightTestStatus.Skipped
        else ULightTestStatus.Inconclusive) := by
  have key := RunTestFn_Task_status_eq t rs hreach
  simp only [htasks, if_true] at key
  refine ⟨key, ?_⟩
  intro hst hq
  rw [RunTestFn_Setup_quiet t rs hreach hq, key, hst]

/-- Witness for C2: a bag with a skipping, an incomplete and a passing
worker. -/
theorem RunTestFn_Task_priority_witness :
    (!false && mixed_bag_descriptor.stressTest) = false ∧
    mixed_bag_descriptor.threadStarter.has_tasks = true ∧
    (((RunTestFn ULightTestStage.Task mixed_bag_descriptor false).1.status =
        if mixed_bag_descriptor.threadStarter.run.1.failed > 0 then ULightTestStatus.Failed
        else if mixed_bag_descriptor.threadStarter.run.1.incomplete > 0 then
          ULightTestStatus.Incomplete
        else if mixed_bag_descriptor.threadStarter.run.1.skipped > 0 then
          ULightTestStatus.Skipped
        else mixed_bag_descriptor.status) ∧
      (mixed_bag_descriptor.status = ULightTestStatus.Inconclusive →
        mixed_bag_descriptor.testSetup.quiet = true →
        (RunTestFn ULightTestStage.Task
          (RunTestFn ULightTestStage.Setup mixed_bag_descriptor false).1 false).1.status =
          if mixed_bag_descriptor.threadStarter.run.1.failed > 0 then ULightTestStatus.Failed
          else if mixed_bag_descriptor.threadStarter.run.1.incomplete > 0 then
            ULightTestStatus.Incomplete
          else if mixed_bag_descriptor.threadStarter.run.1.skipped > 0 then
            ULightTestStatus.Skipped
          else ULightTestStatus.Inconclusive)) ∧
    (RunTestFn ULightTestStage.Task mixed_bag_descriptor false).1.status =
      ULightTestStatus.Incomplete :=
  ⟨by decide, by decide,
    RunTestFn_Task_priority mixed_bag_descriptor false (by decide) (by decide), by decide⟩

/-- C3 as stated fails at the Task stage.  The only task of the descriptor
fails an assertion with message `expected 1`, file `tests.cpp`, line 42; after
the Task stage the status is Failed, but the error is the text built from the
error tally, and filename and line number are still empty and zero. -/
theorem Task_stage_records_no_location :
    failing_task_descriptor.threadStarter.m_tasks =
      [some (Outcome.throws (Raised.UnitTestException
        { error := "expected 1", filename := "tests.cpp", lineNumber := 42 }))] ∧
    (RunTestFn ULightTestStage.Task failing_task_descriptor false).1.status =
      ULightTestStatus.Failed ∧
    (RunTestFn ULightTestStage.Task failing_task_descriptor false).1.error =
      "Error occurred in 1 threads: expected 1" ∧
    (RunTestFn ULightTestStage.Task failing_task_descriptor false).1.filename = "" ∧
    (RunTestFn ULightTestStage.Task failing_task_descriptor false).1.lineNumber = 0 ∧
    ¬ ((RunTestFn ULightTestStage.Task failing_task_descriptor false).1.error = "expected 1" ∧
      (RunTestFn ULightTestStage.Task failing_task_descriptor false).1.filename = "tests.cpp" ∧
      (RunTestFn ULightTestStage.Task failing_task_descriptor false).1.lineNumber = 42) := by
  decide

/-- C3, amended.  At the Setup, Run and Teardown stages, when `RunTestFn` invokes
the action of the stage and the action raises, the descriptor is updated by
one and the same mapping: an assertion failure sets Failed with its message,
file and line; a skip signal sets Skipped; an incomplete signal sets
Incomplete; anything else sets Failed with `Unexpected exception`, an empty
file name and line 0.  At the Task stage what the workers raise is caught by
the task runner and never reaches this mapping: the stage leaves file name and
line number as they were. -/
theorem RunTestFn_raise_mapping (stage : ULightTestStage) (t : ULightTestInfo) (rs : Bool)
    (hreach : (!rs && t.stressTest) = false) :
    (∀ e : Raised, t.stageFn stage = some (Outcome.throws e) →
      (stage = ULightTestStage.Run → t.status = ULightTestStatus.Inconclusive) →
        match e with
        | Raised.UnitTestException ex =>
          (RunTestFn stage t rs).1.status = ULightTestStatus.Failed ∧
          (RunTestFn stage t rs).1.error = ex.error ∧
          (RunTestFn stage t rs).1.filename = ex.filename ∧
          (RunTestFn stage t rs).1.lineNumber = ex.lineNumber
        | Raised.UnitTestSkipException =>
          (RunTestFn stage t rs).1.status = ULightTestStatus.Skipped
        | Raised.UnitTestIncompleteException =>
          (RunTestFn stage t rs).1.status = ULightTestStatus.Incomplete
        | Raised.other =>
          (RunTestFn stage t rs).1.status = ULightTestStatus.Failed ∧
          (RunTestFn stage t rs).1.error = "Unexpected exception" ∧
          (RunTestFn stage t rs).1.filename = "" ∧
          (RunTestFn stage t rs).1.lineNumber = 0) ∧
    (stage = ULightTestStage.Task →
      (RunTestFn stage t rs).1.filename = t.filename ∧
      (RunTestFn stage t rs).1.lineNumber = t.lineNumber) := by
  constructor
  · intro e hfn hrun
    have hres : (RunTestFn stage t rs).1 = RunTestFn_catch e t := by
      cases stage
      · rw [RunTestFn_Setup t rs hreach]
        have : t.testSetup = some (Outcome.throws e) := hfn
        rw [this]
      · rw [RunTestFn_Run t rs hreach]
        have : t.testFn = some (Outcome.throws e) := hfn
        rw [this, if_pos (hrun rfl)]
      · rw [RunTestFn_Teardown t rs hreach]
        have : t.testTeardown = some (Outcome.throws e) := hfn
        rw [this]
      · simp [ULightTestInfo.stageFn] at hfn
    rw [hres]
    cases e <;> simp [RunTestFn_catch]
  · intro hstage
    subst hstage
    rw [RunTestFn_Task t rs hreach]
    split_ifs
    · obtain ⟨-, -, -, -, -, h6, h7, -, -⟩ := RunTestFn_task_frame t
      exact ⟨h6, h7⟩
    · exact ⟨rfl, rfl⟩

/-- Witness for C3 amended: a setup that fails an assertion, and a Task stage
with a failing worker. -/
theorem RunTestFn_raise_mapping_witness :
    (!false && failing_setup_descriptor.stressTest) = false ∧
    failing_setup_descriptor.stageFn ULightTestStage.Setup =
      some (Outcome.throws (Raised.UnitTestException sample_exception)) ∧
    ((RunTestFn ULightTestStage.Setup failing_setup_descriptor false).1.status =
        ULightTestStatus.Failed ∧
      (RunTestFn ULightTestStage.Setup failing_setup_descriptor false).1.error =
        sample_exception.error ∧
      (RunTestFn ULightTestStage.Setup failing_setup_descriptor false).1.filename =
        sample_exception.filename ∧
      (RunTestFn ULightTestStage.Setup failing_setup_descriptor false).1.lineNumber =
        sample_exception.lineNumber) ∧
    ((RunTestFn ULightTestStage.Task failing_task_descriptor false).1.filename =
        failing_task_descriptor.filename ∧
      (RunTestFn ULightTestStage.Task failing_task_descriptor false).1.lineNumber =
        failing_task_descriptor.lineNumber) :=
  ⟨by decide, by decide,
    (RunTestFn_raise_mapping ULightTestStage.Setup failing_setup_descriptor false
      (by decide)).1 (Raised.UnitTestException sample_exception) (by decide)
      (by intro h; cases h),
    (RunTestFn_raise_mapping ULightTestStage.Task failing_task_descriptor false
      (by decide)).2 rfl⟩

/-- C4.  A descriptor that is executed (not stress-skipped), starts in the state
its constructor gives it (Inconclusive), has a body, and whose setup, workers
and teardown raise nothing: when the body returns normally the status after
`RunTest` is Passed; when the body fails an assertion the status is Failed and
error and line number are those of the assertion. -/
theorem RunTest_body_verdict (t : ULightTestInfo) (rs : Bool) (body : Outcome)
    (hexec : (!rs && t.stressTest) = false)
    (hinit : t.status = ULightTestStatus.Inconclusive)
    (hbody : t.testFn = some body)
    (hsetup : t.testSetup.quiet = true)
    (htasks : ∀ f ∈ t.threadStarter.m_tasks, f.call = Outcome.returns)
    (hteardown : t.testTeardown.quiet = true) :
    (body = Outcome.returns → (RunTest t rs).1.status = ULightTestStatus.Passed) ∧
    (∀ ex : UnitTestException, body = Outcome.throws (Raised.UnitTestException ex) →
      (RunTest t rs).1.status = ULightTestStatus.Failed ∧
      (RunTest t rs).1.error = ex.error ∧
      (RunTest t rs).1.lineNumber = ex.lineNumber) := by
  obtain ⟨e1, e2, e3, -, e5⟩ := entry_to_Run_quiet t rs hexec hsetup htasks
  obtain ⟨c3, c7⟩ := before_Teardown_frame t rs
  have hfin : (RunTest t rs).1 =
      (RunTestFn ULightTestStage.Run
        (RunTestFn ULightTestStage.Task (RunTestFn ULightTestStage.Setup t rs).1 rs).1 rs).1 := by
    show (RunTestFn ULightTestStage.Teardown _ rs).1 = _
    exact RunTestFn_Teardown_quiet _ rs (by rw [c7]; exact hexec) (by rw [c3]; exact hteardown)
  rw [hfin, RunTestFn_Run _ rs e5, e1, hinit, e2, hbody]
  constructor
  · intro hb
    subst hb
    rfl
  · intro ex hb
    subst hb
    exact ⟨rfl, rfl, rfl⟩

/-- Witness for C4: once with a body that fails an assertion, once with a body
that returns. -/
theorem RunTest_body_verdict_witness :
    ((!false && failing_body_descriptor.stressTest) = false ∧
      failing_body_descriptor.status = ULightTestStatus.Inconclusive ∧
      failing_body_descriptor.testFn =
        some (Outcome.throws (Raised.UnitTestException sample_exception)) ∧
      failing_body_descriptor.testSetup.quiet = true ∧
      (∀ f ∈ failing_body_descriptor.threadStarter.m_tasks, f.call = Outcome.returns) ∧
      failing_body_descriptor.testTeardown.quiet = true) ∧
    ((RunTest failing_body_descriptor false).1.status = ULightTestStatus.Failed ∧
      (RunTest failing_body_descriptor false).1.error = "expected 1" ∧
      (RunTest failing_body_descriptor false).1.lineNumber = 42) ∧
    (RunTest passing_descriptor false).1.status = ULightTestStatus.Passed :=
  ⟨⟨by decide, by decide, by decide, by decide, by decide, by decide⟩,
    (RunTest_body_verdict failing_body_descriptor false
      (Outcome.throws (Raised.UnitTestException sample_exception))
      (by decide) (by decide) (by decide) (by decide) (by decide) (by decide)).2
      sample_exception rfl,
    (RunTest_body_verdict passing_descriptor false Outcome.returns
      (by decide) (by decide) (by decide) (by decide) (by decide) (by decide)).1 rfl⟩

/-- C5.  For a descriptor flagged as a stress test, `RunTest` with stress mode
disabled ends with status Skipped and invokes no action at all: neither the
setup, nor a task, nor the body, nor the teardown. -/
theorem RunTest_stress_skipped (t : ULightTestInfo) (h : t.stressTest = true) :
    (RunTest t false).1.status = ULightTestStatus.Skipped ∧ (RunTest t false).2 = [] := by
  rw [RunTest_stress t false (by simp [h])]
  exact ⟨rfl, rfl⟩

/-- Witness for C5: a stress test with setup, teardown, body and a task. -/
theorem RunTest_stress_skipped_witness :
    stress_descriptor.stressTest = true ∧
    (RunTest stress_descriptor false).1.status = ULightTestStatus.Skipped ∧
    (RunTest stress_descriptor false).2 = [] :=
  ⟨by decide, RunTest_stress_skipped stress_descriptor (by decide)⟩

/-- C6.  For a descriptor that is executed (not stress-skipped) and has a
teardown action, `RunTest` invokes the teardown exactly once, whatever the
earlier stages did. -/
theorem RunTest_teardown_once (t : ULightTestInfo) (rs : Bool)
    (hexec : (!rs && t.stressTest) = false) (htd : t.testTeardown.toBool = true) :
    (RunTest t rs).2.count Invocation.testTeardown = 1 := by
  rw [RunTest_invoked t rs hexec]
  simp only [htd, if_true, List.count_append]
  have h1 : List.count Invocation.testTeardown
      (if t.testSetup.toBool = true then [Invocation.testSetup] else []) = 0 := by
    split_ifs <;> simp
  have h2 : List.count Invocation.testTeardown
      ((List.range t.threadStarter.m_tasks.length).map Invocation.task) = 0 := by
    rw [List.count_eq_zero]
    simp
  have h3 : List.count Invocation.testTeardown
      (if (RunTestFn ULightTestStage.Task
              (RunTestFn ULightTestStage.Setup t rs).1 rs).1.status =
            ULightTestStatus.Inconclusive ∧ t.testFn.toBool = true then
          [Invocation.testFn]
        else []) = 0 := by
    split_ifs <;> simp
  rw [h1, h2, h3]
  simp

/-- Witness for C6: the setup fails and a worker fails, the teardown still runs
once. -/
theorem RunTest_teardown_once_witness :
    (!false && troubled_descriptor.stressTest) = false ∧
    troubled_descriptor.testTeardown.toBool = true ∧
    (RunTest troubled_descriptor false).2.count Invocation.testTeardown = 1 :=
  ⟨by decide, by decide, RunTest_teardown_once troubled_descriptor false (by decide) (by decide)⟩

/-- C7.  For a descriptor that is executed (not stress-skipped) and whose
teardown raises, the status after `RunTest` is the one the raised condition
maps to (assertion failure and unexpected condition to Failed, skip signal to
Skipped, incomplete signal to Incomplete), whatever the earlier stages set. -/
theorem RunTest_teardown_raises (t : ULightTestInfo) (rs : Bool)
    (hexec : (!rs && t.stressTest) = false) :
    ∀ e : Raised, t.testTeardown = some (Outcome.throws e) →
      (RunTest t rs).1.status =
        match e with
        | Raised.UnitTestException _ => ULightTestStatus.Failed
        | Raised.UnitTestSkipException => ULightTestStatus.Skipped
        | Raised.UnitTestIncompleteException => ULightTestStatus.Incomplete
        | Raised.other => ULightTestStatus.Failed := by
  intro e htd
  obtain ⟨c3, c7⟩ := before_Teardown_frame t rs
  show (RunTestFn ULightTestStage.Teardown _ rs).1.status = _
  rw [RunTestFn_Teardown _ rs (by rw [c7]; exact hexec), c3, htd]
  exact RunTestFn_catch_status e _

/-- Witness for C7: the body fails, so the Run stage sets Failed, and the
teardown raises the skip signal, so the final status is Skipped. -/
theorem RunTest_teardown_raises_witness :
    (!false && skipping_teardown_descriptor.stressTest) = false ∧
    skipping_teardown_descriptor.testTeardown =
      some (Outcome.throws Raised.UnitTestSkipException) ∧
    (RunTestFn ULightTestStage.Run
      (RunTestFn ULightTestStage.Task
        (RunTestFn ULightTestStage.Setup skipping_teardown_descriptor false).1 false).1
      false).1.status = ULightTestStatus.Failed ∧
    (RunTest skipping_teardown_descriptor false).1.status = ULightTestStatus.Skipped :=
  ⟨by decide, by decide, by decide,
    RunTest_teardown_raises skipping_teardown_descriptor false (by decide)
      Raised.UnitTestSkipException (by decide)⟩

/-- C8 as stated fails.  The descriptor is executed, has no body and a
non-empty bag in which no worker failed, its only worker raising the skip
signal; the Task stage sets Skipped and the Run stage leaves it, so the status
is not Passed. -/
theorem Run_stage_keeps_Skipped :
    (!false && skipping_task_descriptor.stressTest) = false ∧
    skipping_task_descriptor.testFn = none ∧
    skipping_task_descriptor.threadStarter.has_tasks = true ∧
    (∀ f ∈ skipping_task_descriptor.threadStarter.m_tasks, f.fails = false) ∧
    skipping_task_descriptor.threadStarter.run.1.failed = 0 ∧
    (RunTestFn ULightTestStage.Run
      (RunTestFn ULightTestStage.Task
        (RunTestFn ULightTestStage.Setup skipping_task_descriptor false).1 false).1
      false).1.status = ULightTestStatus.Skipped ∧
    (RunTestFn ULightTestStage.Run
      (RunTestFn ULightTestStage.Task
        (RunTestFn ULightTestStage.Setup skipping_task_descriptor false).1 false).1
      false).1.status ≠ ULightTestStatus.Passed ∧
    (RunTest skipping_task_descriptor false).1.status = ULightTestStatus.Skipped := by
  decide

/-- C8, amended.  For an executed descriptor that starts Inconclusive, has no
body and a non-empty task bag, whose setup raised nothing and in whose bag
every worker returned normally (none failed, skipped or reported incomplete),
the Run stage sets the status to Passed. -/
theorem Run_stage_tasks_only_passed (t : ULightTestInfo) (rs : Bool)
    (hexec : (!rs && t.stressTest) = false)
    (hinit : t.status = ULightTestStatus.Inconclusive)
    (hbody : t.testFn = none)
    (hbag : t.threadStarter.has_tasks = true)
    (hsetup : t.testSetup.quiet = true)
    (hworkers : ∀ f ∈ t.threadStarter.m_tasks, f.call = Outcome.returns) :
    (RunTestFn ULightTestStage.Run
      (RunTestFn ULightTestStage.Task (RunTestFn ULightTestStage.Setup t rs).1 rs).1 rs).1.status =
      ULightTestStatus.Passed := by
  obtain ⟨e1, e2, -, e4, e5⟩ := entry_to_Run_quiet t rs hexec hsetup hworkers
  rw [RunTestFn_Run _ rs e5, e1, hinit, e2, hbody, e4, hbag]
  rfl

/-- Witness for C8 amended: two passing workers and no body. -/
theorem Run_stage_tasks_only_passed_witness :
    ((!false && tasks_only_descriptor.stressTest) = false ∧
      tasks_only_descriptor.status = ULightTestStatus.Inconclusive ∧
      tasks_only_descriptor.testFn = none ∧
      tasks_only_descriptor.threadStarter.has_tasks = true ∧
      tasks_only_descriptor.testSetup.quiet = true ∧
      (∀ f ∈ tasks_only_descriptor.threadStarter.m_tasks, f.call = Outcome.returns)) ∧
    (RunTestFn ULightTestStage.Run
      (RunTestFn ULightTestStage.Task
        (RunTestFn ULightTestStage.Setup tasks_only_descriptor false).1 false).1
      false).1.status = ULightTestStatus.Passed :=
  ⟨⟨by decide, by decide, by decide, by decide, by decide, by decide⟩,
    Run_stage_tasks_only_passed tasks_only_descriptor false
      (by decide) (by decide) (by decide) (by decide) (by decide) (by decide)⟩

/-- C10.  After `Execute`, for the descriptor at any position of the registry,
taken as registration left it (Inconclusive, not ignored): with a non-empty
list of selected names, a descriptor whose name is not selected has `ignore`
set, is still Inconclusive, and no action of it was invoked; a descriptor
whose name is selected is not ignored, ends in the state `RunTest` gives it,
and exactly the actions `RunTest` invokes were invoked; with an empty list
every descriptor is run and none is ignored. -/
theorem Execute_selection (h : ULightTests) (elapsed : Int) (i : Nat) (t : ULightTestInfo)
    (hi : h.m_tests[i]? = some t)
    (hstatus : t.status = ULightTestStatus.Inconclusive)
    (hignore : t.ignore = false) :
    (h.Execute elapsed).1.m_tests.length = h.m_tests.length ∧
    ∃ t', (h.Execute elapsed).1.m_tests[i]? = some t' ∧
      (h.m_namedTests ≠ [] → t.testName ∉ h.m_namedTests →
        t'.ignore = true ∧ t'.status = ULightTestStatus.Inconclusive ∧
        ∀ c : Invocation, (i, c) ∉ (h.Execute elapsed).2) ∧
      (h.m_namedTests ≠ [] → t.testName ∈ h.m_namedTests →
        t'.ignore = false ∧ t' = (RunTest t h.m_runStressTests).1 ∧
        ((h.Execute elapsed).2.filter (fun p => p.1 = i)).map Prod.snd =
          (RunTest t h.m_runStressTests).2) ∧
      (h.m_namedTests = [] →
        t'.ignore = false ∧ t' = (RunTest t h.m_runStressTests).1 ∧
        ((h.Execute elapsed).2.filter (fun p => p.1 = i)).map Prod.snd =
          (RunTest t h.m_runStressTests).2) := by
  obtain ⟨e1, e2⟩ := Execute_at h elapsed i t hi
  refine ⟨by simp [ULightTests.Execute, Execute_loop_tests], _, e1, ?_, ?_, ?_⟩
  · intro hne hnot
    have hlen : decide (h.m_namedTests.length > 0) = true := by
      simpa using List.length_pos.mpr hne
    have hb : Execute_body h.m_namedTests h.m_runStressTests
        (decide (h.m_namedTests.length > 0)) t = ({ t with ignore := true }, []) := by
      simp [Execute_body, hlen, hnot]
    rw [hb] at e2 ⊢
    refine ⟨rfl, hstatus, ?_⟩
    intro c hc
    have : c ∈ ((h.Execute elapsed).2.filter (fun p => p.1 = i)).map Prod.snd := by
      rw [List.mem_map]
      exact ⟨(i, c), by simp [hc], rfl⟩
    rw [e2] at this
    simp at this
  · intro hne hsel
    have hlen : decide (h.m_namedTests.length > 0) = true := by
      simpa using List.length_pos.mpr hne
    have hb : Execute_body h.m_namedTests h.m_runStressTests
        (decide (h.m_namedTests.length > 0)) t = RunTest t h.m_runStressTests := by
      simp [Execute_body, hlen, hsel]
    rw [hb] at e2 ⊢
    exact ⟨by rw [RunTest_ignore]; exact hignore, rfl, e2⟩
  · intro hnil
    have hb : Execute_body h.m_namedTests h.m_runStressTests
        (decide (h.m_namedTests.length > 0)) t = RunTest t h.m_runStressTests := by
      simp [Execute_body, hnil]
    rw [hb] at e2 ⊢
    exact ⟨by rw [RunTest_ignore]; exact hignore, rfl, e2⟩

/-- Witness for C10: two registered tests of which only the second is
selected; the first one is ignored. -/
theorem Execute_selection_witness :
    (two_tests_b_selected.m_tests[0]? = some test_a ∧
      test_a.status = ULightTestStatus.Inconclusive ∧
      test_a.ignore = false ∧
      two_tests_b_selected.m_namedTests ≠ [] ∧
      test_a.testName ∉ two_tests_b_selected.m_namedTests) ∧
    (two_tests_b_selected.Execute 0).1.m_tests.length = two_tests_b_selected.m_tests.length ∧
    (∃ t', (two_tests_b_selected.Execute 0).1.m_tests[0]? = some t' ∧
      t'.ignore = true ∧ t'.status = ULightTestStatus.Inconclusive ∧
      ∀ c : Invocation, (0, c) ∉ (two_tests_b_selected.Execute 0).2) :=
  ⟨⟨by decide, by decide, by decide, by decide, by decide⟩,
    (Execute_selection two_tests_b_selected 0 0 test_a (by decide) (by decide)
      (by decide)).1,
    (Execute_selection two_tests_b_selected 0 0 test_a (by decide) (by decide)
      (by decide)).2.elim
      (fun t' ht' => ⟨t', ht'.1, ht'.2.1 (by decide) (by decide)⟩)⟩

/-- C11.  The pass handles the descriptors in the order of the registry, and
what it does to one descriptor depends on that descriptor and the
configuration only: two registries with the same selected names and stress
mode that hold the same descriptor at a position, whatever their other
descriptors are and do, end with the same descriptor at that position (status,
error, file and line included) and invoke the same actions of it.  Every
descriptor that is not ignored has its stages run. -/
theorem Execute_noninterference (h1 h2 : ULightTests) (e1 e2 : Int) (i : Nat)
    (t : ULightTestInfo)
    (hnamed : h1.m_namedTests = h2.m_namedTests)
    (hstress : h1.m_runStressTests = h2.m_runStressTests)
    (hi1 : h1.m_tests[i]? = some t) (hi2 : h2.m_tests[i]? = some t) :
    (h1.Execute e1).1.m_tests[i]? = (h2.Execute e2).1.m_tests[i]? ∧
    ((h1.Execute e1).2.filter (fun p => p.1 = i)).map Prod.snd =
      ((h2.Execute e2).2.filter (fun p => p.1 = i)).map Prod.snd ∧
    List.Pairwise (fun p q : Nat × Invocation => p.1 ≤ q.1) (h1.Execute e1).2 ∧
    (∀ (j : Nat) (u : ULightTestInfo), h1.m_tests[j]? = some u →
      (h1.m_namedTests = [] ∨ u.testName ∈ h1.m_namedTests) →
      (h1.Execute e1).1.m_tests[j]? = some (RunTest u h1.m_runStressTests).1 ∧
      ((h1.Execute e1).2.filter (fun p => p.1 = j)).map Prod.snd =
        (RunTest u h1.m_runStressTests).2) := by
  obtain ⟨a1, a2⟩ := Execute_at h1 e1 i t hi1
  obtain ⟨b1, b2⟩ := Execute_at h2 e2 i t hi2
  refine ⟨by rw [a1, b1, hnamed, hstress], by rw [a2, b2, hnamed, hstress],
    Execute_loop_ascending _ _ _ 0 _, ?_⟩
  intro j u hj hsel
  obtain ⟨c1, c2⟩ := Execute_at h1 e1 j u hj
  have hb : Execute_body h1.m_namedTests h1.m_runStressTests
      (decide (h1.m_namedTests.length > 0)) u = RunTest u h1.m_runStressTests := by
    rcases hsel with hnil | hmem
    · simp [Execute_body, hnil]
    · simp [Execute_body, hmem]
  rw [hb] at c1 c2
  exact ⟨c1, c2⟩

/-- Witness for C11: the second test of `two_tests`, next to a first test that
fails and next to one whose setup skips, whose worker fails and whose body
raises an unexpected condition. -/
theorem Execute_noninterference_witness :
    (two_tests.m_namedTests = two_tests_a_crashing.m_namedTests ∧
      two_tests.m_runStressTests = two_tests_a_crashing.m_runStressTests ∧
      two_tests.m_tests[1]? = some test_b ∧ two_tests_a_crashing.m_tests[1]? = some test_b ∧
      two_tests.m_tests[0]? ≠ two_tests_a_crashing.m_tests[0]?) ∧
    ((two_tests.Execute 0).1.m_tests[1]? = (two_tests_a_crashing.Execute 0).1.m_tests[1]? ∧
      ((two_tests.Execute 0).2.filter (fun p => p.1 = 1)).map Prod.snd =
        ((two_tests_a_crashing.Execute 0).2.filter (fun p => p.1 = 1)).map Prod.snd ∧
      List.Pairwise (fun p q : Nat × Invocation => p.1 ≤ q.1) (two_tests.Execute 0).2 ∧
      (∀ (j : Nat) (u : ULightTestInfo), two_tests.m_tests[j]? = some u →
        (two_tests.m_namedTests = [] ∨ u.testName ∈ two_tests.m_namedTests) →
        (two_tests.Execute 0).1.m_tests[j]? = some (RunTest u two_tests.m_runStressTests).1 ∧
        ((two_tests.Execute 0).2.filter (fun p => p.1 = j)).map Prod.snd =
          (RunTest u two_tests.m_runStressTests).2)) ∧
    ((two_tests_a_crashing.Execute 0).1.m_tests.map (fun t => t.status) =
        [ULightTestStatus.Failed, ULightTestStatus.Passed] ∧
      (two_tests_a_crashing.Execute 0).2 =
        [(0, Invocation.testSetup), (0, Invocation.task 0), (1, Invocation.testFn)]) :=
  ⟨⟨by decide, by decide, by decide, by decide, by decide⟩,
    Execute_noninterference two_tests two_tests_a_crashing 0 0 1 test_b (by decide) (by decide)
      (by decide) (by decide),
    by decide, by decide⟩

/-- C12.  After any sequence of registrations the registry holds each name
used exactly once: the names of its descriptors are without repetition, they
are the names used, and they stand in the order in which the names were first
used.  One more registration under a name that is there leaves the names as
they are; under a new name it adds that name at the end. -/
theorem registry_one_per_name (calls : List Registration) :
    ((registered calls).m_tests.map (fun t => t.testName)).Nodup ∧
    (∀ n, n ∈ (registered calls).m_tests.map (fun t => t.testName) ↔
      n ∈ calls.map (fun c => c.testName)) ∧
    (registered calls).m_tests.map (fun t => t.testName) =
      first_names (calls.map (fun c => c.testName)) ∧
    (∀ c : Registration,
      (registered (calls ++ [c])).m_tests.map (fun t => t.testName) =
        if c.testName ∈ (registered calls).m_tests.map (fun t => t.testName) then
          (registered calls).m_tests.map (fun t => t.testName)
        else (registered calls).m_tests.map (fun t => t.testName) ++ [c.testName]) := by
  have hnames : (registered calls).m_tests.map (fun t => t.testName) =
      first_names (calls.map (fun c => c.testName)) := by
    unfold registered first_names
    rw [foldl_UnitTest_names]
    rfl
  obtain ⟨h1, h2⟩ := foldl_first_nodup (calls.map (fun c => c.testName)) [] List.nodup_nil
  refine ⟨?_, ?_, hnames, ?_⟩
  · rw [hnames]
    exact h1
  · intro n
    rw [hnames]
    unfold first_names
    rw [h2 n]
    simp
  · intro c
    have : registered (calls ++ [c]) = UnitTest (registered calls) c := by
      unfold registered
      rw [List.foldl_append]
      rfl
    rw [this]
    exact UnitTest_names _ c

/-- C13 as stated fails.  `AddTask` with count 0 under a name that is not
registered is not a no-op: it adds a descriptor with an empty bag.  Registered
before the test `a`, the name `b` comes first in the registry, and after
`Execute` its descriptor, Inconclusive, is counted in the total and as failed. -/
theorem AddTask_zero_registers :
    (ULightTests.new.AddTask "b" passing 0).m_tests = [ULightTestInfo.new "b" none false] ∧
    (ULightTests.new.AddTask "b" passing 0).m_tests ≠ ULightTests.new.m_tests ∧
    bag_named (ULightTests.new.AddTask "b" passing 0).m_tests "b" = [] ∧
    zero_tasks_then_test.m_tests.map (fun t => t.testName) = ["b", "a"] ∧
    test_alone.m_tests.map (fun t => t.testName) = ["a"] ∧
    (zero_tasks_then_test.Execute 0).1.m_tests.map (fun t => (t.ignore, t.status)) =
      [(false, ULightTestStatus.Inconclusive), (false, ULightTestStatus.Passed)] ∧
    ReportToStream_counts (zero_tasks_then_test.Execute 0).1 =
      { total := 2, passed := 1, skipped := 0, incomplete := 0, failed := 1 } ∧
    ReportToStream_counts (test_alone.Execute 0).1 =
      { total := 1, passed := 1, skipped := 0, incomplete := 0, failed := 0 } := by
  decide

/-- C13, amended.  A call `AddTask(name, action, k)` finds or creates the
descriptor of the name: a name that is not registered gets a new descriptor at
the end of the registry, whatever `k` is.  It makes the bag registered under
the name its previous bag (empty when the name is new) followed by `k` copies
of the action; it leaves the bag under every other name, and every descriptor
with another name, as it was.  With `k = 0` no bag changes, and the registry
is left exactly as it was when the name is already registered; for a new name
it is the registry followed by the new descriptor, whose bag is empty. -/
theorem AddTask_appends (h : ULightTests) (name : String) (action : StdFunction) (k : Nat) :
    bag_named (h.AddTask name action k).m_tests name =
      bag_named h.m_tests name ++ List.replicate k action ∧
    (∀ other, other ≠ name →
      bag_named (h.AddTask name action k).m_tests other = bag_named h.m_tests other) ∧
    (∀ (i : Nat) (t : ULightTestInfo), h.m_tests[i]? = some t → t.testName ≠ name →
      (h.AddTask name action k).m_tests[i]? = some t) ∧
    (k = 0 →
      (∀ n, bag_named (h.AddTask name action k).m_tests n = bag_named h.m_tests n) ∧
      (h.AddTask name action k).m_tests =
        if name ∈ h.m_tests.map (fun t => t.testName) then h.m_tests
        else h.m_tests ++ [ULightTestInfo.new name none false]) ∧
    (h.AddTask name action k).m_tests.map (fun t => t.testName) =
      (if name ∈ h.m_tests.map (fun t => t.testName) then h.m_tests.map (fun t => t.testName)
        else h.m_tests.map (fun t => t.testName) ++ [name]) := by
  rw [AddTask_tests]
  obtain ⟨b1, b2⟩ := bag_named_find_or_create_assign
    (fun testInfo => { testInfo with threadStarter := testInfo.threadStarter.add action k })
    name (List.replicate k action) (fun _ => rfl) (fun t => add_m_tasks _ _ _) h.m_tests
  refine ⟨b1, b2, ?_, ?_, find_or_create_assign_names
    (fun testInfo => { testInfo with threadStarter := testInfo.threadStarter.add action k })
    name (fun _ => rfl) h.m_tests⟩
  · intro i t hi hne
    exact find_or_create_assign_others _ name h.m_tests i t hi hne
  · intro hk
    subst hk
    refine ⟨?_, find_or_create_assign_id _ name (fun _ => rfl) h.m_tests⟩
    intro n
    by_cases hn : n = name
    · subst hn
      rw [b1]
      simp
    · exact b2 n hn

/-- Witness for C13 amended: on `two_tests`, two copies of a task under the
registered name `a`; count 0 under `a`; count 0 under the new name `c`. -/
theorem AddTask_appends_witness :
    bag_named (two_tests.AddTask "a" failing 2).m_tests "a" = [failing, failing] ∧
    bag_named (two_tests.AddTask "a" failing 2).m_tests "b" = [] ∧
    (two_tests.AddTask "a" failing 0).m_tests = two_tests.m_tests ∧
    (two_tests.AddTask "c" failing 0).m_tests =
      two_tests.m_tests ++ [ULightTestInfo.new "c" none false] ∧
    (two_tests.AddTask "c" failing 2).m_tests.map (fun t => t.testName) = ["a", "b", "c"] :=
  ⟨(AddTask_appends two_tests "a" failing 2).1.trans (by decide),
    ((AddTask_appends two_tests "a" failing 2).2.1 "b" (by decide)).trans (by decide),
    ((AddTask_appends two_tests "a" failing 0).2.2.2.1 rfl).2.trans (by decide),
    ((AddTask_appends two_tests "c" failing 0).2.2.2.1 rfl).2.trans (by decide),
    (AddTask_appends two_tests "c" failing 2).2.2.2.2.trans (by decide)⟩

/-- C14 as stated fails.  A starter with one task: after `run` the bag still
holds the task and `has_tasks` is still true. -/
theorem run_leaves_bag_full :
    one_task_starter.has_tasks = true ∧
    one_task_starter.run.2.m_tasks = [passing] ∧
    one_task_starter.run.2.has_tasks = true ∧
    one_task_starter.run.2.has_tasks ≠ false := by
  decide

/-- C14, amended.  Member `run` does not consume the pending bag: it clears only
its list of threads, so after `run` returns the bag is what it was, and for a
non-empty bag `has_tasks` still returns true.  The Run stage relies on this
when it passes a descriptor that has tasks and no body. -/
theorem run_keeps_bag (s : ULightTestThreadStarter) (h : s.has_tasks = true) :
    s.run.2.m_tasks = s.m_tasks ∧ s.run.2.m_threads = [] ∧ s.run.2.has_tasks = true := by
  refine ⟨rfl, rfl, ?_⟩
  rw [← h]
  rfl

/-- Witness for C14 amended: the starter with one task. -/
theorem run_keeps_bag_witness :
    one_task_starter.has_tasks = true ∧
    one_task_starter.run.2.m_tasks = one_task_starter.m_tasks ∧
    one_task_starter.run.2.m_threads = [] ∧
    one_task_starter.run.2.has_tasks = true :=
  ⟨by decide, run_keeps_bag one_task_starter (by decide)⟩

/-- C15.  For every bag, the error list of the summary of `run` holds each text
at most once; a pair `(k, c)` is in the list exactly when `c` workers of the
bag failed with the text `k` (a worker that raised something unexpected fails
with `Unexpected exception`) and `c` is not zero; and the counts of the list
add up to the failed counter, the number of workers that failed. -/
theorem run_error_tally (s : ULightTestThreadStarter) :
    (s.run.1.errors.map Prod.fst).Nodup ∧
    (∀ (k : String) (c : Nat), (k, c) ∈ s.run.1.errors ↔ (0 < c ∧ c = tally s.m_tasks k)) ∧
    (s.run.1.errors.map Prod.snd).sum = s.run.1.failed ∧
    s.run.1.failed = s.m_tasks.countP StdFunction.fails := by
  refine ⟨StdMap.ordered_nodup _ (run_errors_ordered s), ?_, run_errors_sum s,
    (run_counters s).2.1⟩
  intro k c
  constructor
  · intro hmem
    have hfind := StdMap.mem_find _ k c (run_errors_ordered s) hmem
    rw [run_errors_find] at hfind
    by_cases h0 : tally s.m_tasks k = 0
    · simp [h0] at hfind
    · simp only [if_neg h0, Option.some.injEq] at hfind
      omega
  · rintro ⟨hpos, hc⟩
    apply StdMap.find_some_mem
    rw [run_errors_find, ← hc]
    have : c ≠ 0 := by omega
    simp [this]

/-- C16.  When two bags hold the same workers in different orders, and whatever
the orders in which the workers of each finish, the shared counters end the
same, so `run` reports the same passed, failed, skipped and incomplete
counters for both (and the same error list). -/
theorem run_order_independent (s1 s2 : ULightTestThreadStarter) (o1 o2 : List Nat)
    (hbag : s1.m_tasks.Perm s2.m_tasks)
    (h1 : o1.Perm (List.range s1.m_tasks.length))
    (h2 : o2.Perm (List.range s2.m_tasks.length)) :
    join_in_order s1.m_tasks o1 = join_in_order s2.m_tasks o2 ∧
    s1.run.1.passed = (join_in_order s1.m_tasks o1).get_passed ∧
    s1.run.1.failed = (join_in_order s1.m_tasks o1).get_failed ∧
    s1.run.1.skipped = (join_in_order s1.m_tasks o1).get_skipped ∧
    s1.run.1.incomplete = (join_in_order s1.m_tasks o1).get_incomplete ∧
    s1.run.1.passed = s2.run.1.passed ∧
    s1.run.1.failed = s2.run.1.failed ∧
    s1.run.1.skipped = s2.run.1.skipped ∧
    s1.run.1.incomplete = s2.run.1.incomplete ∧
    s1.run.1.errors = s2.run.1.errors := by
  have e1 := join_in_order_perm s1.m_tasks o1 h1
  have e2 := join_in_order_perm s2.m_tasks o2 h2
  have e3 := foldl_thread_proc_perm s1.m_tasks s2.m_tasks hbag
  refine ⟨by rw [e1, e2, e3], by rw [e1]; rfl, by rw [e1]; rfl, by rw [e1]; rfl,
    by rw [e1]; rfl, ?_, ?_, ?_, ?_, ?_⟩ <;>
  · simp only [ULightTestThreadStarter.run]
    rw [e3]

/-- Witness for C16: the bags `zebra_apple_bag` with a passing worker in front
and `apple_zebra_bag`, finishing last to first and first to last. -/
theorem run_order_independent_witness :
    ((ULightTestThreadStarter.mk (passing :: zebra_apple_bag) []).m_tasks.Perm
        (ULightTestThreadStarter.mk apple_zebra_bag []).m_tasks ∧
      [2, 1, 0].Perm
        (List.range (ULightTestThreadStarter.mk (passing :: zebra_apple_bag) []).m_tasks.length) ∧
      [0, 1, 2].Perm
        (List.range (ULightTestThreadStarter.mk apple_zebra_bag []).m_tasks.length)) ∧
    (ULightTestThreadStarter.mk (passing :: zebra_apple_bag) []).run.1.failed =
      (ULightTestThreadStarter.mk apple_zebra_bag []).run.1.failed ∧
    join_in_order (passing :: zebra_apple_bag) [2, 1, 0] =
      join_in_order apple_zebra_bag [0, 1, 2] :=
  ⟨⟨by decide, by decide, by decide⟩,
    (run_order_independent (ULightTestThreadStarter.mk (passing :: zebra_apple_bag) [])
      (ULightTestThreadStarter.mk apple_zebra_bag []) [2, 1, 0] [0, 1, 2]
      (by decide) (by decide) (by decide)).2.2.2.2.2.2.1,
    (run_order_independent (ULightTestThreadStarter.mk (passing :: zebra_apple_bag) [])
      (ULightTestThreadStarter.mk apple_zebra_bag []) [2, 1, 0] [0, 1, 2]
      (by decide) (by decide) (by decide)).1⟩

/-- C17.  For a descriptor that reaches the Task stage with a bag in which at
least one worker fails, the stage sets the status to Failed and the error to
`Error occurred in {count} threads: {message}`, where `(message, count)` is
the first entry of the error list of the summary.  When all the workers that
fail, `N` of them, fail with the same text `m`, the error is
`Error occurred in N threads: m`. -/
theorem RunTestFn_Task_failure_text (t : ULightTestInfo) (rs : Bool)
    (hreach : (!rs && t.stressTest) = false)
    (hfail : ∃ f ∈ t.threadStarter.m_tasks, f.fails = true) :
    (RunTestFn ULightTestStage.Task t rs).1.status = ULightTestStatus.Failed ∧
    (∃ message count rest, t.threadStarter.run.1.errors = (message, count) :: rest ∧
      (RunTestFn ULightTestStage.Task t rs).1.error =
        "Error occurred in " ++ toString count ++ " threads: " ++ message) ∧
    (∀ m : String, (∀ f ∈ t.threadStarter.m_tasks, f.fails = true → f.failure = some m) →
      (RunTestFn ULightTestStage.Task t rs).1.error =
        "Error occurred in " ++ toString (t.threadStarter.m_tasks.countP StdFunction.fails) ++
          " threads: " ++ m) := by
  obtain ⟨hpos, hne⟩ := run_failed_pos t.threadStarter hfail
  have hbag : t.threadStarter.has_tasks = true := by
    obtain ⟨f, hf, -⟩ := hfail
    simp only [ULightTestThreadStarter.has_tasks, decide_eq_true_eq]
    exact List.length_pos_of_mem hf
  have hrun : (RunTestFn ULightTestStage.Task t rs).1 = RunTestFn_task t := by
    rw [RunTestFn_Task t rs hreach, if_pos hbag]
  rw [hrun]
  refine ⟨?_, ?_, ?_⟩
  · rw [RunTestFn_task_status, if_pos hpos]
  · cases herr : t.threadStarter.run.1.errors with
    | nil => exact absurd herr hne
    | cons first rest =>
      refine ⟨first.1, first.2, rest, rfl, ?_⟩
      rw [RunTestFn_task_error, herr]
  · intro m hsame
    rw [RunTestFn_task_error, run_errors_single t.threadStarter m hfail hsame]

/-- Witness for C17: three workers fail with `expected 1`, one passes, one
skips. -/
theorem RunTestFn_Task_failure_text_witness :
    ((!false && same_message_descriptor.stressTest) = false ∧
      (∃ f ∈ same_message_descriptor.threadStarter.m_tasks, f.fails = true) ∧
      (∀ f ∈ same_message_descriptor.threadStarter.m_tasks, f.fails = true →
        f.failure = some "expected 1")) ∧
    (RunTestFn ULightTestStage.Task same_message_descriptor false).1.status =
      ULightTestStatus.Failed ∧
    (RunTestFn ULightTestStage.Task same_message_descriptor false).1.error =
      "Error occurred in 3 threads: expected 1" :=
  ⟨⟨by decide, by decide, by decide⟩,
    (RunTestFn_Task_failure_text same_message_descriptor false (by decide) (by decide)).1,
    (RunTestFn_Task_failure_text same_message_descriptor false (by decide)
      (by decide)).2.2 "expected 1" (by decide)⟩

/-- C18 as stated fails.  The worker that fails with `zebra` finishes first,
the one that fails with `apple` second; the error list of the summary starts
with `apple`, and `apple` is the error shown for the test. -/
theorem errors_not_in_encounter_order :
    zebra_apple_bag.map StdFunction.failure = [some "zebra", some "apple"] ∧
    (join_in_order zebra_apple_bag [0, 1]).get_errors = [("apple", 1), ("zebra", 1)] ∧
    (join_in_order zebra_apple_bag [0, 1]).get_errors ≠ [("zebra", 1), ("apple", 1)] ∧
    zebra_apple_descriptor.threadStarter.run.1.errors = [("apple", 1), ("zebra", 1)] ∧
    (RunTestFn ULightTestStage.Task zebra_apple_descriptor false).1.error =
      "Error occurred in 1 threads: apple" := by
  decide

/-- C18, amended.  Whatever the order in which the workers finish, the error
list of the summary is in ascending order of the message text, the iteration
order of the map that holds the tally; it is the same list for every order,
and its first entry, the error shown for the test, carries the text that is
least in that order among the texts the workers failed with. -/
theorem errors_in_text_order (tasks : List StdFunction) (order : List Nat)
    (h : order.Perm (List.range tasks.length)) :
    StdMap.Ordered (join_in_order tasks order).get_errors ∧
    (join_in_order tasks order).get_errors =
      (ULightTestThreadStarter.mk tasks []).run.1.errors ∧
    (∀ first rest, (join_in_order tasks order).get_errors = first :: rest →
      ∀ f ∈ tasks, ∀ k, f.failure = some k → first.1 = k ∨ first.1.data < k.data) := by
  have heq : (join_in_order tasks order).get_errors =
      (ULightTestThreadStarter.mk tasks []).run.1.errors := by
    rw [join_in_order_perm tasks order h]
    rfl
  have hord := run_errors_ordered (ULightTestThreadStarter.mk tasks [])
  refine ⟨by rw [heq]; exact hord, heq, ?_⟩
  intro first rest hfirst f hf k hk
  rw [heq] at hfirst
  have hpos : tally tasks k ≠ 0 := by
    unfold tally
    have : 0 < tasks.countP (fun f => decide (f.failure = some k)) :=
      List.countP_pos_iff.mpr ⟨f, hf, by simpa using hk⟩
    omega
  have hfind := run_errors_find (ULightTestThreadStarter.mk tasks []) k
  simp only [if_neg hpos] at hfind
  have hmem := StdMap.find_some_mem _ k _ hfind
  rw [hfirst] at hmem hord
  rcases List.mem_cons.mp hmem with hm | hm
  · left
    rw [← hm]
  · right
    exact (List.pairwise_cons.mp hord).1 _ hm

/-- Witness for C18 amended: the bag `zebra_apple_bag`, finishing first to
last. -/
theorem errors_in_text_order_witness :
    [0, 1].Perm (List.range zebra_apple_bag.length) ∧
    StdMap.Ordered (join_in_order zebra_apple_bag [0, 1]).get_errors ∧
    (join_in_order zebra_apple_bag [0, 1]).get_errors =
      (ULightTestThreadStarter.mk zebra_apple_bag []).run.1.errors :=
  ⟨by decide, (errors_in_text_order zebra_apple_bag [0, 1] (by decide)).1,
    (errors_in_text_order zebra_apple_bag [0, 1] (by decide)).2.1⟩

/-- C19 fails on a build that defines `__MACH__`: there `portable_gettime`
reports a failed `gettimeofday` (return value -1) as a success and leaves `tm`
as it came in.  A timer whose start reading failed is not marked bad and takes
its start point from that content, so a later `Poll` returns a difference, not
0, and a `Poll` whose own reading failed does the same: with `tm` holding 3 s
in the one case and 10 s in the other the result is 7000000.  On the other
build the same inputs give 0. -/
theorem Poll_after_failed_read (now : timeval) (tm0 tm1 : timespec) (pit0 : Int) :
    (ULightTestTimer.new true (failed_clock now) tm0 pit0).m_bad = false ∧
    (ULightTestTimer.new true (failed_clock now) tm0 pit0).m_pit = ToMicroSeconds tm0 ∧
    ((ULightTestTimer.new true (failed_clock now) tm0 pit0).Poll true (failed_clock now) tm1).1 =
      wrap64 (ToMicroSeconds tm1 - ToMicroSeconds tm0) ∧
    ((ULightTestTimer.new true (failed_clock now) { tv_sec := 3, tv_nsec := 0 } pit0).Poll true
      (clock_at 10 0) tm1).1 = 7000000 ∧
    ((ULightTestTimer.new true (clock_at 3 0) tm0 pit0).Poll true (failed_clock now)
      { tv_sec := 10, tv_nsec := 0 }).1 = 7000000 ∧
    ((ULightTestTimer.new false (failed_clock now) { tv_sec := 3, tv_nsec := 0 } pit0).Poll false
      (clock_at 10 0) tm1).1 = 0 ∧
    ((ULightTestTimer.new false (clock_at 3 0) tm0 pit0).Poll false (failed_clock now)
      { tv_sec := 10, tv_nsec := 0 }).1 = 0 := by
  have e1 : ∀ tm, portable_gettime true (failed_clock now) tm = (true, tm) := by
    intro tm
    simp [portable_gettime, failed_clock]
  have e2 : ∀ (sec : Int) (tm : timespec),
      portable_gettime true (clock_at sec 0) tm = (true, { tv_sec := sec, tv_nsec := 0 }) := by
    intro sec tm
    simp [portable_gettime, clock_at, wrap64]
  have e3 : ToMicroSeconds { tv_sec := 3, tv_nsec := 0 } = 3000000 := by decide
  have e4 : ToMicroSeconds { tv_sec := 10, tv_nsec := 0 } = 10000000 := by decide
  have e5 : wrap64 7000000 = 7000000 := by decide
  have e6 : (failed_clock now).clock_gettime.1 < 0 := by
    simp [failed_clock]
  refine ⟨?_, ?_, ?_, ?_, ?_, ?_, ?_⟩
  · simp [ULightTestTimer.new, e1]
  · simp [ULightTestTimer.new, e1]
  · simp [ULightTestTimer.Poll, ULightTestTimer.new, e1]
  · simp [ULightTestTimer.Poll, ULightTestTimer.new, e1, e2, e3, e4, e5]
  · simp [ULightTestTimer.Poll, ULightTestTimer.new, e1, e2, e3, e4, e5]
  · exact (Poll_failure_zero _ _ _ _ _).1 e6
  · exact (Poll_failure_zero _ _ _ _ _).2 e6

/-- C20.  The destructor of a timer bound to the harness, while the descriptor
at position `i` is current, replaces that descriptor by one with `benchmarked`
true and `benchmarktime` the value of `Poll`, in which every field other than
these two and `itemsPerSecond` is as before, and leaves the other descriptors
and the rest of the harness alone.  With an items-count of 0 (or below)
`itemsPerSecond` is as before too, hence 0 when it was 0; with a positive one
it is assigned. -/
theorem destructor_marks_current (t : ULightTestTimer) (h : ULightTests) (mach : Bool)
    (clock : Clock) (tm : timespec) (rate : Int → Int → Int) (i : Nat) (testInfo : ULightTestInfo)
    (hbound : t.m_unitTests = true) (hcur : h.GetCurrentTestInfo = some i)
    (hi : h.m_tests[i]? = some testInfo) :
    ∃ u : ULightTestInfo,
      t.destructor h mach clock tm rate = some { h with m_tests := h.m_tests.set i u } ∧
      (h.m_tests.set i u)[i]? = some u ∧
      (∀ j, j ≠ i → (h.m_tests.set i u)[j]? = h.m_tests[j]?) ∧
      u.benchmarked = true ∧
      u.benchmarktime = (t.Poll mach clock tm).1 ∧
      (u.status = testInfo.status ∧ u.error = testInfo.error ∧
        u.filename = testInfo.filename ∧ u.lineNumber = testInfo.lineNumber ∧
        u.ignore = testInfo.ignore) ∧
      (u.testName = testInfo.testName ∧ u.testSetup = testInfo.testSetup ∧
        u.testFn = testInfo.testFn ∧ u.testTeardown = testInfo.testTeardown ∧
        u.threadStarter = testInfo.threadStarter ∧ u.stressTest = testInfo.stressTest) ∧
      (t.m_loopCount ≤ 0 → u.itemsPerSecond = testInfo.itemsPerSecond) ∧
      (t.m_loopCount = 0 → testInfo.itemsPerSecond = 0 → u.itemsPerSecond = 0) ∧
      (0 < t.m_loopCount →
        u.itemsPerSecond = rate (t.Poll mach clock tm).1 t.m_loopCount) := by
  have hlen : i < h.m_tests.length := by
    rcases Nat.lt_or_ge i h.m_tests.length with hl | hl
    · exact hl
    · rw [List.getElem?_eq_none hl] at hi
      cases hi
  by_cases hk : t.m_loopCount > 0
  · refine ⟨{ testInfo with
        benchmarked := true
        benchmarktime := (t.Poll mach clock tm).1
        itemsPerSecond := rate (t.Poll mach clock tm).1 t.m_loopCount }, ?_, ?_, ?_, rfl, rfl,
      ⟨rfl, rfl, rfl, rfl, rfl⟩, ⟨rfl, rfl, rfl, rfl, rfl, rfl⟩, ?_, ?_, ?_⟩
    · simp [ULightTestTimer.destructor, hbound, hcur, hi, hk]
    · simp [hlen]
    · intro j hj
      exact List.getElem?_set_ne (Ne.symm hj)
    · intro hle
      omega
    · intro h0
      omega
    · intro _
      rfl
  · refine ⟨{ testInfo with
        benchmarked := true
        benchmarktime := (t.Poll mach clock tm).1 },
      ?_, ?_, ?_, rfl, rfl, ⟨rfl, rfl, rfl, rfl, rfl⟩, ⟨rfl, rfl, rfl, rfl, rfl, rfl⟩, ?_, ?_, ?_⟩
    · simp [ULightTestTimer.destructor, hbound, hcur, hi, hk]
    · simp [hlen]
    · intro j hj
      exact List.getElem?_set_ne (Ne.symm hj)
    · intro _
      rfl
    · intro _ hz
      exact hz
    · intro hpos
      exact absurd hpos hk

/-- Witness for C20: a timer with items-count 0 bound to the harness at 10 s,
going out of scope at 12.0005 s while the second test of `two_tests` runs. -/
theorem destructor_marks_current_witness :
    ((ULightTestTimer.bind false (clock_at 10 0) { tv_sec := 0, tv_nsec := 0 } 0 true 0).m_unitTests
        = true ∧
      two_tests_b_running.GetCurrentTestInfo = some 1 ∧
      two_tests_b_running.m_tests[1]? = some test_b) ∧
    (∃ u : ULightTestInfo,
      (ULightTestTimer.bind false (clock_at 10 0) { tv_sec := 0, tv_nsec := 0 } 0 true
          0).destructor two_tests_b_running false (clock_at 12 500000)
          { tv_sec := 0, tv_nsec := 0 } (fun _ _ => 0) =
        some { two_tests_b_running with m_tests := two_tests_b_running.m_tests.set 1 u } ∧
      u.benchmarked = true ∧ u.benchmarktime = 2000500 ∧ u.itemsPerSecond = 0 ∧
      u.status = test_b.status ∧ u.error = test_b.error) :=
  ⟨⟨by decide, by decide, by decide⟩,
    (destructor_marks_current
      (ULightTestTimer.bind false (clock_at 10 0) { tv_sec := 0, tv_nsec := 0 } 0 true 0)
      two_tests_b_running false (clock_at 12 500000) { tv_sec := 0, tv_nsec := 0 }
      (fun _ _ => 0) 1 test_b (by decide) (by decide) (by decide)).elim
      (fun u hu => ⟨u, hu.1, hu.2.2.2.1, hu.2.2.2.2.1.trans (by decide),
        hu.2.2.2.2.2.2.2.2.1 (by decide) (by decide), hu.2.2.2.2.2.1.1,
        hu.2.2.2.2.2.1.2.1⟩)⟩

/-- C21 fails.  When a timer bound to the harness with a positive items-count
goes out of scope while the descriptor at position `i` is current and `Poll`
returns 0, the destructor does evaluate `1000000.0 / ((double)poll)` with
`poll = 0`, and it assigns to `itemsPerSecond` what the platform makes of
`(1000000.0 / 0.0) * m_loopCount` converted to `int64_t`: the field is not
left as it was. -/
theorem destructor_zero_elapsed (t : ULightTestTimer) (h : ULightTests) (mach : Bool)
    (clock : Clock) (tm : timespec) (rate : Int → Int → Int) (i : Nat) (testInfo : ULightTestInfo)
    (hbound : t.m_unitTests = true) (hcur : h.GetCurrentTestInfo = some i)
    (hi : h.m_tests[i]? = some testInfo) (hK : 0 < t.m_loopCount)
    (hzero : (t.Poll mach clock tm).1 = 0) :
    (t.destructor_traced h mach clock tm rate).2 = [0] ∧
    (t.destructor_traced h mach clock tm rate).1 = t.destructor h mach clock tm rate ∧
    ∃ u : ULightTestInfo,
      t.destructor h mach clock tm rate = some { h with m_tests := h.m_tests.set i u } ∧
      (h.m_tests.set i u)[i]? = some u ∧
      u.benchmarked = true ∧ u.benchmarktime = 0 ∧
      u.itemsPerSecond = rate 0 t.m_loopCount := by
  have hlen : i < h.m_tests.length := by
    rcases Nat.lt_or_ge i h.m_tests.length with hl | hl
    · exact hl
    · rw [List.getElem?_eq_none hl] at hi
      cases hi
  have hk : t.m_loopCount > 0 := hK
  refine ⟨?_, destructor_traced_fst t h mach clock tm rate, ?_⟩
  · rw [destructor_traced_snd t h mach clock tm rate i testInfo hbound hcur hi, if_pos hk, hzero]
  · refine ⟨{ testInfo with
        benchmarked := true
        benchmarktime := 0
        itemsPerSecond := rate 0 t.m_loopCount }, ?_, ?_, rfl, rfl, rfl⟩
    · simp [ULightTestTimer.destructor, hbound, hcur, hi, hk, hzero]
    · simp [hlen]

/-- Witness for C21 failing: a timer with items-count 5 whose start reading
failed, so that `Poll` returns 0, going out of scope while the second test of
`two_tests` runs.  With the sample `rate` the field `itemsPerSecond`, 0 before,
ends as `-2^63`.  The same happens to a timer started at 10 s that goes out of
scope within the same microsecond. -/
theorem destructor_zero_elapsed_witness :
    ((ULightTestTimer.bind false (failed_clock { tv_sec := 0, tv_usec := 0 })
          { tv_sec := 0, tv_nsec := 0 } 0 true 5).m_unitTests = true ∧
      two_tests_b_running.GetCurrentTestInfo = some 1 ∧
      two_tests_b_running.m_tests[1]? = some test_b ∧
      test_b.itemsPerSecond = 0 ∧
      ((ULightTestTimer.bind false (failed_clock { tv_sec := 0, tv_usec := 0 })
          { tv_sec := 0, tv_nsec := 0 } 0 true 5).Poll false (clock_at 12 0)
          { tv_sec := 0, tv_nsec := 0 }).1 = 0 ∧
      ((ULightTestTimer.bind false (clock_at 10 0) { tv_sec := 0, tv_nsec := 0 } 0 true 5).Poll
          false (clock_at 10 999) { tv_sec := 0, tv_nsec := 0 }).1 = 0) ∧
    ((ULightTestTimer.bind false (failed_clock { tv_sec := 0, tv_usec := 0 })
        { tv_sec := 0, tv_nsec := 0 } 0 true 5).destructor_traced two_tests_b_running false
        (clock_at 12 0) { tv_sec := 0, tv_nsec := 0 } sample_rate).2 = [0] ∧
    (∃ u : ULightTestInfo,
      (ULightTestTimer.bind false (failed_clock { tv_sec := 0, tv_usec := 0 })
          { tv_sec := 0, tv_nsec := 0 } 0 true 5).destructor two_tests_b_running false
          (clock_at 12 0) { tv_sec := 0, tv_nsec := 0 } sample_rate =
        some { two_tests_b_running with m_tests := two_tests_b_running.m_tests.set 1 u } ∧
      u.itemsPerSecond = -9223372036854775808 ∧ u.itemsPerSecond ≠ 0) ∧
    (∃ u : ULightTestInfo,
      (ULightTestTimer.bind false (clock_at 10 0) { tv_sec := 0, tv_nsec := 0 } 0 true
          5).destructor two_tests_b_running false (clock_at 10 999)
          { tv_sec := 0, tv_nsec := 0 } sample_rate =
        some { two_tests_b_running with m_tests := two_tests_b_running.m_tests.set 1 u } ∧
      u.itemsPerSecond = -9223372036854775808) :=
  ⟨⟨by decide, by decide, by decide, by decide, by decide, by decide⟩,
    (destructor_zero_elapsed
      (ULightTestTimer.bind false (failed_clock { tv_sec := 0, tv_usec := 0 })
        { tv_sec := 0, tv_nsec := 0 } 0 true 5)
      two_tests_b_running false (clock_at 12 0) { tv_sec := 0, tv_nsec := 0 } sample_rate 1
      test_b (by decide) (by decide) (by decide) (by decide) (by decide)).1,
    (destructor_zero_elapsed
      (ULightTestTimer.bind false (failed_clock { tv_sec := 0, tv_usec := 0 })
        { tv_sec := 0, tv_nsec := 0 } 0 true 5)
      two_tests_b_running false (clock_at 12 0) { tv_sec := 0, tv_nsec := 0 } sample_rate 1
      test_b (by decide) (by decide) (by decide) (by decide) (by decide)).2.2.elim
      (fun u hu => ⟨u, hu.1, hu.2.2.2.2.trans (by decide),
        fun h0 => absurd (hu.2.2.2.2.symm.trans h0) (by decide)⟩),
    (destructor_zero_elapsed
      (ULightTestTimer.bind false (clock_at 10 0) { tv_sec := 0, tv_nsec := 0 } 0 true 5)
      two_tests_b_running false (clock_at 10 999) { tv_sec := 0, tv_nsec := 0 } sample_rate 1
      test_b (by decide) (by decide) (by decide) (by decide) (by decide)).2.2.elim
      (fun u hu => ⟨u, hu.1, hu.2.2.2.2.trans (by decide)⟩)⟩

/-- C22 as stated fails.  For the path `tests/`, which ends with `/`, the
last `/` is at position 5 and nothing follows it, yet the assertion failure
carries the whole path, which contains a `/`. -/
theorem FixFileName_keeps_trailing_slash :
    find_last_of "tests/".data '/' = some 5 ∧
    "tests/".data.drop (5 + 1) = [] ∧
    FixFileName "tests/" = "tests/" ∧
    (UnitTestException.new "expected 1" "tests/" 42).filename = "tests/" ∧
    '/' ∈ (UnitTestException.new "expected 1" "tests/" 42).filename.data := by
  decide

/-- C22, amended.  The file name an assertion failure carries is
`FixFileName` of the path given: the path itself when it contains no `/` or
when it ends with `/`, and otherwise the part of the path after its last `/`.
It contains a `/` exactly when the path ends with `/`. -/
theorem FixFileName_basename (filename : String) :
    (∀ (error_ : String) (lineNumber_ : Int),
      (UnitTestException.new error_ filename lineNumber_).filename = FixFileName filename) ∧
    ('/' ∉ filename.data → FixFileName filename = filename) ∧
    (∀ dir : List Char, filename.data = dir ++ ['/'] → FixFileName filename = filename) ∧
    (∀ dir base : List Char, filename.data = dir ++ '/' :: base → '/' ∉ base → base ≠ [] →
      FixFileName filename = String.mk base) ∧
    ('/' ∈ (FixFileName filename).data ↔ ∃ dir : List Char, filename.data = dir ++ ['/']) := by
  refine ⟨fun _ _ => rfl, FixFileName_plain filename, FixFileName_trailing filename,
    FixFileName_split filename, ?_⟩
  cases hf : find_last_of filename.data '/' with
  | none =>
    have hno := (find_last_of_none _ _).mp hf
    rw [FixFileName_plain filename hno]
    constructor
    · intro hin
      exact absurd hin hno
    · rintro ⟨dir, hd⟩
      exfalso
      apply hno
      rw [hd]
      simp
  | some pos =>
    obtain ⟨-, hsplit, hrest⟩ := find_last_of_some _ _ _ hf
    by_cases hb : filename.data.drop (pos + 1) = []
    · rw [hb] at hsplit
      rw [FixFileName_trailing filename _ hsplit]
      constructor
      · intro _
        exact ⟨_, hsplit⟩
      · intro _
        rw [hsplit]
        simp
    · rw [FixFileName_split filename _ _ hsplit hrest hb]
      constructor
      · intro hin
        exact absurd hin hrest
      · rintro ⟨dir, hd⟩
        exfalso
        apply hrest
        apply mem_of_ends_with (filename.data.take pos) _ dir '/' hb
        rw [← hsplit]
        exact hd

/-- Witness for C22 amended: a path with two directories, a plain file name,
and a path that ends with `/`. -/
theorem FixFileName_basename_witness :
    FixFileName "src/tests/sample.cpp" = "sample.cpp" ∧
    FixFileName "sample.cpp" = "sample.cpp" ∧
    FixFileName "" = "" ∧
    ('/' ∈ (FixFileName "src/tests/").data ↔
      ∃ dir : List Char, "src/tests/".data = dir ++ ['/']) :=
  ⟨(FixFileName_basename "src/tests/sample.cpp").2.2.2.1 "src/tests".data "sample.cpp".data
      (by decide) (by decide) (by decide),
    (FixFileName_basename "sample.cpp").2.1 (by decide),
    by decide,
    (FixFileName_basename "src/tests/").2.2.2.2⟩

/-- C23.  Soundness of Passed.  For a descriptor that starts Inconclusive: if
its status after `RunTest` is Passed, then it was not stress-skipped, neither
setup, body nor teardown raised anything, every worker returned (none failed,
skipped or reported incomplete), and the descriptor has a body or a non-empty
bag.  And when the status after Setup and the Task stage is not Inconclusive,
the body is not invoked and the final status is not Passed. -/
theorem RunTest_Passed_sound (t : ULightTestInfo) (rs : Bool)
    (hinit : t.status = ULightTestStatus.Inconclusive) :
    ((RunTest t rs).1.status = ULightTestStatus.Passed →
      (!rs && t.stressTest) = false ∧
      t.testSetup.quiet = true ∧ t.testFn.quiet = true ∧ t.testTeardown.quiet = true ∧
      (∀ f ∈ t.threadStarter.m_tasks, f.call = Outcome.returns ∧ f.fails = false ∧
        f.skips = false ∧ f.incompletes = false) ∧
      (t.testFn.toBool = true ∨ t.threadStarter.has_tasks = true)) ∧
    ((RunTestFn ULightTestStage.Task (RunTestFn ULightTestStage.Setup t rs).1 rs).1.status ≠
        ULightTestStatus.Inconclusive →
      Invocation.testFn ∉ (RunTest t rs).2 ∧
      (RunTest t rs).1.status ≠ ULightTestStatus.Passed) := by
  by_cases hs : (!rs && t.stressTest) = true
  · rw [RunTest_stress t rs hs]
    exact ⟨fun hp => (by cases hp), fun _ => ⟨by simp, fun hp => (by cases hp)⟩⟩
  · have h : (!rs && t.stressTest) = false := by simpa using hs
    have hadverse : (RunTestFn ULightTestStage.Task
        (RunTestFn ULightTestStage.Setup t rs).1 rs).1.status.adverse = true →
        Invocation.testFn ∉ (RunTest t rs).2 ∧
        (RunTest t rs).1.status ≠ ULightTestStatus.Passed := by
      intro hadv
      obtain ⟨a1, a2⟩ := RunTest_adverse t rs h hadv
      refine ⟨a1, ?_⟩
      intro hp
      rw [hp] at a2
      cases a2
    constructor
    · intro hp
      rcases entry_to_Run_cases t rs h hinit with ⟨hst, hq, hall⟩ | hadv
      · obtain ⟨e1, e2, e3, e4, e5⟩ := entry_to_Run_quiet t rs h hq hall
        have hp2 : (RunTestFn ULightTestStage.Teardown (RunTestFn ULightTestStage.Run
            (RunTestFn ULightTestStage.Task (RunTestFn ULightTestStage.Setup t rs).1 rs).1 rs).1
            rs).1.status = ULightTestStatus.Passed := hp
        obtain ⟨-, -, r3, r4, -, -, r7⟩ := RunTestFn_frame ULightTestStage.Run
          (RunTestFn ULightTestStage.Task (RunTestFn ULightTestStage.Setup t rs).1 rs).1 rs
        have h3 : (!rs && (RunTestFn ULightTestStage.Run (RunTestFn ULightTestStage.Task
            (RunTestFn ULightTestStage.Setup t rs).1 rs).1 rs).1.stressTest) = false := by
          rw [r7]
          exact e5
        have htd : t.testTeardown.quiet = true := by
          by_cases hq3 : t.testTeardown.quiet = true
          · exact hq3
          · exfalso
            have := RunTestFn_Teardown_adverse _ rs h3
              (by rw [r3, e3]; simpa using hq3)
            rw [hp2] at this
            cases this
        rw [RunTestFn_Teardown_quiet _ rs h3 (by rw [r3, e3]; exact htd)] at hp2
        have hrun := RunTestFn_Run_passed _ rs e5 hst hp2
        rw [e2, e4] at hrun
        refine ⟨h, hq, ?_, htd, ?_, ?_⟩
        · rcases hrun with hb | ⟨hb, -⟩ <;> rw [hb] <;> rfl
        · intro f hf
          have hc := hall f hf
          refine ⟨hc, ?_, ?_, ?_⟩
          · simp [StdFunction.fails, StdFunction.failure, hc]
          · simp [StdFunction.skips, hc]
          · simp [StdFunction.incompletes, hc]
        · rcases hrun with hb | ⟨-, hbag⟩
          · left
            rw [hb]
            rfl
          · right
            exact hbag
      · exact absurd hp (hadverse hadv).2
    · intro hne
      rcases entry_to_Run_cases t rs h hinit with ⟨hst, -, -⟩ | hadv
      · exact absurd hst hne
      · exact hadverse hadv

/-- Witness for C23: `passing_descriptor` ends Passed, and `troubled_descriptor`,
whose setup fails, reaches the Run stage Failed and stays so. -/
theorem RunTest_Passed_sound_witness :
    (passing_descriptor.status = ULightTestStatus.Inconclusive ∧
      (RunTest passing_descriptor false).1.status = ULightTestStatus.Passed ∧
      troubled_descriptor.status = ULightTestStatus.Inconclusive ∧
      (RunTestFn ULightTestStage.Task
        (RunTestFn ULightTestStage.Setup troubled_descriptor false).1 false).1.status ≠
        ULightTestStatus.Inconclusive) ∧
    ((!false && passing_descriptor.stressTest) = false ∧
      passing_descriptor.testSetup.quiet = true ∧ passing_descriptor.testFn.quiet = true ∧
      passing_descriptor.testTeardown.quiet = true ∧
      (∀ f ∈ passing_descriptor.threadStarter.m_tasks, f.call = Outcome.returns ∧
        f.fails = false ∧ f.skips = false ∧ f.incompletes = false) ∧
      (passing_descriptor.testFn.toBool = true ∨
        passing_descriptor.threadStarter.has_tasks = true)) ∧
    (Invocation.testFn ∉ (RunTest troubled_descriptor false).2 ∧
      (RunTest troubled_descriptor false).1.status ≠ ULightTestStatus.Passed) :=
  ⟨⟨by decide, by decide, by decide, by decide⟩,
    (RunTest_Passed_sound passing_descriptor false (by decide)).1 (by decide),
    (RunTest_Passed_sound troubled_descriptor false (by decide)).2 (by decide)⟩

/-- C24.  The counters of `ReportToStream`, for a registry of fewer than 2^31
descriptors: `total` is the number of descriptors that are not ignored;
`passed`, `skipped` and `incomplete` are the numbers of those with status
Passed, Skipped and Incomplete; `failed` is the number of the remaining ones,
those with status Failed or Inconclusive; the four add up to `total`.  The
final block shows each counter under its own label. -/
theorem ReportToStream_partition (h : ULightTests) (hsize : h.m_tests.length < 2147483648) :
    (ReportToStream_counts h).total = h.m_tests.countP (fun t => !t.ignore) ∧
    (ReportToStream_counts h).passed =
      h.m_tests.countP (fun t => !t.ignore && t.status = ULightTestStatus.Passed) ∧
    (ReportToStream_counts h).skipped =
      h.m_tests.countP (fun t => !t.ignore && t.status = ULightTestStatus.Skipped) ∧
    (ReportToStream_counts h).incomplete =
      h.m_tests.countP (fun t => !t.ignore && t.status = ULightTestStatus.Incomplete) ∧
    (ReportToStream_counts h).failed =
      h.m_tests.countP (fun t => !t.ignore &&
        (t.status = ULightTestStatus.Failed || t.status = ULightTestStatus.Inconclusive)) ∧
    (ReportToStream_counts h).failed =
      h.m_tests.countP (fun t => !t.ignore && !(t.status = ULightTestStatus.Passed ||
        t.status = ULightTestStatus.Skipped || t.status = ULightTestStatus.Incomplete)) ∧
    (ReportToStream_counts h).passed + (ReportToStream_counts h).failed +
      (ReportToStream_counts h).skipped + (ReportToStream_counts h).incomplete =
      (ReportToStream_counts h).total ∧
    ReportToStream_results h =
      [ " Passed       " ++ toString (ReportToStream_counts h).passed,
        " Failed       " ++ toString (ReportToStream_counts h).failed,
        " Skipped      " ++ toString (ReportToStream_counts h).skipped,
        " Incomplete   " ++ toString (ReportToStream_counts h).incomplete,
        " Total        " ++ toString (ReportToStream_counts h).total ] := by
  obtain ⟨r1, r2, r3, r4, r5⟩ := foldl_ReportToStream_count h.m_tests
    { total := 0, passed := 0, skipped := 0, incomplete := 0, failed := 0 }
    (le_refl _) (le_refl _) (le_refl _) (le_refl _) (le_refl _) (le_refl _) (le_refl _)
    (le_refl _) (le_refl _) (by simp only [zero_add]; exact_mod_cast hsize)
  simp only [zero_add] at r1 r2 r3 r4 r5
  have hsame : h.m_tests.countP (fun t => !t.ignore &&
        (t.status = ULightTestStatus.Failed || t.status = ULightTestStatus.Inconclusive)) =
      h.m_tests.countP (fun t => !t.ignore && !(t.status = ULightTestStatus.Passed ||
        t.status = ULightTestStatus.Skipped || t.status = ULightTestStatus.Incomplete)) := by
    congr 1
    funext t
    cases t.ignore <;> cases t.status <;> rfl
  refine ⟨r1, r2, r3, r4, r5, ?_, ?_, rfl⟩
  · rw [← hsame]
    exact r5
  · unfold ReportToStream_counts
    rw [r1, r2, r3, r4, r5]
    exact_mod_cast countP_status_partition h.m_tests

/-- Witness for C24: the registry `six_tests` after `Execute`: one test each
Failed, Passed, Skipped, Incomplete and Inconclusive, and one ignored. -/
theorem ReportToStream_partition_witness :
    ((six_tests.Execute 0).1.m_tests.length < 2147483648 ∧
      (six_tests.Execute 0).1.m_tests.map (fun t => (t.ignore, t.status)) =
        [(false, ULightTestStatus.Failed), (false, ULightTestStatus.Passed),
          (false, ULightTestStatus.Skipped), (false, ULightTestStatus.Incomplete),
          (false, ULightTestStatus.Inconclusive), (true, ULightTestStatus.Inconclusive)]) ∧
    (ReportToStream_counts (six_tests.Execute 0).1 =
        { total := 5, passed := 1, skipped := 1, incomplete := 1, failed := 2 } ∧
      ReportToStream_results (six_tests.Execute 0).1 =
        [" Passed       1", " Failed       2", " Skipped      1", " Incomplete   1",
          " Total        5"]) ∧
    (ReportToStream_counts (six_tests.Execute 0).1).passed +
      (ReportToStream_counts (six_tests.Execute 0).1).failed +
      (ReportToStream_counts (six_tests.Execute 0).1).skipped +
      (ReportToStream_counts (six_tests.Execute 0).1).incomplete =
      (ReportToStream_counts (six_tests.Execute 0).1).total :=
  ⟨⟨by decide, by decide⟩, ⟨by decide, by decide⟩,
    (ReportToStream_partition (six_tests.Execute 0).1 (by decide)).2.2.2.2.2.2.1⟩

end ULightCpp
